import Mathlib

/-! Main board simulator (winmain.c): display state and rendering.

A shallow embedding of the display code of `winmain.c`: the shadow matrix, the
text overlay, the staleness test, the repaint, the glyph printer, the colour
conversion and the two-line LCD text buffer.

Conventions of the embedding.

* C globals are the fields of `State`, under their C names.  `KeMatrix`,
  `KeTrackball1`, `KeTrackball2` and `KeWhiteLeds` belong to the firmware; the
  `Hl...` fields belong to this module.
* Constants, tables and macros that come from `mainboard.h` and `fontdata.h`
  are the fields of `Board` and, for the LCD, of `Lcd`, under their C names.
* `USHORT` and `UCHAR` values are natural numbers; a reduction modulo `2 ^ 16`
  or `2 ^ 8` is written wherever the C code stores a computed value into such a
  variable.  `ULONG` loop counters run from `0` to a matrix dimension and the
  screen positions computed from them are `20 * (counter + 1)`, so no reduction
  is written for them.
* The drawing surface is the structure `HDC`; `ExtCreatePen` may fail, which is
  an argument of the repaint (the outcome of its successive calls).
-/

namespace Mainboard

/-! ## Data model -/

/-- A matrix of pixels, indexed by row and then by column. -/
abbrev Grid := Nat → Nat → Nat

/-- The array store `m[Row][Column] = Value`. -/
def Grid.set (m : Grid) (Row Column Value : Nat) : Grid :=
  fun r c => if r = Row ∧ c = Column then Value else m r c

/-- Constants, tables and macros that `winmain.c` uses and that `mainboard.h`
and `fontdata.h` declare. -/
structure Board where
  MATRIX_HEIGHT : Nat
  MATRIX_WIDTH : Nat
  KeFontData3x5 : Nat → Nat → Nat
  KeFontData5x7 : Nat → Nat → Nat
  FONT_3X5_NUMERIC_OFFSET : Nat
  FONT_3X5_COLON_OFFSET : Nat
  FONT_3X5_EQUALS_OFFSET : Nat
  FONT_3X5_ALPHA_OFFSET : Nat
  FONT_3X5_SPACE_OFFSET : Nat
  PIXEL_RED : Nat → Nat
  PIXEL_GREEN : Nat → Nat
  PIXEL_BLUE : Nat → Nat
  RGB_PIXEL : Nat → Nat → Nat → Nat
  WHITEPIXEL_TRACKBALL1 : Nat → Nat
  WHITEPIXEL_TRACKBALL2 : Nat → Nat
  WHITEPIXEL_STANDBY : Nat → Nat

/-- The matrix can be addressed by the `UCHAR` coordinates of `HlPrintText`. -/
def Board.Fits (b : Board) : Prop :=
  b.MATRIX_HEIGHT ≤ 255 ∧ b.MATRIX_WIDTH ≤ 255

instance (b : Board) : Decidable b.Fits := by
  unfold Board.Fits
  infer_instance

/-- The globals of `winmain.c` that the matrix and the LCD code read and
write, together with the firmware state (`Ke...`) they are compared with. -/
structure State where
  KeMatrix : Grid
  KeTrackball1 : Nat
  KeTrackball2 : Nat
  KeWhiteLeds : Nat
  HlMatrix : Grid
  HlTextColor : Grid
  HlNewTextPrinted : Bool
  HlTrackball1 : Nat
  HlTrackball2 : Nat
  HlWhiteLeds : Nat
  HlLcdLine1 : Nat → Nat
  HlLcdLine2 : Nat → Nat
  HlLcdCurrentAddress : Nat

/-- Ways in which a routine can fail to return a state. -/
inductive Fault where
  | OutOfBounds
  | NoExit
deriving DecidableEq, Repr

/-! ## Constants defined in winmain.c -/

def MATRIX_PIXEL_WIDTH : Nat := 16

def TRACKBALL_WIDTH : Nat := 24

def STANDBY_LED_WIDTH : Nat := 16

def MATRIX_PIXEL_SPACING : Nat := 20

def MATRIX_SCREEN_HEIGHT (b : Board) : Int :=
  ((b.MATRIX_HEIGHT : Int) + 3) * MATRIX_PIXEL_SPACING

def MATRIX_SCREEN_WIDTH (b : Board) : Int :=
  ((b.MATRIX_WIDTH : Int) + 2) * MATRIX_PIXEL_SPACING

def LCD_HEIGHT : Int := 40

def LCD_Y_PADDING : Int := 2

def LCD_SCREEN_HEIGHT : Int := LCD_HEIGHT + 2 * LCD_Y_PADDING

def TRACKBALL_X_PADDING : Int := 175

def TRACKBALL_Y (b : Board) : Int := MATRIX_SCREEN_HEIGHT b + LCD_SCREEN_HEIGHT

def TRACKBALL1_X (b : Board) : Int := MATRIX_SCREEN_WIDTH b / 2 - TRACKBALL_X_PADDING

def TRACKBALL2_X (b : Board) : Int := MATRIX_SCREEN_WIDTH b / 2 + TRACKBALL_X_PADDING

def STANDBY_X (b : Board) : Int := MATRIX_SCREEN_WIDTH b / 2

/-! ## HlpIsMatrixStale -/

/-- The inner loop of `HlpIsMatrixStale` over the columns still to visit in row
`YPixel`: the first mismatch sets `Changes` and leaves the loop. -/
def scanRow (s : State) (YPixel : Nat) : List Nat → Bool → Bool
  | [], Changes => Changes
  | XPixel :: rest, Changes =>
    if s.KeMatrix YPixel XPixel ≠ s.HlMatrix YPixel XPixel then true
    else scanRow s YPixel rest Changes

/-- The routine `HlpIsMatrixStale`: the value returned and the state left. -/
def HlpIsMatrixStale (b : Board) (s : State) : Bool × State :=
  if s.HlNewTextPrinted ≠ false then
    (true, { s with HlNewTextPrinted := false })
  else
    let Changes := (List.range b.MATRIX_HEIGHT).foldl
      (fun Changes YPixel => scanRow s YPixel (List.range b.MATRIX_WIDTH) Changes) false
    let Changes :=
      if s.HlTrackball1 ≠ s.KeTrackball1 ∨ s.HlTrackball2 ≠ s.KeTrackball2 ∨
          s.HlWhiteLeds ≠ s.KeWhiteLeds then true
      else Changes
    (Changes, s)

/-! ## The drawing surface -/

/-- A GDI pen, told apart by the call that made it.  `Off w` is the pen of width
`w` whose brush colour is `OFF_COLOR`; `Colored w p` is the pen of width `w`
whose brush colour is `HlpPixelToColorRef(p)`; `Stock` is a pen this module did
not create. -/
inductive Pen where
  | Stock (handle : Nat)
  | Off (width : Nat)
  | Colored (width : Nat) (Pixel : Nat)
deriving DecidableEq, Repr

/-- The device context: the selected pen, the current position, and for each
point the pen of the last dot drawn there. -/
structure HDC where
  pen : Pen
  x : Int
  y : Int
  surface : Int → Int → Option Pen

/-- The call `SelectObject(Dc, pen)`: the new context and the pen replaced. -/
def SelectObject (dc : HDC) (pen : Pen) : HDC × Pen :=
  ({ dc with pen := pen }, dc.pen)

/-- The call `MoveToEx(Dc, X, Y, NULL)`. -/
def MoveToEx (dc : HDC) (X Y : Int) : HDC :=
  { dc with x := X, y := Y }

/-- The call `LineTo(Dc, X, Y)` as the repaint uses it, from the current
position to itself: the round pen leaves a dot of the selected pen there. -/
def LineTo (dc : HDC) (X Y : Int) : HDC :=
  { dc with
    x := X
    y := Y
    surface := fun px py => if px = X ∧ py = Y then some dc.pen else dc.surface px py }

/-- The state threaded through the repaint: the globals, the device context and
the number of `ExtCreatePen` calls made so far. -/
structure Paint where
  s : State
  dc : HDC
  calls : Nat

/-! ## HlpRedrawMatrix -/

/-- The choice between overlay and hardware pixel for one cell of the repaint
loop: the pixel to draw and the globals afterwards. -/
def resolveCell (s : State) (YPixel XPixel : Nat) : Nat × State :=
  if s.HlTextColor YPixel XPixel ≠ 0 then
    if s.KeMatrix YPixel XPixel ≠ s.HlMatrix YPixel XPixel then
      let Pixel := s.KeMatrix YPixel XPixel
      (Pixel, { s with
        HlMatrix := s.HlMatrix.set YPixel XPixel Pixel
        HlTextColor := s.HlTextColor.set YPixel XPixel 0 })
    else
      (s.HlTextColor YPixel XPixel, s)
  else
    let Pixel := s.KeMatrix YPixel XPixel
    (Pixel, { s with HlMatrix := s.HlMatrix.set YPixel XPixel Pixel })

/-- One iteration of the inner repaint loop.  `ExtCreatePen n` tells whether the
call number `n` of `ExtCreatePen` returns a pen. -/
def redrawCell (ExtCreatePen : Nat → Bool) (OffPen : Pen) (YPixel XPixel : Nat)
    (p : Paint) : Paint :=
  let r := resolveCell p.s YPixel XPixel
  let Pixel := r.1
  let XPosition : Int := ((MATRIX_PIXEL_SPACING + XPixel * MATRIX_PIXEL_SPACING : Nat) : Int)
  let YPosition : Int := ((MATRIX_PIXEL_SPACING + YPixel * MATRIX_PIXEL_SPACING : Nat) : Int)
  if Pixel ≠ 0 then
    if ExtCreatePen p.calls then
      let dc := (SelectObject p.dc (Pen.Colored MATRIX_PIXEL_WIDTH Pixel)).1
      let dc := LineTo (MoveToEx dc XPosition YPosition) XPosition YPosition
      let dc := (SelectObject dc OffPen).1
      { s := r.2, dc := dc, calls := p.calls + 1 }
    else
      { s := r.2, dc := p.dc, calls := p.calls + 1 }
  else
    { s := r.2
      dc := LineTo (MoveToEx p.dc XPosition YPosition) XPosition YPosition
      calls := p.calls }

/-- The nested repaint loop over all rows and columns. -/
def redrawCells (b : Board) (ExtCreatePen : Nat → Bool) (OffPen : Pen) (p : Paint) : Paint :=
  (List.range b.MATRIX_HEIGHT).foldl
    (fun p YPixel =>
      (List.range b.MATRIX_WIDTH).foldl
        (fun p XPixel => redrawCell ExtCreatePen OffPen YPixel XPixel p) p)
    p

/-- The pixel handed to `HlpPixelToColorRef` for trackball 1. -/
def trackball1Pixel (b : Board) (s : State) : Nat :=
  let Pixel := s.KeTrackball1
  let RedValue := b.PIXEL_RED Pixel % 256
  let GreenValue := b.PIXEL_GREEN Pixel % 256
  let BlueValue := b.PIXEL_BLUE Pixel % 256
  let WhiteValue := b.WHITEPIXEL_TRACKBALL1 s.KeWhiteLeds % 256
  let RedValue := if WhiteValue > RedValue then WhiteValue else RedValue
  let GreenValue := if WhiteValue * 2 > GreenValue then (WhiteValue * 2) % 256 else GreenValue
  let BlueValue := if WhiteValue > BlueValue then WhiteValue else BlueValue
  b.RGB_PIXEL RedValue GreenValue BlueValue % 65536

/-- The pixel handed to `HlpPixelToColorRef` for trackball 2. -/
def trackball2Pixel (b : Board) (s : State) : Nat :=
  let Pixel := s.KeTrackball2
  let RedValue := b.PIXEL_RED Pixel % 256
  let GreenValue := b.PIXEL_GREEN Pixel % 256
  let BlueValue := b.PIXEL_BLUE Pixel % 256
  let WhiteValue := b.WHITEPIXEL_TRACKBALL2 s.KeWhiteLeds % 256
  let RedValue := if WhiteValue > RedValue then WhiteValue else RedValue
  let GreenValue := if WhiteValue > GreenValue then WhiteValue else GreenValue
  let BlueValue := if WhiteValue > BlueValue then WhiteValue else BlueValue
  b.RGB_PIXEL RedValue GreenValue BlueValue % 65536

/-- The pixel handed to `HlpPixelToColorRef` for the standby LED. -/
def standbyPixel (b : Board) (s : State) : Nat :=
  let Pixel := b.WHITEPIXEL_STANDBY s.KeWhiteLeds % 65536
  let RedValue := Pixel % 256
  let GreenValue := Pixel % 256
  let BlueValue := Pixel % 256
  b.RGB_PIXEL RedValue GreenValue BlueValue % 65536

/-- The drawing of one indicator: create its pen and, when that succeeds, select
it, draw the dot at `(X, Y)` and select the off pen again. -/
def drawIndicator (ExtCreatePen : Nat → Bool) (OffPen : Pen) (width Pixel : Nat) (X Y : Int)
    (p : Paint) : Paint :=
  if ExtCreatePen p.calls then
    let dc := (SelectObject p.dc (Pen.Colored width Pixel)).1
    let dc := LineTo (MoveToEx dc X Y) X Y
    let dc := (SelectObject dc OffPen).1
    { p with dc := dc, calls := p.calls + 1 }
  else
    { p with calls := p.calls + 1 }

/-- The routine `HlpRedrawMatrix`.  `ExtCreatePen n` tells whether the call
number `n` of `ExtCreatePen` made by the routine returns a pen.  The text that
`HlpRedrawLcd` draws at the end is not part of the surface modelled here. -/
def HlpRedrawMatrix (b : Board) (ExtCreatePen : Nat → Bool) (s : State) (Dc : HDC) :
    State × HDC :=
  if ExtCreatePen 0 then
    let OffPen := Pen.Off MATRIX_PIXEL_WIDTH
    let sel := SelectObject Dc OffPen
    let OriginalPen := sel.2
    let p := redrawCells b ExtCreatePen OffPen { s := s, dc := sel.1, calls := 1 }
    let p := drawIndicator ExtCreatePen OffPen TRACKBALL_WIDTH (trackball1Pixel b p.s)
      (TRACKBALL1_X b) (TRACKBALL_Y b) p
    let p := { p with s := { p.s with HlTrackball1 := p.s.KeTrackball1 } }
    let p := drawIndicator ExtCreatePen OffPen TRACKBALL_WIDTH (trackball2Pixel b p.s)
      (TRACKBALL2_X b) (TRACKBALL_Y b) p
    let p := { p with s := { p.s with HlTrackball2 := p.s.KeTrackball2 } }
    let p := drawIndicator ExtCreatePen OffPen STANDBY_LED_WIDTH (standbyPixel b p.s)
      (STANDBY_X b) (TRACKBALL_Y b) p
    let p := { p with s := { p.s with HlWhiteLeds := p.s.KeWhiteLeds } }
    (p.s, (SelectObject p.dc OriginalPen).1)
  else
    (s, Dc)

/-! ## HlPrintText -/

/-- A `for` loop whose counter is a `UCHAR` that the loop increments by one.
The counter has 256 values and the guard reads nothing but the counter, so a
loop that has passed its guard 256 times passes it for ever: started with 256
units of fuel the definition returns `NoExit` exactly when the C loop does not
end. -/
def forU8 {σ : Type} (cond : Nat → Bool) (body : Nat → σ → Except Fault σ) :
    Nat → Nat → σ → Except Fault σ
  | 0, _, _ => .error .NoExit
  | fuel + 1, i, s =>
    if cond i then
      match body i s with
      | .ok s' => forU8 cond body fuel ((i + 1) % 256) s'
      | .error e => .error e
    else .ok s

/-- The array store `HlTextColor[YPixel][XPixel] = Value`, which is defined only
inside the array. -/
def storeTextColor (b : Board) (s : State) (YPixel XPixel Value : Nat) : Except Fault State :=
  if YPixel < b.MATRIX_HEIGHT ∧ XPixel < b.MATRIX_WIDTH then
    .ok { s with HlTextColor := s.HlTextColor.set YPixel XPixel Value }
  else
    .error .OutOfBounds

/-- The glyph index that `HlPrintText` computes from the character for size 0,
stored back into the `UCHAR` parameter.  The character codes are those of
`'0'` (48), `'9'` (57), `':'` (58), `'='` (61), `'a'` (97), `'z'` (122),
`'A'` (65) and `'Z'` (90). -/
def mapCharacter3x5 (b : Board) (Character : Nat) : Nat :=
  if 48 ≤ Character ∧ Character ≤ 57 then
    (b.FONT_3X5_NUMERIC_OFFSET + (Character - 48)) % 256
  else if Character = 58 then
    b.FONT_3X5_COLON_OFFSET % 256
  else if Character = 61 then
    b.FONT_3X5_EQUALS_OFFSET % 256
  else if 97 ≤ Character ∧ Character ≤ 122 then
    (b.FONT_3X5_ALPHA_OFFSET + Character - 97) % 256
  else if 65 ≤ Character ∧ Character ≤ 90 then
    (b.FONT_3X5_ALPHA_OFFSET + Character - 65) % 256
  else
    b.FONT_3X5_SPACE_OFFSET % 256

/-- The value of `BitSet` in the 3 x 5 loop body, for glyph index `Character`,
destination column `XPixel` and glyph row `Column`.  The shift counts are
written with truncated subtraction; in the loop `Column` is at most 4 whenever
the matrix height is at most 255, so none of them is negative there. -/
def bitSet3x5 (b : Board) (Character XPosition XPixel Column : Nat) : Bool :=
  if (XPixel : Int) - (XPosition : Int) = 0 then
    b.KeFontData3x5 Character 0 &&& (1 <<< (7 - Column)) != 0
  else if (XPixel : Int) - (XPosition : Int) = 1 then
    if Column < 3 then
      b.KeFontData3x5 Character 0 &&& (1 <<< (2 - Column)) != 0
    else
      b.KeFontData3x5 Character 1 &&& (1 <<< (7 - (Column - 3))) != 0
  else
    b.KeFontData3x5 Character 1 &&& (1 <<< (5 - Column)) != 0

/-- The body of the inner (row) loop of the 3 x 5 case. -/
def cell3x5 (b : Board) (XPosition YPosition Character Color XPixel YPixel : Nat)
    (s : State) : Except Fault State :=
  let Column := (YPixel + 256 - YPosition) % 256
  let BitSet := bitSet3x5 b Character XPosition XPixel Column
  if BitSet != false then
    storeTextColor b s YPixel XPixel Color
  else
    storeTextColor b s YPixel XPixel 0

/-- The inner (row) loop of the 3 x 5 case, for destination column `XPixel`. -/
def rows3x5 (b : Board) (XPosition YPosition Character Color XPixel : Nat)
    (s : State) : Except Fault State :=
  forU8 (fun YPixel => YPixel < YPosition + 5 ∧ YPixel < b.MATRIX_HEIGHT)
    (cell3x5 b XPosition YPosition Character Color XPixel) 256 YPosition s

/-- The outer (column) loop of the 3 x 5 case. -/
def columns3x5 (b : Board) (XPosition YPosition Character Color : Nat)
    (s : State) : Except Fault State :=
  forU8 (fun XPixel => XPixel < XPosition + 3 ∧ XPixel < b.MATRIX_WIDTH)
    (rows3x5 b XPosition YPosition Character Color) 256 XPosition s

/-- The body of the inner (row) loop of the 5 x 7 case; the loop state is the
globals together with `EncodedData`. -/
def cell5x7 (b : Board) (Color XPixel YPixel : Nat) (se : State × Nat) :
    Except Fault (State × Nat) :=
  let EncodedData := se.2
  match (if EncodedData &&& 1 ≠ 0 then storeTextColor b se.1 YPixel XPixel Color
      else storeTextColor b se.1 YPixel XPixel 0) with
  | .ok s' => .ok (s', EncodedData >>> 1)
  | .error e => .error e

/-- The body of the outer (column) loop of the 5 x 7 case: read the column byte
into the `UCHAR` variable `EncodedData` and run the row loop.  The index
`XPixel - XPosition` is written with truncated subtraction; in the loop it is
between 0 and 4 whenever the matrix width is at most 255. -/
def rows5x7 (b : Board) (XPosition YPosition Character Color XPixel : Nat)
    (s : State) : Except Fault State :=
  let EncodedData := b.KeFontData5x7 Character (XPixel - XPosition) % 256
  match forU8 (fun YPixel => YPixel < YPosition + 8 ∧ YPixel < b.MATRIX_HEIGHT)
      (cell5x7 b Color XPixel) 256 YPosition (s, EncodedData) with
  | .ok se => .ok se.1
  | .error e => .error e

/-- The outer (column) loop of the 5 x 7 case. -/
def columns5x7 (b : Board) (XPosition YPosition Character Color : Nat)
    (s : State) : Except Fault State :=
  forU8 (fun XPixel => XPixel < XPosition + 5 ∧ XPixel < b.MATRIX_WIDTH)
    (rows5x7 b XPosition YPosition Character Color) 256 XPosition s

/-- The routine `HlPrintText`.  The result is the state left, or the fault that
keeps the routine from returning one. -/
def HlPrintText (b : Board) (Size XPosition YPosition Character Color : Nat)
    (s : State) : Except Fault State :=
  let r :=
    if Size = 0 then
      columns3x5 b XPosition YPosition (mapCharacter3x5 b Character) Color s
    else
      columns5x7 b XPosition YPosition Character Color s
  match r with
  | .ok s' => .ok { s' with HlNewTextPrinted := true }
  | .error e => .error e

/-- The routine `HlClearScreen`. -/
def HlClearScreen (b : Board) (s : State) : State :=
  let s := (List.range b.MATRIX_HEIGHT).foldl
    (fun s YPixel =>
      (List.range b.MATRIX_WIDTH).foldl
        (fun s XPixel => { s with HlTextColor := s.HlTextColor.set YPixel XPixel 0 }) s)
    s
  { s with HlNewTextPrinted := true }

/-! ## Reading the surface -/

/-- The screen coordinate of matrix row or column `i`, as the repaint loop
computes `XPosition` and `YPosition`. -/
def cellPosition (i : Nat) : Int :=
  ((MATRIX_PIXEL_SPACING + i * MATRIX_PIXEL_SPACING : Nat) : Int)

/-- The pen of the dot that the surface shows at the screen position of the
matrix cell in row `YPixel` and column `XPixel`, if a dot was drawn there. -/
def dotAt (dc : HDC) (YPixel XPixel : Nat) : Option Pen :=
  dc.surface (cellPosition XPixel) (cellPosition YPixel)

/-- The pen that the repaint loop has selected when it draws a cell whose
resolved pixel is `Pixel`: a coloured pen made for the pixel when it is not 0,
the off pen when it is 0. -/
def pixelPen (Pixel : Nat) : Pen :=
  if Pixel ≠ 0 then Pen.Colored MATRIX_PIXEL_WIDTH Pixel else Pen.Off MATRIX_PIXEL_WIDTH

/-! ## The effect of the repaint, as predicates -/

/-- What the repaint loop has done once the cells in `done` are processed,
starting from `p0` with the off pen selected. -/
structure CellsInv (ok : Nat → Bool) (p0 p : Paint) (done : Nat → Nat → Prop) : Prop where
  pen : p.dc.pen = Pen.Off MATRIX_PIXEL_WIDTH
  frame : p.s = { p0.s with HlMatrix := p.s.HlMatrix, HlTextColor := p.s.HlTextColor }
  text_done : ∀ r c, done r c → p.s.HlTextColor r c = (resolveCell p0.s r c).2.HlTextColor r c
  text_rest : ∀ r c, ¬ done r c → p.s.HlTextColor r c = p0.s.HlTextColor r c
  hl_done : ∀ r c, done r c → p.s.HlMatrix r c = p0.s.KeMatrix r c
  hl_rest : ∀ r c, ¬ done r c → p.s.HlMatrix r c = p0.s.HlMatrix r c
  dot_done : (∀ n, ok n = true) → ∀ r c, done r c →
    dotAt p.dc r c = some (pixelPen (resolveCell p0.s r c).1)
  dot_rest : ∀ X Y, (∀ r c, done r c → ¬ (X = cellPosition c ∧ Y = cellPosition r)) →
    p.dc.surface X Y = p0.dc.surface X Y

/-- What a call of `HlpRedrawMatrix` that got its off pen leaves behind. -/
structure Repainted (b : Board) (ok : Nat → Bool) (s : State) (dc : HDC)
    (r : State × HDC) : Prop where
  frame : r.1 = { s with
    HlMatrix := r.1.HlMatrix
    HlTextColor := r.1.HlTextColor
    HlTrackball1 := s.KeTrackball1
    HlTrackball2 := s.KeTrackball2
    HlWhiteLeds := s.KeWhiteLeds }
  text_in : ∀ y x, y < b.MATRIX_HEIGHT → x < b.MATRIX_WIDTH →
    r.1.HlTextColor y x = (resolveCell s y x).2.HlTextColor y x
  text_out : ∀ y x, ¬ (y < b.MATRIX_HEIGHT ∧ x < b.MATRIX_WIDTH) →
    r.1.HlTextColor y x = s.HlTextColor y x
  hl_in : ∀ y x, y < b.MATRIX_HEIGHT → x < b.MATRIX_WIDTH → r.1.HlMatrix y x = s.KeMatrix y x
  hl_out : ∀ y x, ¬ (y < b.MATRIX_HEIGHT ∧ x < b.MATRIX_WIDTH) →
    r.1.HlMatrix y x = s.HlMatrix y x
  dot : (∀ n, ok n = true) → ∀ y x, y < b.MATRIX_HEIGHT → x < b.MATRIX_WIDTH →
    dotAt r.2 y x = some (pixelPen (resolveCell s y x).1)
  pen : r.2.pen = dc.pen

/-! ## The glyph box -/

/-- The number of matrix columns that a glyph of the given size covers. -/
def boxWidth (Size : Nat) : Nat := if Size = 0 then 3 else 5

/-- The number of matrix rows that `HlPrintText` writes for a glyph of the
given size. -/
def boxHeight (Size : Nat) : Nat := if Size = 0 then 5 else 8

/-- Whether the glyph bit for box column `col` and box row `row` is lit: for
size 0 the bit test of the 3 x 5 loop body at the mapped glyph index, for the
other sizes bit `row` of the column byte `col` of the 5 x 7 table entry. -/
def glyphLit (b : Board) (Size Character col row : Nat) : Bool :=
  if Size = 0 then
    bitSet3x5 b (mapCharacter3x5 b Character) 0 col row
  else
    (b.KeFontData5x7 Character col % 256) >>> row &&& 1 != 0

/-- The overlay grid with the glyph box at `(XPosition, YPosition)` overwritten
inside the matrix: the colour where the glyph bit is lit, 0 where it is not. -/
def printedText (b : Board) (Size XPosition YPosition Character Color : Nat) (old : Grid) : Grid :=
  fun r c =>
    if XPosition ≤ c ∧ c < XPosition + boxWidth Size ∧ c < b.MATRIX_WIDTH ∧
        YPosition ≤ r ∧ r < YPosition + boxHeight Size ∧ r < b.MATRIX_HEIGHT then
      if glyphLit b Size Character (c - XPosition) (r - YPosition) then Color else 0
    else old r c

/-- The grid `old` with rows `lo` up to `hi - 1` of column `XPixel` replaced by
the values `val row`. -/
def fillColumn (old : Grid) (XPixel lo hi : Nat) (val : Nat → Nat) : Grid :=
  fun r c => if c = XPixel ∧ lo ≤ r ∧ r < hi then val r else old r c

/-- The grid `old` with the cells of columns `xlo` up to `xhi - 1` and rows
`ylo` up to `yhi - 1` replaced by the values `val column row`. -/
def fillBox (old : Grid) (xlo xhi ylo yhi : Nat) (val : Nat → Nat → Nat) : Grid :=
  fun r c => if xlo ≤ c ∧ c < xhi ∧ ylo ≤ r ∧ r < yhi then val c r else old r c

/-! ## HlpPixelToColorRef -/

/-- The macro `RGB` of the Windows headers: the three values cut to a byte
each, red in the low byte, green in the next, blue in the third. -/
def RGB (r g b : Nat) : Nat :=
  ((r % 256) ||| ((g % 256) <<< 8)) ||| ((b % 256) <<< 16)

/-- The macro `GetRValue` of the Windows headers: the low byte. -/
def GetRValue (rgb : Nat) : Nat := rgb % 256

/-- The macro `GetGValue` of the Windows headers: the second byte. -/
def GetGValue (rgb : Nat) : Nat := (rgb >>> 8) % 256

/-- The macro `GetBValue` of the Windows headers: the third byte. -/
def GetBValue (rgb : Nat) : Nat := (rgb >>> 16) % 256

def INTENSITY_OFF : Nat := 0x50

def OFF_COLOR : Nat := RGB INTENSITY_OFF INTENSITY_OFF INTENSITY_OFF

/-- The routine `HlpPixelToColorRef`; the three channel values are `USHORT`
variables. -/
def HlpPixelToColorRef (b : Board) (Pixel : Nat) : Nat :=
  let RedValue := (INTENSITY_OFF + (b.PIXEL_RED Pixel * (0xFF - INTENSITY_OFF)) / 31) % 65536
  let GreenValue := (INTENSITY_OFF + (b.PIXEL_GREEN Pixel * (0xFF - INTENSITY_OFF)) / 31) % 65536
  let BlueValue := (INTENSITY_OFF + (b.PIXEL_BLUE Pixel * (0xFF - INTENSITY_OFF)) / 31) % 65536
  RGB RedValue GreenValue BlueValue

/-! ## The colour composed for the trackballs -/

/-- The values of `RedValue`, `GreenValue` and `BlueValue` that
`HlpRedrawMatrix` hands to `RGB_PIXEL` for trackball 1; `trackball1Pixel` is
`RGB_PIXEL` of these. -/
def trackball1Channels (b : Board) (s : State) : Nat × Nat × Nat :=
  let Pixel := s.KeTrackball1
  let RedValue := b.PIXEL_RED Pixel % 256
  let GreenValue := b.PIXEL_GREEN Pixel % 256
  let BlueValue := b.PIXEL_BLUE Pixel % 256
  let WhiteValue := b.WHITEPIXEL_TRACKBALL1 s.KeWhiteLeds % 256
  let RedValue := if WhiteValue > RedValue then WhiteValue else RedValue
  let GreenValue := if WhiteValue * 2 > GreenValue then (WhiteValue * 2) % 256 else GreenValue
  let BlueValue := if WhiteValue > BlueValue then WhiteValue else BlueValue
  (RedValue, GreenValue, BlueValue)

/-- The values of `RedValue`, `GreenValue` and `BlueValue` that
`HlpRedrawMatrix` hands to `RGB_PIXEL` for trackball 2; `trackball2Pixel` is
`RGB_PIXEL` of these. -/
def trackball2Channels (b : Board) (s : State) : Nat × Nat × Nat :=
  let Pixel := s.KeTrackball2
  let RedValue := b.PIXEL_RED Pixel % 256
  let GreenValue := b.PIXEL_GREEN Pixel % 256
  let BlueValue := b.PIXEL_BLUE Pixel % 256
  let WhiteValue := b.WHITEPIXEL_TRACKBALL2 s.KeWhiteLeds % 256
  let RedValue := if WhiteValue > RedValue then WhiteValue else RedValue
  let GreenValue := if WhiteValue > GreenValue then WhiteValue else GreenValue
  let BlueValue := if WhiteValue > BlueValue then WhiteValue else BlueValue
  (RedValue, GreenValue, BlueValue)

/-! ## The pixel macros, from the specification -/

/-- Modelled from the spec: the macro `RGB_PIXEL` of `mainboard.h`, which is not
among the sources.  The spec makes a pixel a packed value of three 5-bit
channels, red, green and blue, 0 to 31 each; it does not fix their order, and
red is put in the highest field here and blue in the lowest. -/
def RGB_PIXEL (Red Green Blue : Nat) : Nat :=
  Red * 1024 + Green * 32 + Blue

/-- Modelled from the spec: the macro `PIXEL_RED` of `mainboard.h`, which is not
among the sources: the 5-bit red field of the packed pixel. -/
def PIXEL_RED (Pixel : Nat) : Nat := (Pixel / 1024) % 32

/-- Modelled from the spec: the macro `PIXEL_GREEN` of `mainboard.h`, which is
not among the sources: the 5-bit green field of the packed pixel. -/
def PIXEL_GREEN (Pixel : Nat) : Nat := (Pixel / 32) % 32

/-- Modelled from the spec: the macro `PIXEL_BLUE` of `mainboard.h`, which is
not among the sources: the 5-bit blue field of the packed pixel. -/
def PIXEL_BLUE (Pixel : Nat) : Nat := Pixel % 32

/-! ## The LCD text buffer -/

/-- The LCD constants that `winmain.c` takes from `mainboard.h`. -/
structure Lcd where
  LCD_LINE_LENGTH : Nat
  LCD_SECOND_LINE : Nat
  LCD_LINE_OFFSET_MASK : Nat

/-- The value of a `CHAR` variable whose byte is `byte`.  `CHAR` is the plain
`char` of the Windows headers, which is signed on the x86 compilers this file
is built with. -/
def charValue (byte : Nat) : Int :=
  if byte < 128 then (byte : Int) else (byte : Int) - 256

/-- The routine `HlClearLcdScreen`: both lines are filled with spaces up to the
terminator, which is set to NUL.  The calls `InvalidateRect` and
`UpdateWindow` ask the window system for a repaint and change no global. -/
def HlClearLcdScreen (l : Lcd) (s : State) : State :=
  let Line1 : Nat → Nat := fun i => if i < l.LCD_LINE_LENGTH then 32 else s.HlLcdLine1 i
  let Line2 : Nat → Nat := fun i => if i < l.LCD_LINE_LENGTH then 32 else s.HlLcdLine2 i
  { s with
    HlLcdLine1 := fun i => if i = l.LCD_LINE_LENGTH then 0 else Line1 i
    HlLcdLine2 := fun i => if i = l.LCD_LINE_LENGTH then 0 else Line2 i }

/-- The routine `HlSetLcdAddress`: the `UCHAR` argument is stored in the `CHAR`
global, whose byte is kept here. -/
def HlSetLcdAddress (Address : Nat) (s : State) : State :=
  { s with HlLcdCurrentAddress := Address % 256 }

/-- Whether `HlLcdPrintString` writes to the second line: the test
`HlLcdCurrentAddress >= LCD_SECOND_LINE` on the `CHAR` global. -/
def secondLineSelected (l : Lcd) (s : State) : Bool :=
  decide (charValue s.HlLcdCurrentAddress ≥ (l.LCD_SECOND_LINE : Int))

/-- The value of `Offset` in `HlLcdPrintString`: the low byte of
`HlLcdCurrentAddress & LCD_LINE_OFFSET_MASK`. -/
def lcdOffset (l : Lcd) (s : State) : Nat :=
  (s.HlLcdCurrentAddress &&& l.LCD_LINE_OFFSET_MASK) % 256

/-- The value of `Length` in `HlLcdPrintString` at the call of `memcpy`, in a
release build (the assertion compiled out): `strlen` cut to a `UCHAR`, replaced
by the low byte of `LCD_LINE_LENGTH - Offset` when the test finds the string
too long. -/
def lcdLength (l : Lcd) (s : State) (String : List Nat) : Nat :=
  let Offset := lcdOffset l s
  let Length := String.length % 256
  if Offset + Length > l.LCD_LINE_LENGTH then
    (l.LCD_LINE_LENGTH + 256 - Offset) % 256
  else
    Length

/-- The array `Line` with the first `Length` bytes of the string (its
characters, then its NUL) copied to index `Offset` onwards. -/
def copyInto (Line : Nat → Nat) (Offset : Nat) (String : List Nat) (Length : Nat) : Nat → Nat :=
  fun i => if Offset ≤ i ∧ i < Offset + Length then String.getD (i - Offset) 0 else Line i

/-- The call `memcpy(Address + Offset, String, Length)` on a line array of
`LCD_LINE_LENGTH + 1` bytes.  `String` lists the characters before the NUL;
the copy is defined when it stays inside the line array and reads no further
than the NUL of the string. -/
def memcpyLine (l : Lcd) (Line : Nat → Nat) (Offset : Nat) (String : List Nat) (Length : Nat) :
    Except Fault (Nat → Nat) :=
  if Offset + Length ≤ l.LCD_LINE_LENGTH + 1 ∧ Length ≤ String.length + 1 then
    .ok (copyInto Line Offset String Length)
  else
    .error .OutOfBounds

/-- The routine `HlLcdPrintString` in a release build.  `String` lists the
characters before the NUL.  The calls `InvalidateRect` and `UpdateWindow` ask
the window system for a repaint and change no global. -/
def HlLcdPrintString (l : Lcd) (String : List Nat) (s : State) : Except Fault State :=
  let Offset := lcdOffset l s
  let Length := lcdLength l s String
  if secondLineSelected l s then
    match memcpyLine l s.HlLcdLine2 Offset String Length with
    | .ok Line => .ok { s with HlLcdLine2 := Line }
    | .error e => .error e
  else
    match memcpyLine l s.HlLcdLine1 Offset String Length with
    | .ok Line => .ok { s with HlLcdLine1 := Line }
    | .error e => .error e

/-- A call of one of the three LCD routines. -/
inductive LcdCall where
  | ClearLcdScreen
  | SetLcdAddress (Address : Nat)
  | LcdPrintString (String : List Nat)

/-- The calls of a list made one after the other. -/
def runLcdCalls (l : Lcd) : List LcdCall → State → Except Fault State
  | [], s => .ok s
  | LcdCall.ClearLcdScreen :: rest, s => runLcdCalls l rest (HlClearLcdScreen l s)
  | LcdCall.SetLcdAddress Address :: rest, s => runLcdCalls l rest (HlSetLcdAddress Address s)
  | LcdCall.LcdPrintString String :: rest, s =>
    match HlLcdPrintString l String s with
    | .ok s' => runLcdCalls l rest s'
    | .error e => .error e

/-- The line that `HlLcdPrintString` selects (`second = true` for line 2). -/
def State.lcdLine (s : State) (second : Bool) : Nat → Nat :=
  if second then s.HlLcdLine2 else s.HlLcdLine1

/-- The state with line 2 (`second = true`) or line 1 replaced by `Line`. -/
def State.withLcdLine (s : State) (second : Bool) (Line : Nat → Nat) : State :=
  if second then { s with HlLcdLine2 := Line } else { s with HlLcdLine1 := Line }

/-- The characters for which the size 0 case of `HlPrintText` has a glyph of
their own: the digits, the colon, the equals sign and the letters. -/
def printable3x5 (Character : Nat) : Prop :=
  (48 ≤ Character ∧ Character ≤ 57) ∨ Character = 58 ∨ Character = 61 ∨
    (97 ≤ Character ∧ Character ≤ 122) ∨ (65 ≤ Character ∧ Character ≤ 90)

instance (Character : Nat) : Decidable (printable3x5 Character) := by
  unfold printable3x5
  infer_instance

/-! ## The colour of a pen -/

/-- The brush colour (`lbColor`) with which `HlpRedrawMatrix` creates a pen:
`OFF_COLOR` for the off pen, `HlpPixelToColorRef` of the pixel for a coloured
pen.  The colour of a pen the module did not create is not known. -/
def penColor (b : Board) : Pen → Option Nat
  | Pen.Stock _ => none
  | Pen.Off _ => some OFF_COLOR
  | Pen.Colored _ Pixel => some (HlpPixelToColorRef b Pixel)

/-- Whether the 3 x 5 glyph with bytes `b0` and `b1` is lit at box column `c`
and box row `r`, in the words of the bit layout: column 0 in bits 7 to 3 of
`b0`, column 1 in bits 2 to 0 of `b0` and bits 7 and 6 of `b1`, column 2 in
bits 5 to 1 of `b1`. -/
def layout3x5 (b0 b1 c r : Nat) : Bool :=
  (decide (c = 0) && b0.testBit (7 - r)) ||
  (decide (c = 1) && decide (r < 3) && b0.testBit (2 - r)) ||
  (decide (c = 1) && decide (3 ≤ r) && b1.testBit (7 - (r - 3))) ||
  (decide (c = 2) && b1.testBit (5 - r))

/-! ## Concrete instances -/

/-- An 8 x 8 board with a small font table, used for the concrete instances:
glyph 10 of the 3 x 5 font is the letter A (bytes `0x7D`, `0x7C`), every other
3 x 5 glyph is blank, and column `i` of the 5 x 7 glyph `c` is the byte
`c + i`.  Pixels are packed as 5 bits each of red, green and blue. -/
def board8 : Board where
  MATRIX_HEIGHT := 8
  MATRIX_WIDTH := 8
  KeFontData3x5 := fun c i => if c = 10 then (if i = 0 then 0x7D else if i = 1 then 0x7C else 0) else 0
  KeFontData5x7 := fun c i => (c + i) % 256
  FONT_3X5_NUMERIC_OFFSET := 0
  FONT_3X5_COLON_OFFSET := 36
  FONT_3X5_EQUALS_OFFSET := 37
  FONT_3X5_ALPHA_OFFSET := 10
  FONT_3X5_SPACE_OFFSET := 38
  PIXEL_RED := fun p => (p >>> 10) &&& 31
  PIXEL_GREEN := fun p => (p >>> 5) &&& 31
  PIXEL_BLUE := fun p => p &&& 31
  RGB_PIXEL := fun r g b => (r <<< 10) ||| (g <<< 5) ||| b
  WHITEPIXEL_TRACKBALL1 := fun w => (w >>> 10) &&& 31
  WHITEPIXEL_TRACKBALL2 := fun w => (w >>> 5) &&& 31
  WHITEPIXEL_STANDBY := fun w => w &&& 31

/-- The state in which every global is zero. -/
def zeroState : State where
  KeMatrix := fun _ _ => 0
  KeTrackball1 := 0
  KeTrackball2 := 0
  KeWhiteLeds := 0
  HlMatrix := fun _ _ => 0
  HlTextColor := fun _ _ => 0
  HlNewTextPrinted := false
  HlTrackball1 := 0
  HlTrackball2 := 0
  HlWhiteLeds := 0
  HlLcdLine1 := fun _ => 0
  HlLcdLine2 := fun _ => 0
  HlLcdCurrentAddress := 0

/-- A state in which the firmware has set every hardware pixel to 5 since the
last repaint: the shadow matrix still holds 0 everywhere. -/
def staleState : State :=
  { zeroState with KeMatrix := fun _ _ => 5 }

/-- A state in which the overlay holds colour 7 in every cell and the shadow
matrix is level with the hardware matrix. -/
def overlayState : State :=
  { zeroState with HlTextColor := fun _ _ => 7 }

/-- A state in which both trackballs hold the colour (10, 5, 0) and the white
value of each trackball is 8. -/
def blendState : State :=
  { zeroState with KeTrackball1 := 10400, KeTrackball2 := 10400, KeWhiteLeds := 8448 }

/-- The outcome of `ExtCreatePen` in which every call returns a pen. -/
def everyPen : Nat → Bool := fun _ => true

/-- A 16-column LCD whose second line starts at address `0x40` and whose
column is the low four bits of the address. -/
def lcd16 : Lcd where
  LCD_LINE_LENGTH := 16
  LCD_SECOND_LINE := 0x40
  LCD_LINE_OFFSET_MASK := 0x0F

/-- A 16-column LCD whose column is the low five bits of the address and whose
second line starts at address `0x20`, the layout the specification gives the
address. -/
def lcd5bit : Lcd where
  LCD_LINE_LENGTH := 16
  LCD_SECOND_LINE := 0x20
  LCD_LINE_OFFSET_MASK := 0x1F

/-- A device context on which nothing has been drawn. -/
def blankDc : HDC where
  pen := Pen.Stock 0
  x := 0
  y := 0
  surface := fun _ _ => none

end Mainboard

/-! ## Staleness test: lemmas -/

namespace Mainboard

theorem scanRow_eq (s : State) (YPixel : Nat) (l : List Nat) (Changes : Bool) :
    scanRow s YPixel l Changes =
      (Changes || l.any (fun XPixel => decide (s.KeMatrix YPixel XPixel ≠ s.HlMatrix YPixel XPixel))) := by
  induction l with
  | nil => simp [scanRow]
  | cons x rest ih =>
    by_cases h : s.KeMatrix YPixel x = s.HlMatrix YPixel x
    · simp [scanRow, h, ih]
    · simp [scanRow, h]

theorem scanRows_eq (s : State) (cols rows : List Nat) (Changes : Bool) :
    rows.foldl (fun Changes YPixel => scanRow s YPixel cols Changes) Changes =
      (Changes || rows.any (fun YPixel =>
        cols.any (fun XPixel => decide (s.KeMatrix YPixel XPixel ≠ s.HlMatrix YPixel XPixel)))) := by
  induction rows generalizing Changes with
  | nil => simp
  | cons y rest ih =>
    rw [List.foldl_cons, ih, scanRow_eq]
    simp [Bool.or_assoc]

/-- The value `HlpIsMatrixStale` returns when the text flag is clear. -/
theorem stale_of_clear_flag (b : Board) (s : State) (hflag : s.HlNewTextPrinted = false) :
    ((HlpIsMatrixStale b s).1 = true ↔
      ((∃ YPixel XPixel, YPixel < b.MATRIX_HEIGHT ∧ XPixel < b.MATRIX_WIDTH ∧
          s.KeMatrix YPixel XPixel ≠ s.HlMatrix YPixel XPixel) ∨
        s.KeTrackball1 ≠ s.HlTrackball1 ∨ s.KeTrackball2 ≠ s.HlTrackball2 ∨
        s.KeWhiteLeds ≠ s.HlWhiteLeds)) ∧
    (HlpIsMatrixStale b s).2 = s := by
  unfold HlpIsMatrixStale
  simp only [hflag, ne_eq, not_true_eq_false, if_false, scanRows_eq, Bool.false_or, and_true]
  by_cases hi : s.HlTrackball1 ≠ s.KeTrackball1 ∨ s.HlTrackball2 ≠ s.KeTrackball2 ∨
      s.HlWhiteLeds ≠ s.KeWhiteLeds
  · rw [if_pos hi]
    simp only [true_iff]
    right
    rcases hi with h | h | h
    · exact Or.inl (Ne.symm h)
    · exact Or.inr (Or.inl (Ne.symm h))
    · exact Or.inr (Or.inr (Ne.symm h))
  · rw [if_neg hi]
    simp only [not_or, not_not] at hi
    obtain ⟨h1, h2, h3⟩ := hi
    simp only [List.any_eq_true, List.mem_range, decide_eq_true_eq]
    constructor
    · rintro ⟨y, hy, x, hx, hne⟩
      exact Or.inl ⟨y, x, hy, hx, hne⟩
    · rintro (⟨y, x, hy, hx, hne⟩ | h | h | h)
      · exact ⟨y, hy, x, hx, hne⟩
      · exact absurd h1.symm h
      · exact absurd h2.symm h
      · exact absurd h3.symm h

/-- The result of `HlpIsMatrixStale` when the text flag is set. -/
theorem stale_of_set_flag (b : Board) (s : State) (hflag : s.HlNewTextPrinted = true) :
    HlpIsMatrixStale b s = (true, { s with HlNewTextPrinted := false }) := by
  unfold HlpIsMatrixStale
  simp [hflag]

end Mainboard

/-! ## Repaint: lemmas -/

namespace Mainboard

theorem cellPosition_inj {i j : Nat} (h : cellPosition i = cellPosition j) : i = j := by
  unfold cellPosition MATRIX_PIXEL_SPACING at h
  omega

theorem cellPosition_lt_trackball (b : Board) {i : Nat} (h : i < b.MATRIX_HEIGHT) :
    cellPosition i ≠ TRACKBALL_Y b := by
  unfold cellPosition TRACKBALL_Y MATRIX_SCREEN_HEIGHT LCD_SCREEN_HEIGHT LCD_HEIGHT LCD_Y_PADDING
    MATRIX_PIXEL_SPACING
  push_cast
  omega

theorem resolveCell_fst (s : State) (y x : Nat) :
    (resolveCell s y x).1 =
      if s.HlTextColor y x ≠ 0 ∧ s.KeMatrix y x = s.HlMatrix y x then s.HlTextColor y x
      else s.KeMatrix y x := by
  unfold resolveCell
  by_cases h1 : s.HlTextColor y x = 0 <;> by_cases h2 : s.KeMatrix y x = s.HlMatrix y x <;>
    simp [h1, h2]

theorem resolveCell_text (s : State) (y x r c : Nat) :
    (resolveCell s y x).2.HlTextColor r c =
      if (r = y ∧ c = x) ∧ s.KeMatrix y x ≠ s.HlMatrix y x then 0 else s.HlTextColor r c := by
  unfold resolveCell
  by_cases h1 : s.HlTextColor y x = 0 <;> by_cases h2 : s.KeMatrix y x = s.HlMatrix y x <;>
    by_cases h3 : r = y ∧ c = x <;> simp [h1, h2, h3, Grid.set]

theorem resolveCell_hl (s : State) (y x r c : Nat) :
    (resolveCell s y x).2.HlMatrix r c =
      if r = y ∧ c = x then s.KeMatrix y x else s.HlMatrix r c := by
  unfold resolveCell
  by_cases h1 : s.HlTextColor y x = 0 <;> by_cases h2 : s.KeMatrix y x = s.HlMatrix y x <;>
    by_cases h3 : r = y ∧ c = x <;> simp [h1, h2, h3, Grid.set]

theorem resolveCell_frame (s : State) (y x : Nat) :
    (resolveCell s y x).2 = { s with
      HlMatrix := (resolveCell s y x).2.HlMatrix
      HlTextColor := (resolveCell s y x).2.HlTextColor } := by
  unfold resolveCell
  by_cases h1 : s.HlTextColor y x = 0 <;> by_cases h2 : s.KeMatrix y x = s.HlMatrix y x <;>
    simp [h1, h2]

theorem frame_trans (s0 s1 s2 : State)
    (h1 : s1 = { s0 with HlMatrix := s1.HlMatrix, HlTextColor := s1.HlTextColor })
    (h2 : s2 = { s1 with HlMatrix := s2.HlMatrix, HlTextColor := s2.HlTextColor }) :
    s2 = { s0 with HlMatrix := s2.HlMatrix, HlTextColor := s2.HlTextColor } := by
  cases s0
  cases s1
  cases s2
  simp only [State.mk.injEq, true_and] at h1 h2 ⊢
  obtain ⟨a1, a2, a3, a4, a5, a6, a7, a8, a9, a10, a11⟩ := h1
  obtain ⟨c1, c2, c3, c4, c5, c6, c7, c8, c9, c10, c11⟩ := h2
  exact ⟨c1.trans a1, c2.trans a2, c3.trans a3, c4.trans a4, c5.trans a5, c6.trans a6,
    c7.trans a7, c8.trans a8, c9.trans a9, c10.trans a10, c11.trans a11⟩

theorem redrawCell_s (ok : Nat → Bool) (OffPen : Pen) (y x : Nat) (p : Paint) :
    (redrawCell ok OffPen y x p).s = (resolveCell p.s y x).2 := by
  unfold redrawCell
  by_cases h1 : (resolveCell p.s y x).1 = 0 <;> by_cases h2 : ok p.calls = true <;>
    simp [h1, h2]

theorem redrawCell_pen (ok : Nat → Bool) (OffPen : Pen) (y x : Nat) (p : Paint)
    (hpen : p.dc.pen = OffPen) : (redrawCell ok OffPen y x p).dc.pen = OffPen := by
  unfold redrawCell
  by_cases h1 : (resolveCell p.s y x).1 = 0 <;> by_cases h2 : ok p.calls = true <;>
    simp [h1, h2, SelectObject, LineTo, MoveToEx, hpen]

theorem redrawCell_surface_other (ok : Nat → Bool) (OffPen : Pen) (y x : Nat) (p : Paint)
    (X Y : Int) (hne : ¬ (X = cellPosition x ∧ Y = cellPosition y)) :
    (redrawCell ok OffPen y x p).dc.surface X Y = p.dc.surface X Y := by
  have hne' : ∀ v : Option Pen, (if X = cellPosition x ∧ Y = cellPosition y then v
      else p.dc.surface X Y) = p.dc.surface X Y := fun v => if_neg hne
  unfold cellPosition at hne'
  unfold redrawCell
  by_cases h1 : (resolveCell p.s y x).1 = 0 <;> by_cases h2 : ok p.calls = true <;>
    simp only [h1, h2, SelectObject, LineTo, MoveToEx, hne', ne_eq, not_true_eq_false,
      not_false_eq_true, if_true, if_false, Bool.false_eq_true]

theorem redrawCell_surface_cell (ok : Nat → Bool) (y x : Nat) (p : Paint)
    (hok : ∀ n, ok n = true) (hpen : p.dc.pen = Pen.Off MATRIX_PIXEL_WIDTH) :
    dotAt (redrawCell ok (Pen.Off MATRIX_PIXEL_WIDTH) y x p).dc y x =
      some (pixelPen (resolveCell p.s y x).1) := by
  unfold dotAt cellPosition redrawCell pixelPen
  by_cases h1 : (resolveCell p.s y x).1 = 0 <;>
    simp [h1, hok, SelectObject, LineTo, MoveToEx, hpen]

theorem CellsInv.start (ok : Nat → Bool) (p0 : Paint)
    (h : p0.dc.pen = Pen.Off MATRIX_PIXEL_WIDTH) :
    CellsInv ok p0 p0 (fun _ _ => False) where
  pen := h
  frame := rfl
  text_done := fun _ _ hd => hd.elim
  text_rest := fun _ _ _ => rfl
  hl_done := fun _ _ hd => hd.elim
  hl_rest := fun _ _ _ => rfl
  dot_done := fun _ _ _ hd => hd.elim
  dot_rest := fun _ _ _ => rfl

theorem CellsInv.congr {ok : Nat → Bool} {p0 p : Paint}
    {done done' : Nat → Nat → Prop} (h : CellsInv ok p0 p done)
    (heq : ∀ r c, done r c ↔ done' r c) : CellsInv ok p0 p done' := by
  have : done = done' := funext fun r => funext fun c => propext (heq r c)
  exact this ▸ h

theorem CellsInv.step {ok : Nat → Bool} {p0 p : Paint} {done : Nat → Nat → Prop}
    (h : CellsInv ok p0 p done) (y x : Nat) (hnd : ¬ done y x) :
    CellsInv ok p0 (redrawCell ok (Pen.Off MATRIX_PIXEL_WIDTH) y x p)
      (fun r c => done r c ∨ (r = y ∧ c = x)) := by
  have ht : p.s.HlTextColor y x = p0.s.HlTextColor y x := h.text_rest y x hnd
  have hh : p.s.HlMatrix y x = p0.s.HlMatrix y x := h.hl_rest y x hnd
  have hk : p.s.KeMatrix = p0.s.KeMatrix := by rw [h.frame]
  have hfst : (resolveCell p.s y x).1 = (resolveCell p0.s y x).1 := by
    rw [resolveCell_fst, resolveCell_fst, ht, hh, hk]
  refine ⟨redrawCell_pen ok _ y x p h.pen, ?_, ?_, ?_, ?_, ?_, ?_, ?_⟩
  · rw [redrawCell_s]
    exact frame_trans _ _ _ h.frame (resolveCell_frame p.s y x)
  · intro r c hd
    rw [redrawCell_s, resolveCell_text]
    by_cases hc : r = y ∧ c = x
    · obtain ⟨rfl, rfl⟩ := hc
      rw [resolveCell_text]
      simp [ht, hh, hk]
    · have hd' : done r c := hd.resolve_right hc
      simp only [hc, false_and, if_false]
      exact h.text_done r c hd'
  · intro r c hd
    have hc : ¬ (r = y ∧ c = x) := fun hc => hd (Or.inr hc)
    rw [redrawCell_s, resolveCell_text]
    simp only [hc, false_and, if_false]
    exact h.text_rest r c (fun hd' => hd (Or.inl hd'))
  · intro r c hd
    rw [redrawCell_s, resolveCell_hl]
    by_cases hc : r = y ∧ c = x
    · obtain ⟨rfl, rfl⟩ := hc
      simp [hk]
    · simp only [hc, if_false]
      exact h.hl_done r c (hd.resolve_right hc)
  · intro r c hd
    have hc : ¬ (r = y ∧ c = x) := fun hc => hd (Or.inr hc)
    rw [redrawCell_s, resolveCell_hl]
    simp only [hc, if_false]
    exact h.hl_rest r c (fun hd' => hd (Or.inl hd'))
  · intro hok r c hd
    by_cases hc : r = y ∧ c = x
    · obtain ⟨rfl, rfl⟩ := hc
      rw [redrawCell_surface_cell ok r c p hok h.pen, hfst]
    · have hd' : done r c := hd.resolve_right hc
      unfold dotAt
      rw [redrawCell_surface_other]
      · exact h.dot_done hok r c hd'
      · rintro ⟨hx, hy⟩
        exact hc ⟨cellPosition_inj hy, cellPosition_inj hx⟩
  · intro X Y hXY
    rw [redrawCell_surface_other]
    · exact h.dot_rest X Y (fun r c hd => hXY r c (Or.inl hd))
    · exact hXY y x (Or.inr ⟨rfl, rfl⟩)

theorem CellsInv.row {ok : Nat → Bool} {p0 p : Paint} {done : Nat → Nat → Prop}
    (h : CellsInv ok p0 p done) (y : Nat) (hrow : ∀ c, ¬ done y c) (n : Nat) :
    CellsInv ok p0
      ((List.range n).foldl (fun p x => redrawCell ok (Pen.Off MATRIX_PIXEL_WIDTH) y x p) p)
      (fun r c => done r c ∨ (r = y ∧ c < n)) := by
  induction n with
  | zero =>
    refine h.congr (fun r c => ?_)
    simp
  | succ n ih =>
    rw [List.range_succ, List.foldl_append, List.foldl_cons, List.foldl_nil]
    refine (ih.step y n ?_).congr (fun r c => ?_)
    · rintro (hd | ⟨_, hlt⟩)
      · exact hrow n hd
      · exact lt_irrefl n hlt
    · constructor
      · rintro ((hd | ⟨hr, hc⟩) | ⟨hr, hc⟩)
        · exact Or.inl hd
        · exact Or.inr ⟨hr, Nat.lt_succ_of_lt hc⟩
        · exact Or.inr ⟨hr, hc ▸ Nat.lt_succ_self n⟩
      · rintro (hd | ⟨hr, hc⟩)
        · exact Or.inl (Or.inl hd)
        · rcases Nat.lt_succ_iff_lt_or_eq.mp hc with hlt | heq
          · exact Or.inl (Or.inr ⟨hr, hlt⟩)
          · exact Or.inr ⟨hr, heq⟩

theorem CellsInv.rows (ok : Nat → Bool) (p0 : Paint)
    (hpen : p0.dc.pen = Pen.Off MATRIX_PIXEL_WIDTH) (W m : Nat) :
    CellsInv ok p0
      ((List.range m).foldl
        (fun p y => (List.range W).foldl
          (fun p x => redrawCell ok (Pen.Off MATRIX_PIXEL_WIDTH) y x p) p) p0)
      (fun r c => r < m ∧ c < W) := by
  induction m with
  | zero =>
    refine (CellsInv.start ok p0 hpen).congr (fun r c => ?_)
    simp
  | succ m ih =>
    rw [List.range_succ, List.foldl_append, List.foldl_cons, List.foldl_nil]
    refine (ih.row m (fun c hd => lt_irrefl m hd.1) W).congr (fun r c => ?_)
    constructor
    · rintro (⟨hr, hc⟩ | ⟨hr, hc⟩)
      · exact ⟨Nat.lt_succ_of_lt hr, hc⟩
      · exact ⟨hr ▸ Nat.lt_succ_self m, hc⟩
    · rintro ⟨hr, hc⟩
      rcases Nat.lt_succ_iff_lt_or_eq.mp hr with hlt | heq
      · exact Or.inl ⟨hlt, hc⟩
      · exact Or.inr ⟨heq, hc⟩

theorem redrawCells_inv (b : Board) (ok : Nat → Bool) (p0 : Paint)
    (hpen : p0.dc.pen = Pen.Off MATRIX_PIXEL_WIDTH) :
    CellsInv ok p0 (redrawCells b ok (Pen.Off MATRIX_PIXEL_WIDTH) p0)
      (fun r c => r < b.MATRIX_HEIGHT ∧ c < b.MATRIX_WIDTH) :=
  CellsInv.rows ok p0 hpen b.MATRIX_WIDTH b.MATRIX_HEIGHT

theorem drawIndicator_s (ok : Nat → Bool) (OffPen : Pen) (w px : Nat) (X Y : Int) (p : Paint) :
    (drawIndicator ok OffPen w px X Y p).s = p.s := by
  unfold drawIndicator
  by_cases h : ok p.calls = true <;> simp [h]

theorem drawIndicator_pen (ok : Nat → Bool) (OffPen : Pen) (w px : Nat) (X Y : Int) (p : Paint)
    (hpen : p.dc.pen = OffPen) : (drawIndicator ok OffPen w px X Y p).dc.pen = OffPen := by
  unfold drawIndicator
  by_cases h : ok p.calls = true <;> simp [h, SelectObject, LineTo, MoveToEx, hpen]

theorem drawIndicator_surface (ok : Nat → Bool) (OffPen : Pen) (w px : Nat) (X Y : Int)
    (p : Paint) (X' Y' : Int) (hne : Y' ≠ Y) :
    (drawIndicator ok OffPen w px X Y p).dc.surface X' Y' = p.dc.surface X' Y' := by
  unfold drawIndicator
  by_cases h : ok p.calls = true <;> simp [h, SelectObject, LineTo, MoveToEx, hne]

theorem drawIndicator_surface_column (ok : Nat → Bool) (OffPen : Pen) (w px : Nat) (X Y : Int)
    (p : Paint) (X' Y' : Int) (hne : X' ≠ X) :
    (drawIndicator ok OffPen w px X Y p).dc.surface X' Y' = p.dc.surface X' Y' := by
  unfold drawIndicator
  by_cases h : ok p.calls = true <;> simp [h, SelectObject, LineTo, MoveToEx, hne]

theorem drawIndicator_surface_at (ok : Nat → Bool) (OffPen : Pen) (w px : Nat) (X Y : Int)
    (p : Paint) (h : ok p.calls = true) :
    (drawIndicator ok OffPen w px X Y p).dc.surface X Y = some (Pen.Colored w px) := by
  unfold drawIndicator
  simp [h, SelectObject, LineTo, MoveToEx]

theorem trackball1Pixel_congr (b : Board) (s q : State)
    (h1 : q.KeTrackball1 = s.KeTrackball1) (hw : q.KeWhiteLeds = s.KeWhiteLeds) :
    trackball1Pixel b q = trackball1Pixel b s := by
  unfold trackball1Pixel
  rw [h1, hw]

theorem trackball2Pixel_congr (b : Board) (s q : State)
    (h2 : q.KeTrackball2 = s.KeTrackball2) (hw : q.KeWhiteLeds = s.KeWhiteLeds) :
    trackball2Pixel b q = trackball2Pixel b s := by
  unfold trackball2Pixel
  rw [h2, hw]

theorem trackball_columns (b : Board) :
    TRACKBALL1_X b ≠ TRACKBALL2_X b ∧ TRACKBALL1_X b ≠ STANDBY_X b ∧
    TRACKBALL2_X b ≠ STANDBY_X b := by
  unfold TRACKBALL1_X TRACKBALL2_X STANDBY_X TRACKBALL_X_PADDING
  generalize MATRIX_SCREEN_WIDTH b / 2 = m
  omega

theorem HlpRedrawMatrix_repainted (b : Board) (ok : Nat → Bool) (s : State) (dc : HDC)
    (h0 : ok 0 = true) : Repainted b ok s dc (HlpRedrawMatrix b ok s dc) := by
  have hinv := redrawCells_inv b ok
    { s := s, dc := (SelectObject dc (Pen.Off MATRIX_PIXEL_WIDTH)).1, calls := 1 } rfl
  generalize hp : redrawCells b ok (Pen.Off MATRIX_PIXEL_WIDTH)
    { s := s, dc := (SelectObject dc (Pen.Off MATRIX_PIXEL_WIDTH)).1, calls := 1 } = p at hinv
  have hval : HlpRedrawMatrix b ok s dc =
      ({ p.s with
          HlTrackball1 := p.s.KeTrackball1
          HlTrackball2 := p.s.KeTrackball2
          HlWhiteLeds := p.s.KeWhiteLeds },
        (SelectObject (drawIndicator ok (Pen.Off MATRIX_PIXEL_WIDTH) STANDBY_LED_WIDTH
          (standbyPixel b { p.s with
            HlTrackball1 := p.s.KeTrackball1
            HlTrackball2 := p.s.KeTrackball2 })
          (STANDBY_X b) (TRACKBALL_Y b)
          { drawIndicator ok (Pen.Off MATRIX_PIXEL_WIDTH) TRACKBALL_WIDTH
              (trackball2Pixel b { p.s with HlTrackball1 := p.s.KeTrackball1 })
              (TRACKBALL2_X b) (TRACKBALL_Y b)
              { drawIndicator ok (Pen.Off MATRIX_PIXEL_WIDTH) TRACKBALL_WIDTH
                  (trackball1Pixel b p.s) (TRACKBALL1_X b) (TRACKBALL_Y b) p with
                s := { p.s with HlTrackball1 := p.s.KeTrackball1 } } with
            s := { p.s with
              HlTrackball1 := p.s.KeTrackball1
              HlTrackball2 := p.s.KeTrackball2 } }).dc dc.pen).1) := by
    unfold HlpRedrawMatrix
    simp only [h0, if_true, hp, drawIndicator_s]
    rfl
  rw [hval]
  have hf := hinv.frame
  refine ⟨?_, ?_, ?_, ?_, ?_, ?_, ?_⟩
  · revert hf
    generalize p.s = q
    intro hf
    cases q
    cases s
    simp only [State.mk.injEq, true_and] at hf ⊢
    obtain ⟨a1, a2, a3, a4, a5, a6, a7, a8, a9, a10, a11⟩ := hf
    exact ⟨a1, a2, a3, a4, a5, a2, a3, a4, a9, a10, a11⟩
  · intro y x hy hx
    exact hinv.text_done y x ⟨hy, hx⟩
  · intro y x hyx
    exact hinv.text_rest y x hyx
  · intro y x hy hx
    exact hinv.hl_done y x ⟨hy, hx⟩
  · intro y x hyx
    exact hinv.hl_rest y x hyx
  · intro hok y x hy hx
    have hne := cellPosition_lt_trackball b hy
    have hd := hinv.dot_done hok y x ⟨hy, hx⟩
    unfold dotAt at hd ⊢
    simp only [SelectObject]
    rw [drawIndicator_surface _ _ _ _ _ _ _ _ _ hne]
    simp only []
    rw [drawIndicator_surface _ _ _ _ _ _ _ _ _ hne]
    simp only []
    rw [drawIndicator_surface _ _ _ _ _ _ _ _ _ hne]
    exact hd
  · simp [SelectObject]

/-- When every `ExtCreatePen` call returns a pen, the surface `HlpRedrawMatrix`
leaves holds at each trackball position the dot of the pen made for the pixel
that the routine composed for that trackball from the state it was called in. -/
theorem HlpRedrawMatrix_trackball_dots (b : Board) (ok : Nat → Bool) (s : State) (dc : HDC)
    (hok : ∀ n, ok n = true) :
    (HlpRedrawMatrix b ok s dc).2.surface (TRACKBALL1_X b) (TRACKBALL_Y b) =
      some (Pen.Colored TRACKBALL_WIDTH (trackball1Pixel b s)) ∧
    (HlpRedrawMatrix b ok s dc).2.surface (TRACKBALL2_X b) (TRACKBALL_Y b) =
      some (Pen.Colored TRACKBALL_WIDTH (trackball2Pixel b s)) := by
  have hinv := redrawCells_inv b ok
    { s := s, dc := (SelectObject dc (Pen.Off MATRIX_PIXEL_WIDTH)).1, calls := 1 } rfl
  generalize hp : redrawCells b ok (Pen.Off MATRIX_PIXEL_WIDTH)
    { s := s, dc := (SelectObject dc (Pen.Off MATRIX_PIXEL_WIDTH)).1, calls := 1 } = p at hinv
  have hval : HlpRedrawMatrix b ok s dc =
      ({ p.s with
          HlTrackball1 := p.s.KeTrackball1
          HlTrackball2 := p.s.KeTrackball2
          HlWhiteLeds := p.s.KeWhiteLeds },
        (SelectObject (drawIndicator ok (Pen.Off MATRIX_PIXEL_WIDTH) STANDBY_LED_WIDTH
          (standbyPixel b { p.s with
            HlTrackball1 := p.s.KeTrackball1
            HlTrackball2 := p.s.KeTrackball2 })
          (STANDBY_X b) (TRACKBALL_Y b)
          { drawIndicator ok (Pen.Off MATRIX_PIXEL_WIDTH) TRACKBALL_WIDTH
              (trackball2Pixel b { p.s with HlTrackball1 := p.s.KeTrackball1 })
              (TRACKBALL2_X b) (TRACKBALL_Y b)
              { drawIndicator ok (Pen.Off MATRIX_PIXEL_WIDTH) TRACKBALL_WIDTH
                  (trackball1Pixel b p.s) (TRACKBALL1_X b) (TRACKBALL_Y b) p with
                s := { p.s with HlTrackball1 := p.s.KeTrackball1 } } with
            s := { p.s with
              HlTrackball1 := p.s.KeTrackball1
              HlTrackball2 := p.s.KeTrackball2 } }).dc dc.pen).1) := by
    unfold HlpRedrawMatrix
    simp only [hok 0, if_true, hp, drawIndicator_s]
    rfl
  rw [hval]
  have hf := hinv.frame
  have hk : p.s.KeTrackball1 = s.KeTrackball1 ∧ p.s.KeTrackball2 = s.KeTrackball2 ∧
      p.s.KeWhiteLeds = s.KeWhiteLeds := by
    revert hf
    generalize p.s = q
    intro hf
    cases q
    cases s
    simp only [State.mk.injEq, true_and] at hf ⊢
    obtain ⟨a1, a2, a3, a4, a5, a6, a7, a8, a9, a10, a11⟩ := hf
    exact ⟨a2, a3, a4⟩
  have e1 : trackball1Pixel b p.s = trackball1Pixel b s :=
    trackball1Pixel_congr b s p.s hk.1 hk.2.2
  have e2 : trackball2Pixel b { p.s with HlTrackball1 := p.s.KeTrackball1 } =
      trackball2Pixel b s :=
    trackball2Pixel_congr b s _ hk.2.1 hk.2.2
  obtain ⟨c12, c1s, c2s⟩ := trackball_columns b
  constructor
  · simp only [SelectObject]
    rw [drawIndicator_surface_column _ _ _ _ _ _ _ _ _ c1s]
    simp only []
    rw [drawIndicator_surface_column _ _ _ _ _ _ _ _ _ c12]
    simp only []
    rw [drawIndicator_surface_at _ _ _ _ _ _ _ (hok _), e1]
  · simp only [SelectObject]
    rw [drawIndicator_surface_column _ _ _ _ _ _ _ _ _ c2s]
    simp only []
    rw [drawIndicator_surface_at _ _ _ _ _ _ _ (hok _), e2]

end Mainboard

/-! ## Glyph printer: lemmas -/

namespace Mainboard

theorem forU8_inv {σ : Type} (cond : Nat → Bool) (body : Nat → σ → Except Fault σ)
    (hi : Nat) (hhi : hi ≤ 255) (hcond : ∀ i, cond i = true ↔ i < hi)
    (P : Nat → σ → Prop)
    (hbody : ∀ i s, i < hi → P i s → ∃ s', body i s = .ok s' ∧ P (i + 1) s') :
    ∀ fuel i s, hi - i < fuel → P i s →
      ∃ s', forU8 cond body fuel i s = .ok s' ∧ P (max i hi) s' := by
  intro fuel
  induction fuel with
  | zero => intro i s hf; omega
  | succ fuel ih =>
    intro i s hf hP
    by_cases hlt : i < hi
    · obtain ⟨s', hs', hP'⟩ := hbody i s hlt hP
      have hmod : (i + 1) % 256 = i + 1 := Nat.mod_eq_of_lt (by omega)
      obtain ⟨s'', hs'', hP''⟩ := ih (i + 1) s' (by omega) hP'
      refine ⟨s'', ?_, ?_⟩
      · simp only [forU8, (hcond i).mpr hlt, if_true, hs', hmod, hs'']
      · have h1 : max (i + 1) hi = hi := by omega
        have h2 : max i hi = hi := by omega
        rw [h2]
        rw [h1] at hP''
        exact hP''
    · have hc : cond i = false := by
        rw [← Bool.not_eq_true, hcond i]
        exact hlt
      refine ⟨s, ?_, ?_⟩
      · simp [forU8, hc]
      · have h2 : max i hi = i := by omega
        rw [h2]
        exact hP

theorem forU8_ne_outOfBounds {σ : Type} (cond : Nat → Bool) (body : Nat → σ → Except Fault σ)
    (hbody : ∀ i s, cond i = true → body i s ≠ .error .OutOfBounds) :
    ∀ fuel i s, forU8 cond body fuel i s ≠ .error .OutOfBounds := by
  intro fuel
  induction fuel with
  | zero => intro i s h; simp [forU8] at h
  | succ fuel ih =>
    intro i s
    by_cases hc : cond i = true
    · simp only [forU8, hc, if_true]
      cases hb : body i s with
      | ok s' => exact ih _ _
      | error e =>
        intro h
        apply hbody i s hc
        rw [hb]
        exact h
    · simp [forU8, hc]

theorem bitSet3x5_shift (b : Board) (ch X XPixel Column : Nat) (h : X ≤ XPixel) :
    bitSet3x5 b ch X XPixel Column = bitSet3x5 b ch 0 (XPixel - X) Column := by
  unfold bitSet3x5
  have h0 : ((XPixel : Int) - (X : Int) = 0) ↔ (((XPixel - X : Nat) : Int) - ((0 : Nat) : Int) = 0) := by
    omega
  have h1 : ((XPixel : Int) - (X : Int) = 1) ↔ (((XPixel - X : Nat) : Int) - ((0 : Nat) : Int) = 1) := by
    omega
  simp only [h0, h1]

theorem fillColumn_empty (old : Grid) (x lo : Nat) (val : Nat → Nat) :
    fillColumn old x lo lo val = old := by
  funext r c
  unfold fillColumn
  have : ¬ (c = x ∧ lo ≤ r ∧ r < lo) := by omega
  rw [if_neg this]

theorem fillColumn_step (old : Grid) (x lo i : Nat) (val : Nat → Nat) (h : lo ≤ i) :
    (fillColumn old x lo i val).set i x (val i) = fillColumn old x lo (i + 1) val := by
  funext r c
  unfold fillColumn Grid.set
  beta_reduce
  by_cases h1 : r = i ∧ c = x
  · have h3 : c = x ∧ lo ≤ r ∧ r < i + 1 := ⟨h1.2, h1.1 ▸ h, by omega⟩
    rw [if_pos h1, if_pos h3, h1.1]
  · by_cases h2 : c = x ∧ lo ≤ r ∧ r < i
    · have h3 : c = x ∧ lo ≤ r ∧ r < i + 1 := ⟨h2.1, h2.2.1, by omega⟩
      rw [if_neg h1, if_pos h2, if_pos h3]
    · have h3 : ¬ (c = x ∧ lo ≤ r ∧ r < i + 1) := by
        rintro ⟨hc, hy, hr⟩
        rcases Nat.lt_succ_iff_lt_or_eq.mp hr with hlt | heq
        · exact h2 ⟨hc, hy, hlt⟩
        · exact h1 ⟨heq, hc⟩
      rw [if_neg h1, if_neg h2, if_neg h3]

theorem fillBox_empty (old : Grid) (xlo ylo yhi : Nat) (val : Nat → Nat → Nat) :
    fillBox old xlo xlo ylo yhi val = old := by
  funext r c
  unfold fillBox
  have : ¬ (xlo ≤ c ∧ c < xlo ∧ ylo ≤ r ∧ r < yhi) := by omega
  rw [if_neg this]

theorem fillBox_step (old : Grid) (xlo i ylo yhi : Nat) (val : Nat → Nat → Nat) (h : xlo ≤ i) :
    fillColumn (fillBox old xlo i ylo yhi val) i ylo yhi (val i) =
      fillBox old xlo (i + 1) ylo yhi val := by
  funext r c
  unfold fillColumn fillBox
  by_cases h1 : c = i ∧ ylo ≤ r ∧ r < yhi
  · have h4 : xlo ≤ c ∧ c < i + 1 ∧ ylo ≤ r ∧ r < yhi := ⟨h1.1 ▸ h, by omega, h1.2⟩
    rw [if_pos h1, if_pos h4, h1.1]
  · by_cases h2 : xlo ≤ c ∧ c < i ∧ ylo ≤ r ∧ r < yhi
    · have h4 : xlo ≤ c ∧ c < i + 1 ∧ ylo ≤ r ∧ r < yhi := ⟨h2.1, by omega, h2.2.2⟩
      rw [if_neg h1, if_pos h2, if_pos h4]
    · have h4 : ¬ (xlo ≤ c ∧ c < i + 1 ∧ ylo ≤ r ∧ r < yhi) := by
        rintro ⟨hx, hc, hy⟩
        rcases Nat.lt_succ_iff_lt_or_eq.mp hc with hlt | heq
        · exact h2 ⟨hx, hlt, hy⟩
        · exact h1 ⟨heq, hy⟩
      rw [if_neg h1, if_neg h2, if_neg h4]

/-- The row loop of the 3 x 5 case writes the part of column `XPixel` that lies
in the box and in the matrix. -/
theorem rows3x5_eq (b : Board) (hH : b.MATRIX_HEIGHT ≤ 255) (X Y ch Color XPixel : Nat)
    (hX : X ≤ XPixel) (hW : XPixel < b.MATRIX_WIDTH) (s : State) :
    rows3x5 b X Y ch Color XPixel s = .ok { s with
      HlTextColor := fillColumn s.HlTextColor XPixel Y (max Y (min (Y + 5) b.MATRIX_HEIGHT))
        (fun r => if bitSet3x5 b ch 0 (XPixel - X) (r - Y) then Color else 0) } := by
  obtain ⟨s', hs', -, rfl⟩ := forU8_inv
    (fun YPixel => decide (YPixel < Y + 5 ∧ YPixel < b.MATRIX_HEIGHT))
    (cell3x5 b X Y ch Color XPixel) (min (Y + 5) b.MATRIX_HEIGHT) (by omega)
    (by intro i; simp)
    (fun i s' => Y ≤ i ∧ s' = { s with
      HlTextColor := fillColumn s.HlTextColor XPixel Y i
        (fun r => if bitSet3x5 b ch 0 (XPixel - X) (r - Y) then Color else 0) })
    (by
      rintro i s' hi ⟨hYi, rfl⟩
      have hiH : i < b.MATRIX_HEIGHT := by omega
      have hcol : (i + 256 - Y) % 256 = i - Y := by omega
      refine ⟨_, ?_, by omega, rfl⟩
      simp only [cell3x5, storeTextColor, hiH, hW, and_self, if_true, hcol,
        bitSet3x5_shift b ch X XPixel (i - Y) hX]
      rw [← fillColumn_step _ _ _ _ _ hYi]
      by_cases hb : bitSet3x5 b ch 0 (XPixel - X) (i - Y) = true
      · simp [hb]
      · simp only [Bool.not_eq_true] at hb
        simp [hb])
    256 Y s (by omega) ⟨le_refl Y, by rw [fillColumn_empty]⟩
  exact hs'

/-- The row loop of the 5 x 7 case writes the part of column `XPixel` that lies
in the box and in the matrix, one bit of the column byte per row. -/
theorem rows5x7_eq (b : Board) (hH : b.MATRIX_HEIGHT ≤ 255) (X Y ch Color XPixel : Nat)
    (hW : XPixel < b.MATRIX_WIDTH) (s : State) :
    rows5x7 b X Y ch Color XPixel s = .ok { s with
      HlTextColor := fillColumn s.HlTextColor XPixel Y (max Y (min (Y + 8) b.MATRIX_HEIGHT))
        (fun r => if (b.KeFontData5x7 ch (XPixel - X) % 256) >>> (r - Y) &&& 1 != 0
          then Color else 0) } := by
  obtain ⟨se, hse, -, rfl⟩ := forU8_inv
    (fun YPixel => decide (YPixel < Y + 8 ∧ YPixel < b.MATRIX_HEIGHT))
    (cell5x7 b Color XPixel) (min (Y + 8) b.MATRIX_HEIGHT) (by omega)
    (by intro i; simp)
    (fun i se => Y ≤ i ∧ se = ({ s with
      HlTextColor := fillColumn s.HlTextColor XPixel Y i
        (fun r => if (b.KeFontData5x7 ch (XPixel - X) % 256) >>> (r - Y) &&& 1 != 0
          then Color else 0) },
      (b.KeFontData5x7 ch (XPixel - X) % 256) >>> (i - Y)))
    (by
      rintro i se hi ⟨hYi, rfl⟩
      have hiH : i < b.MATRIX_HEIGHT := by omega
      have hsh : i + 1 - Y = (i - Y) + 1 := by omega
      refine ⟨_, ?_, by omega, rfl⟩
      rw [← fillColumn_step _ _ _ _ _ hYi, hsh, Nat.shiftRight_add]
      by_cases hb : (b.KeFontData5x7 ch (XPixel - X) % 256) >>> (i - Y) &&& 1 = 0
      · simp only [cell5x7, storeTextColor, hiH, hW, and_self, if_true, hb, ne_eq,
          not_true_eq_false, if_false, bne_self_eq_false, Bool.false_eq_true]
      · have hb' : ((b.KeFontData5x7 ch (XPixel - X) % 256) >>> (i - Y) &&& 1 != 0) = true :=
          bne_iff_ne.mpr hb
        simp only [cell5x7, storeTextColor, hiH, hW, and_self, if_true, hb, ne_eq,
          not_false_eq_true, hb'])
    256 Y (s, b.KeFontData5x7 ch (XPixel - X) % 256) (by omega)
    ⟨le_refl Y, by rw [fillColumn_empty, Nat.sub_self, Nat.shiftRight_zero]⟩
  unfold rows5x7
  simp only [hse]

/-- A column loop whose body fills one column of the box fills the box. -/
theorem columns_eq (b : Board) (hW : b.MATRIX_WIDTH ≤ 255) (X bw ylo yhi : Nat)
    (body : Nat → State → Except Fault State) (val : Nat → Nat → Nat)
    (hbody : ∀ XPixel s, X ≤ XPixel → XPixel < b.MATRIX_WIDTH →
      body XPixel s = .ok { s with
        HlTextColor := fillColumn s.HlTextColor XPixel ylo yhi (val XPixel) })
    (s : State) :
    forU8 (fun XPixel => decide (XPixel < X + bw ∧ XPixel < b.MATRIX_WIDTH)) body 256 X s =
      .ok { s with
        HlTextColor := fillBox s.HlTextColor X (max X (min (X + bw) b.MATRIX_WIDTH))
          ylo yhi val } := by
  obtain ⟨s', hs', -, rfl⟩ := forU8_inv
    (fun XPixel => decide (XPixel < X + bw ∧ XPixel < b.MATRIX_WIDTH))
    body (min (X + bw) b.MATRIX_WIDTH) (by omega)
    (by intro i; simp)
    (fun i s' => X ≤ i ∧ s' = { s with
      HlTextColor := fillBox s.HlTextColor X i ylo yhi val })
    (by
      rintro i s' hi ⟨hXi, rfl⟩
      refine ⟨_, hbody i _ hXi (by omega), by omega, ?_⟩
      simp only [fillBox_step _ _ _ _ _ _ hXi])
    256 X s (by omega) ⟨le_refl X, by rw [fillBox_empty]⟩
  exact hs'

theorem fillBox_eq_printedText (b : Board) (Size X Y Character Color : Nat) (old : Grid)
    (val : Nat → Nat → Nat)
    (hval : ∀ c r, X ≤ c → Y ≤ r →
      val c r = if glyphLit b Size Character (c - X) (r - Y) then Color else 0) :
    fillBox old X (max X (min (X + boxWidth Size) b.MATRIX_WIDTH))
      Y (max Y (min (Y + boxHeight Size) b.MATRIX_HEIGHT)) val =
    printedText b Size X Y Character Color old := by
  funext r c
  unfold fillBox printedText
  by_cases h : X ≤ c ∧ c < X + boxWidth Size ∧ c < b.MATRIX_WIDTH ∧
      Y ≤ r ∧ r < Y + boxHeight Size ∧ r < b.MATRIX_HEIGHT
  · have h' : X ≤ c ∧ c < max X (min (X + boxWidth Size) b.MATRIX_WIDTH) ∧
        Y ≤ r ∧ r < max Y (min (Y + boxHeight Size) b.MATRIX_HEIGHT) := by omega
    rw [if_pos h, if_pos h', hval c r h.1 h.2.2.2.1]
  · have h' : ¬ (X ≤ c ∧ c < max X (min (X + boxWidth Size) b.MATRIX_WIDTH) ∧
        Y ≤ r ∧ r < max Y (min (Y + boxHeight Size) b.MATRIX_HEIGHT)) := by omega
    rw [if_neg h, if_neg h']

/-- On a matrix that `UCHAR` coordinates can address, `HlPrintText` returns, and
the state it leaves is the old one with the glyph box overwritten inside the
matrix and the text flag set. -/
theorem HlPrintText_eq (b : Board) (hfit : b.Fits) (Size X Y Character Color : Nat) (s : State) :
    HlPrintText b Size X Y Character Color s = .ok { s with
      HlTextColor := printedText b Size X Y Character Color s.HlTextColor
      HlNewTextPrinted := true } := by
  obtain ⟨hH, hW⟩ := hfit
  unfold HlPrintText
  by_cases hS : Size = 0
  · subst hS
    have h := columns_eq b hW X 3 Y (max Y (min (Y + 5) b.MATRIX_HEIGHT))
      (rows3x5 b X Y (mapCharacter3x5 b Character) Color)
      (fun c r => if bitSet3x5 b (mapCharacter3x5 b Character) 0 (c - X) (r - Y)
        then Color else 0)
      (fun XPixel s hX hlt => rows3x5_eq b hH X Y _ Color XPixel hX hlt s) s
    have hbox := fillBox_eq_printedText b 0 X Y Character Color s.HlTextColor
      (fun c r => if bitSet3x5 b (mapCharacter3x5 b Character) 0 (c - X) (r - Y)
        then Color else 0)
      (fun c r _ _ => by simp [glyphLit])
    simp only [boxWidth, boxHeight, if_true] at hbox
    simp only [if_true, columns3x5, h, hbox]
  · have h := columns_eq b hW X 5 Y (max Y (min (Y + 8) b.MATRIX_HEIGHT))
      (rows5x7 b X Y Character Color)
      (fun c r => if (b.KeFontData5x7 Character (c - X) % 256) >>> (r - Y) &&& 1 != 0
        then Color else 0)
      (fun XPixel s _ hlt => rows5x7_eq b hH X Y _ Color XPixel hlt s) s
    have hbox := fillBox_eq_printedText b Size X Y Character Color s.HlTextColor
      (fun c r => if (b.KeFontData5x7 Character (c - X) % 256) >>> (r - Y) &&& 1 != 0
        then Color else 0)
      (fun c r _ _ => by simp [glyphLit, hS])
    simp only [boxWidth, boxHeight, hS, if_false] at hbox
    simp only [hS, if_false, columns5x7, h, hbox]

theorem storeTextColor_ne_outOfBounds (b : Board) (s : State) (YPixel XPixel v : Nat)
    (hy : YPixel < b.MATRIX_HEIGHT) (hx : XPixel < b.MATRIX_WIDTH) :
    storeTextColor b s YPixel XPixel v ≠ .error .OutOfBounds := by
  simp [storeTextColor, hy, hx]

theorem rows3x5_ne_outOfBounds (b : Board) (X Y ch Color XPixel : Nat)
    (hx : XPixel < b.MATRIX_WIDTH) (s : State) :
    rows3x5 b X Y ch Color XPixel s ≠ .error .OutOfBounds := by
  unfold rows3x5
  apply forU8_ne_outOfBounds
  intro i s' hc
  simp only [decide_eq_true_eq] at hc
  unfold cell3x5
  by_cases hb : bitSet3x5 b ch X XPixel ((i + 256 - Y) % 256) = true
  · simp only [hb, bne_self_eq_false, Bool.true_bne, Bool.not_false, if_true]
    exact storeTextColor_ne_outOfBounds b s' i XPixel Color hc.2 hx
  · simp only [Bool.not_eq_true] at hb
    simp only [hb, bne_self_eq_false, Bool.false_eq_true, if_false]
    exact storeTextColor_ne_outOfBounds b s' i XPixel 0 hc.2 hx

theorem rows5x7_ne_outOfBounds (b : Board) (X Y ch Color XPixel : Nat)
    (hx : XPixel < b.MATRIX_WIDTH) (s : State) :
    rows5x7 b X Y ch Color XPixel s ≠ .error .OutOfBounds := by
  have h := forU8_ne_outOfBounds
    (fun YPixel => decide (YPixel < Y + 8 ∧ YPixel < b.MATRIX_HEIGHT))
    (cell5x7 b Color XPixel)
    (by
      intro i se hc
      simp only [decide_eq_true_eq] at hc
      unfold cell5x7
      simp only [storeTextColor, hc.2, hx, and_self, if_true]
      split_ifs <;> exact fun h => Except.noConfusion h)
    256 Y (s, b.KeFontData5x7 ch (XPixel - X) % 256)
  unfold rows5x7
  dsimp only
  generalize forU8 _ _ 256 Y _ = res at h ⊢
  cases res with
  | ok se => exact fun h => Except.noConfusion h
  | error e =>
    intro h'
    apply h
    rw [Except.error.injEq] at h'
    rw [h']

/-- No array store of `HlPrintText` falls outside `HlTextColor`, whatever the
size of the matrix. -/
theorem HlPrintText_ne_outOfBounds (b : Board) (Size X Y Character Color : Nat) (s : State) :
    HlPrintText b Size X Y Character Color s ≠ .error .OutOfBounds := by
  have h3 : columns3x5 b X Y (mapCharacter3x5 b Character) Color s ≠ .error .OutOfBounds := by
    unfold columns3x5
    apply forU8_ne_outOfBounds
    intro i s' hc
    simp only [decide_eq_true_eq] at hc
    exact rows3x5_ne_outOfBounds b X Y _ Color i hc.2 s'
  have h5 : columns5x7 b X Y Character Color s ≠ .error .OutOfBounds := by
    unfold columns5x7
    apply forU8_ne_outOfBounds
    intro i s' hc
    simp only [decide_eq_true_eq] at hc
    exact rows5x7_ne_outOfBounds b X Y _ Color i hc.2 s'
  unfold HlPrintText
  by_cases hS : Size = 0
  · simp only [hS, if_true]
    cases hr : columns3x5 b X Y (mapCharacter3x5 b Character) Color s with
    | ok s' => simp
    | error e =>
      rw [hr] at h3
      simpa using h3
  · simp only [hS, if_false]
    cases hr : columns5x7 b X Y Character Color s with
    | ok s' => simp
    | error e =>
      rw [hr] at h5
      simpa using h5

theorem printedText_inside (b : Board) (Size X Y Character Color : Nat) (old : Grid) (r c : Nat)
    (h : X ≤ c ∧ c < X + boxWidth Size ∧ c < b.MATRIX_WIDTH ∧
      Y ≤ r ∧ r < Y + boxHeight Size ∧ r < b.MATRIX_HEIGHT) :
    printedText b Size X Y Character Color old r c =
      if glyphLit b Size Character (c - X) (r - Y) then Color else 0 := by
  unfold printedText
  rw [if_pos h]

theorem printedText_outside (b : Board) (Size X Y Character Color : Nat) (old : Grid) (r c : Nat)
    (h : ¬ (X ≤ c ∧ c < X + boxWidth Size ∧ c < b.MATRIX_WIDTH ∧
      Y ≤ r ∧ r < Y + boxHeight Size ∧ r < b.MATRIX_HEIGHT)) :
    printedText b Size X Y Character Color old r c = old r c := by
  unfold printedText
  rw [if_neg h]

theorem printedText_twice (b : Board) (Size X Y ChA ColorA ChB ColorB : Nat) (old : Grid) :
    printedText b Size X Y ChB ColorB (printedText b Size X Y ChA ColorA old) =
      printedText b Size X Y ChB ColorB old := by
  funext r c
  by_cases h : X ≤ c ∧ c < X + boxWidth Size ∧ c < b.MATRIX_WIDTH ∧
      Y ≤ r ∧ r < Y + boxHeight Size ∧ r < b.MATRIX_HEIGHT
  · rw [printedText_inside _ _ _ _ _ _ _ _ _ h, printedText_inside _ _ _ _ _ _ _ _ _ h]
  · rw [printedText_outside _ _ _ _ _ _ _ _ _ h, printedText_outside _ _ _ _ _ _ _ _ _ h,
      printedText_outside _ _ _ _ _ _ _ _ _ h]

end Mainboard

/-! ## The staleness test -/

namespace Mainboard

/-- C1: with the new-text flag clear, `HlpIsMatrixStale` returns TRUE exactly
when some cell of `KeMatrix` differs from the same cell of `HlMatrix`, or a
trackball colour or the white-LED value differs from its shadow; a mismatch in
any row is kept although the inner loop is left early; and the call leaves the
whole state as it was. -/
theorem HlpIsMatrixStale_flag_clear (b : Board) (s : State)
    (hflag : s.HlNewTextPrinted = false) :
    ((HlpIsMatrixStale b s).1 = true ↔
      ((∃ YPixel XPixel, YPixel < b.MATRIX_HEIGHT ∧ XPixel < b.MATRIX_WIDTH ∧
          s.KeMatrix YPixel XPixel ≠ s.HlMatrix YPixel XPixel) ∨
        s.KeTrackball1 ≠ s.HlTrackball1 ∨ s.KeTrackball2 ≠ s.HlTrackball2 ∨
        s.KeWhiteLeds ≠ s.HlWhiteLeds)) ∧
    (HlpIsMatrixStale b s).2 = s :=
  stale_of_clear_flag b s hflag

theorem HlpIsMatrixStale_flag_clear_witness :
    ((HlpIsMatrixStale board8 staleState).1 = true ↔
      ((∃ YPixel XPixel, YPixel < board8.MATRIX_HEIGHT ∧ XPixel < board8.MATRIX_WIDTH ∧
          staleState.KeMatrix YPixel XPixel ≠ staleState.HlMatrix YPixel XPixel) ∨
        staleState.KeTrackball1 ≠ staleState.HlTrackball1 ∨
        staleState.KeTrackball2 ≠ staleState.HlTrackball2 ∨
        staleState.KeWhiteLeds ≠ staleState.HlWhiteLeds)) ∧
    (HlpIsMatrixStale board8 staleState).2 = staleState :=
  HlpIsMatrixStale_flag_clear board8 staleState rfl

/-- C2: with the new-text flag set, `HlpIsMatrixStale` returns TRUE whatever the
pixels and indicators are, leaves the flag clear, and changes nothing else. -/
theorem HlpIsMatrixStale_flag_set (b : Board) (s : State)
    (hflag : s.HlNewTextPrinted = true) :
    (HlpIsMatrixStale b s).1 = true ∧
    (HlpIsMatrixStale b s).2.HlNewTextPrinted = false ∧
    (HlpIsMatrixStale b s).2 = { s with HlNewTextPrinted := false } := by
  rw [stale_of_set_flag b s hflag]
  exact ⟨rfl, rfl, rfl⟩

theorem HlpIsMatrixStale_flag_set_witness :
    (HlpIsMatrixStale board8 { zeroState with HlNewTextPrinted := true }).1 = true ∧
    (HlpIsMatrixStale board8 { zeroState with HlNewTextPrinted := true }).2.HlNewTextPrinted
      = false ∧
    (HlpIsMatrixStale board8 { zeroState with HlNewTextPrinted := true }).2 =
      { ({ zeroState with HlNewTextPrinted := true } : State) with HlNewTextPrinted := false } :=
  HlpIsMatrixStale_flag_set board8 { zeroState with HlNewTextPrinted := true } rfl

/-- C3, as stated, fails: in `staleState` (a hardware pixel changed, no repaint
yet) the second of two consecutive calls of `HlpIsMatrixStale` returns TRUE
again; the first call changed nothing. -/
theorem HlpIsMatrixStale_twice_counterexample :
    (HlpIsMatrixStale board8 staleState).2 = staleState ∧
    (HlpIsMatrixStale board8 (HlpIsMatrixStale board8 staleState).2).1 = true := by
  have h1 := (stale_of_clear_flag board8 staleState rfl).2
  refine ⟨h1, ?_⟩
  rw [h1]
  refine ((stale_of_clear_flag board8 staleState rfl).1).mpr (Or.inl ⟨0, 0, ?_, ?_, ?_⟩)
  · decide
  · decide
  · decide

/-- C3, amended: the second of two consecutive calls of `HlpIsMatrixStale`
returns TRUE exactly when some matrix cell or indicator differs from its
shadow, whatever the text flag was before the first call; so it returns FALSE
exactly when the shadow is level with the hardware state. -/
theorem HlpIsMatrixStale_twice (b : Board) (s : State) :
    ((HlpIsMatrixStale b (HlpIsMatrixStale b s).2).1 = true ↔
      ((∃ YPixel XPixel, YPixel < b.MATRIX_HEIGHT ∧ XPixel < b.MATRIX_WIDTH ∧
          s.KeMatrix YPixel XPixel ≠ s.HlMatrix YPixel XPixel) ∨
        s.KeTrackball1 ≠ s.HlTrackball1 ∨ s.KeTrackball2 ≠ s.HlTrackball2 ∨
        s.KeWhiteLeds ≠ s.HlWhiteLeds)) ∧
    (HlpIsMatrixStale b (HlpIsMatrixStale b s).2).2 = { s with HlNewTextPrinted := false } := by
  cases hflag : s.HlNewTextPrinted with
  | false =>
    have h1 := (stale_of_clear_flag b s hflag).2
    rw [h1]
    have h2 := stale_of_clear_flag b s hflag
    refine ⟨h2.1, ?_⟩
    rw [h2.2]
    cases s
    simp only at hflag
    simp only [hflag]
  | true =>
    rw [stale_of_set_flag b s hflag]
    exact stale_of_clear_flag b { s with HlNewTextPrinted := false } rfl

end Mainboard

/-! ## The repaint -/

namespace Mainboard

/-- C4: for a cell that `HlpRedrawMatrix` processes, when the overlay holds a
colour there and the hardware pixel equals its shadow, the pixel resolved for
display is the overlay colour, the dot at the cell is drawn with the pen made
for that colour (given the pens), and `HlTextColor` and `HlMatrix` at the cell
are left as they were. -/
theorem HlpRedrawMatrix_overlay_cell (b : Board) (ok : Nat → Bool) (s : State) (dc : HDC)
    (y x : Nat) (h0 : ok 0 = true) (hy : y < b.MATRIX_HEIGHT) (hx : x < b.MATRIX_WIDTH)
    (htext : s.HlTextColor y x ≠ 0) (hsame : s.KeMatrix y x = s.HlMatrix y x) :
    (resolveCell s y x).1 = s.HlTextColor y x ∧
    ((∀ n, ok n = true) →
      dotAt (HlpRedrawMatrix b ok s dc).2 y x =
        some (Pen.Colored MATRIX_PIXEL_WIDTH (s.HlTextColor y x))) ∧
    (HlpRedrawMatrix b ok s dc).1.HlTextColor y x = s.HlTextColor y x ∧
    (HlpRedrawMatrix b ok s dc).1.HlMatrix y x = s.HlMatrix y x := by
  have hr := HlpRedrawMatrix_repainted b ok s dc h0
  have hp : (resolveCell s y x).1 = s.HlTextColor y x := by
    rw [resolveCell_fst, if_pos ⟨htext, hsame⟩]
  refine ⟨hp, ?_, ?_, ?_⟩
  · intro hok
    rw [hr.dot hok y x hy hx, hp, pixelPen, if_pos htext]
  · rw [hr.text_in y x hy hx, resolveCell_text, if_neg]
    exact fun h => h.2 hsame
  · rw [hr.hl_in y x hy hx, hsame]

theorem HlpRedrawMatrix_overlay_cell_witness :
    (resolveCell overlayState 2 3).1 = 7 ∧
    dotAt (HlpRedrawMatrix board8 everyPen overlayState blankDc).2 2 3 =
      some (Pen.Colored MATRIX_PIXEL_WIDTH 7) ∧
    (HlpRedrawMatrix board8 everyPen overlayState blankDc).1.HlTextColor 2 3 = 7 ∧
    (HlpRedrawMatrix board8 everyPen overlayState blankDc).1.HlMatrix 2 3 = 0 :=
  have h := HlpRedrawMatrix_overlay_cell board8 everyPen overlayState blankDc 2 3 rfl
    (by decide) (by decide) (by decide) rfl
  ⟨h.1, h.2.1 (fun _ => rfl), h.2.2.1, h.2.2.2⟩

/-- C5: for a cell that `HlpRedrawMatrix` processes, when the overlay is empty
there or the hardware pixel differs from its shadow, the pixel resolved for
display is the hardware pixel, the dot at the cell is drawn with the pen for
that pixel (given the pens), and afterwards the overlay is empty at the cell
and the shadow equals the hardware pixel. -/
theorem HlpRedrawMatrix_hardware_cell (b : Board) (ok : Nat → Bool) (s : State) (dc : HDC)
    (y x : Nat) (h0 : ok 0 = true) (hy : y < b.MATRIX_HEIGHT) (hx : x < b.MATRIX_WIDTH)
    (hcase : s.HlTextColor y x = 0 ∨ s.KeMatrix y x ≠ s.HlMatrix y x) :
    (resolveCell s y x).1 = s.KeMatrix y x ∧
    ((∀ n, ok n = true) →
      dotAt (HlpRedrawMatrix b ok s dc).2 y x = some (pixelPen (s.KeMatrix y x))) ∧
    (HlpRedrawMatrix b ok s dc).1.HlTextColor y x = 0 ∧
    (HlpRedrawMatrix b ok s dc).1.HlMatrix y x = s.KeMatrix y x ∧
    (HlpRedrawMatrix b ok s dc).1.KeMatrix y x = s.KeMatrix y x := by
  have hr := HlpRedrawMatrix_repainted b ok s dc h0
  have hp : (resolveCell s y x).1 = s.KeMatrix y x := by
    rw [resolveCell_fst, if_neg]
    rintro ⟨h1, h2⟩
    rcases hcase with h | h
    · exact h1 h
    · exact h h2
  refine ⟨hp, ?_, ?_, hr.hl_in y x hy hx, ?_⟩
  · intro hok
    rw [hr.dot hok y x hy hx, hp]
  · rw [hr.text_in y x hy hx, resolveCell_text]
    rcases hcase with h | h
    · by_cases hk : s.KeMatrix y x = s.HlMatrix y x
      · rw [if_neg (fun hh => hh.2 hk), h]
      · rw [if_pos ⟨⟨rfl, rfl⟩, hk⟩]
    · rw [if_pos ⟨⟨rfl, rfl⟩, h⟩]
  · rw [hr.frame]

theorem HlpRedrawMatrix_hardware_cell_witness :
    (resolveCell { overlayState with KeMatrix := fun _ _ => 5 } 2 3).1 = 5 ∧
    dotAt (HlpRedrawMatrix board8 everyPen
      { overlayState with KeMatrix := fun _ _ => 5 } blankDc).2 2 3 = some (pixelPen 5) ∧
    (HlpRedrawMatrix board8 everyPen
      { overlayState with KeMatrix := fun _ _ => 5 } blankDc).1.HlTextColor 2 3 = 0 ∧
    (HlpRedrawMatrix board8 everyPen
      { overlayState with KeMatrix := fun _ _ => 5 } blankDc).1.HlMatrix 2 3 = 5 :=
  have h := HlpRedrawMatrix_hardware_cell board8 everyPen
    { overlayState with KeMatrix := fun _ _ => 5 } blankDc 2 3 rfl
    (by decide) (by decide) (Or.inr (by decide))
  ⟨h.1, h.2.1 (fun _ => rfl), h.2.2.1, h.2.2.2.1⟩

/-- C8: after `HlpRedrawMatrix` has run with its off pen created, every cell of
`HlMatrix` equals the same cell of `KeMatrix`, also where the overlay was
displayed, and the three shadow indicators equal the hardware values; the
hardware values themselves are untouched. -/
theorem HlpRedrawMatrix_shadow_level (b : Board) (ok : Nat → Bool) (s : State) (dc : HDC)
    (h0 : ok 0 = true) :
    (∀ y x, y < b.MATRIX_HEIGHT → x < b.MATRIX_WIDTH →
      (HlpRedrawMatrix b ok s dc).1.HlMatrix y x = (HlpRedrawMatrix b ok s dc).1.KeMatrix y x) ∧
    (HlpRedrawMatrix b ok s dc).1.HlTrackball1 = (HlpRedrawMatrix b ok s dc).1.KeTrackball1 ∧
    (HlpRedrawMatrix b ok s dc).1.HlTrackball2 = (HlpRedrawMatrix b ok s dc).1.KeTrackball2 ∧
    (HlpRedrawMatrix b ok s dc).1.HlWhiteLeds = (HlpRedrawMatrix b ok s dc).1.KeWhiteLeds ∧
    (HlpRedrawMatrix b ok s dc).1.KeMatrix = s.KeMatrix ∧
    (HlpRedrawMatrix b ok s dc).1.KeTrackball1 = s.KeTrackball1 ∧
    (HlpRedrawMatrix b ok s dc).1.KeTrackball2 = s.KeTrackball2 ∧
    (HlpRedrawMatrix b ok s dc).1.KeWhiteLeds = s.KeWhiteLeds := by
  have hr := HlpRedrawMatrix_repainted b ok s dc h0
  have hk : (HlpRedrawMatrix b ok s dc).1.KeMatrix = s.KeMatrix := by rw [hr.frame]
  refine ⟨?_, ?_, ?_, ?_, hk, ?_, ?_, ?_⟩
  · intro y x hy hx
    rw [hr.hl_in y x hy hx, hk]
  all_goals rw [hr.frame]

theorem HlpRedrawMatrix_shadow_level_witness :
    (HlpRedrawMatrix board8 everyPen
      { staleState with HlTextColor := fun _ _ => 7, KeTrackball1 := 9 } blankDc).1.HlMatrix 2 3
      = 5 ∧
    (HlpRedrawMatrix board8 everyPen
      { staleState with HlTextColor := fun _ _ => 7, KeTrackball1 := 9 } blankDc).1.HlTrackball1
      = 9 :=
  have h := HlpRedrawMatrix_shadow_level board8 everyPen
    { staleState with HlTextColor := fun _ _ => 7, KeTrackball1 := 9 } blankDc rfl
  ⟨(h.1 2 3 (by decide) (by decide)).trans (congrFun (congrFun h.2.2.2.2.1 2) 3),
    h.2.1.trans h.2.2.2.2.2.1⟩

end Mainboard

/-! ## The glyph printer -/

namespace Mainboard

/-- C9: what `HlPrintText` leaves in the in-matrix cells of the glyph box does
not depend on the overlay before the call: each such cell holds the colour if
its glyph bit is lit and 0 if it is not, whatever grid the overlay held; and
printing glyph A and then glyph B at the same size and position returns the
very state that printing glyph B alone returns. -/
theorem HlPrintText_overwrites_box (b : Board) (hfit : b.Fits)
    (Size X Y Character Color : Nat) (s : State) :
    ∃ s1, HlPrintText b Size X Y Character Color s = .ok s1 ∧
      (∀ r c, X ≤ c → c < X + boxWidth Size → c < b.MATRIX_WIDTH →
        Y ≤ r → r < Y + boxHeight Size → r < b.MATRIX_HEIGHT →
        s1.HlTextColor r c = if glyphLit b Size Character (c - X) (r - Y) then Color else 0) ∧
      (∀ g : Grid, ∃ s2,
        HlPrintText b Size X Y Character Color { s with HlTextColor := g } = .ok s2 ∧
        ∀ r c, X ≤ c → c < X + boxWidth Size → c < b.MATRIX_WIDTH →
          Y ≤ r → r < Y + boxHeight Size → r < b.MATRIX_HEIGHT →
          s2.HlTextColor r c = s1.HlTextColor r c) ∧
      (∀ CharacterA ColorA, ∃ sA,
        HlPrintText b Size X Y CharacterA ColorA s = .ok sA ∧
        HlPrintText b Size X Y Character Color sA = .ok s1) := by
  refine ⟨_, HlPrintText_eq b hfit Size X Y Character Color s, ?_, ?_, ?_⟩
  · intro r c h1 h2 h3 h4 h5 h6
    exact printedText_inside b Size X Y Character Color _ r c ⟨h1, h2, h3, h4, h5, h6⟩
  · intro g
    refine ⟨_, HlPrintText_eq b hfit Size X Y Character Color _, ?_⟩
    intro r c h1 h2 h3 h4 h5 h6
    show printedText b Size X Y Character Color g r c =
      printedText b Size X Y Character Color s.HlTextColor r c
    rw [printedText_inside b Size X Y Character Color _ r c ⟨h1, h2, h3, h4, h5, h6⟩,
      printedText_inside b Size X Y Character Color _ r c ⟨h1, h2, h3, h4, h5, h6⟩]
  · intro CharacterA ColorA
    refine ⟨_, HlPrintText_eq b hfit Size X Y CharacterA ColorA s, ?_⟩
    rw [HlPrintText_eq b hfit]
    simp only [printedText_twice]

theorem HlPrintText_overwrites_box_witness :
    ∃ s1, HlPrintText board8 0 6 5 65 7 overlayState = .ok s1 ∧
      (∀ r c, 6 ≤ c → c < 6 + boxWidth 0 → c < board8.MATRIX_WIDTH →
        5 ≤ r → r < 5 + boxHeight 0 → r < board8.MATRIX_HEIGHT →
        s1.HlTextColor r c = if glyphLit board8 0 65 (c - 6) (r - 5) then 7 else 0) ∧
      (∀ g : Grid, ∃ s2,
        HlPrintText board8 0 6 5 65 7 { overlayState with HlTextColor := g } = .ok s2 ∧
        ∀ r c, 6 ≤ c → c < 6 + boxWidth 0 → c < board8.MATRIX_WIDTH →
          5 ≤ r → r < 5 + boxHeight 0 → r < board8.MATRIX_HEIGHT →
          s2.HlTextColor r c = s1.HlTextColor r c) ∧
      (∀ CharacterA ColorA, ∃ sA,
        HlPrintText board8 0 6 5 CharacterA ColorA overlayState = .ok sA ∧
        HlPrintText board8 0 6 5 65 7 sA = .ok s1) :=
  HlPrintText_overwrites_box board8 (by decide) 0 6 5 65 7 overlayState

/-- C10: no store that `HlPrintText` makes into `HlTextColor` has a row or a
column outside the array, whatever the arguments; and on a matrix of at most
255 rows and columns the routine returns, leaves every cell outside the matrix
alone, and gives each cell of the glyph box inside the matrix the value of its
own glyph bit, which is the value the same cell receives on any other matrix
size that contains it, so also on one that holds the whole glyph. -/
theorem HlPrintText_clips (b : Board) (Size X Y Character Color : Nat) (s : State) :
    HlPrintText b Size X Y Character Color s ≠ .error .OutOfBounds ∧
    (b.Fits →
      ∃ s1, HlPrintText b Size X Y Character Color s = .ok s1 ∧
        (∀ r c, ¬ (r < b.MATRIX_HEIGHT ∧ c < b.MATRIX_WIDTH) →
          s1.HlTextColor r c = s.HlTextColor r c) ∧
        (∀ r c, X ≤ c → c < X + boxWidth Size → c < b.MATRIX_WIDTH →
          Y ≤ r → r < Y + boxHeight Size → r < b.MATRIX_HEIGHT →
          s1.HlTextColor r c =
            if glyphLit b Size Character (c - X) (r - Y) then Color else 0) ∧
        (∀ H W : Nat, H ≤ 255 → W ≤ 255 → ∀ s' : State, ∃ s2,
          HlPrintText { b with MATRIX_HEIGHT := H, MATRIX_WIDTH := W }
            Size X Y Character Color s' = .ok s2 ∧
          ∀ r c, X ≤ c → c < X + boxWidth Size → Y ≤ r → r < Y + boxHeight Size →
            r < b.MATRIX_HEIGHT → c < b.MATRIX_WIDTH → r < H → c < W →
            s1.HlTextColor r c = s2.HlTextColor r c)) := by
  refine ⟨HlPrintText_ne_outOfBounds b Size X Y Character Color s, fun hfit => ?_⟩
  refine ⟨_, HlPrintText_eq b hfit Size X Y Character Color s, ?_, ?_, ?_⟩
  · intro r c hout
    exact printedText_outside b Size X Y Character Color _ r c
      (fun h => hout ⟨h.2.2.2.2.2, h.2.2.1⟩)
  · intro r c h1 h2 h3 h4 h5 h6
    exact printedText_inside b Size X Y Character Color _ r c ⟨h1, h2, h3, h4, h5, h6⟩
  · intro H W hH hW s'
    refine ⟨_, HlPrintText_eq { b with MATRIX_HEIGHT := H, MATRIX_WIDTH := W } ⟨hH, hW⟩
      Size X Y Character Color s', ?_⟩
    intro r c h1 h2 h3 h4 h5 h6 h7 h8
    show printedText b Size X Y Character Color s.HlTextColor r c =
      printedText { b with MATRIX_HEIGHT := H, MATRIX_WIDTH := W } Size X Y Character Color
        s'.HlTextColor r c
    rw [printedText_inside b Size X Y Character Color _ r c ⟨h1, h2, h6, h3, h4, h5⟩,
      printedText_inside { b with MATRIX_HEIGHT := H, MATRIX_WIDTH := W } Size X Y Character
        Color _ r c ⟨h1, h2, h8, h3, h4, h7⟩]
    rfl

theorem HlPrintText_clips_witness :
    HlPrintText board8 1 6 5 65 7 overlayState ≠ .error .OutOfBounds ∧
    ∃ s1, HlPrintText board8 1 6 5 65 7 overlayState = .ok s1 ∧
      (∀ r c, ¬ (r < board8.MATRIX_HEIGHT ∧ c < board8.MATRIX_WIDTH) →
        s1.HlTextColor r c = overlayState.HlTextColor r c) ∧
      (∀ r c, 6 ≤ c → c < 6 + boxWidth 1 → c < board8.MATRIX_WIDTH →
        5 ≤ r → r < 5 + boxHeight 1 → r < board8.MATRIX_HEIGHT →
        s1.HlTextColor r c = if glyphLit board8 1 65 (c - 6) (r - 5) then 7 else 0) ∧
      (∀ H W : Nat, H ≤ 255 → W ≤ 255 → ∀ s' : State, ∃ s2,
        HlPrintText { board8 with MATRIX_HEIGHT := H, MATRIX_WIDTH := W }
          1 6 5 65 7 s' = .ok s2 ∧
        ∀ r c, 6 ≤ c → c < 6 + boxWidth 1 → 5 ≤ r → r < 5 + boxHeight 1 →
          r < board8.MATRIX_HEIGHT → c < board8.MATRIX_WIDTH → r < H → c < W →
          s1.HlTextColor r c = s2.HlTextColor r c) :=
  ⟨(HlPrintText_clips board8 1 6 5 65 7 overlayState).1,
    (HlPrintText_clips board8 1 6 5 65 7 overlayState).2 (by decide)⟩

end Mainboard

/-! ## Printing and repainting -/

namespace Mainboard

/-- C6, as stated, fails: in `staleState` the hardware pixels were changed to 5
before the print and not repainted.  Printing the letter A in colour 7 at
(0, 0) lights the cell in row 0, column 1; the hardware pixel there is still 5
at the repaint, yet the repaint draws the cell with the pen of the hardware
pixel 5, not of the glyph colour 7. -/
theorem overlay_priority_counterexample :
    glyphLit board8 0 65 1 0 = true ∧
    (HlPrintText board8 0 0 0 65 7 staleState).map
      (fun s1 => (s1.HlTextColor 0 1, s1.KeMatrix 0 1,
        dotAt (HlpRedrawMatrix board8 everyPen s1 blankDc).2 0 1)) =
      .ok (7, 5, some (Pen.Colored MATRIX_PIXEL_WIDTH 5)) := by
  refine ⟨by decide, ?_⟩
  rw [HlPrintText_eq board8 (by decide)]
  simp only [Except.map, Except.ok.injEq, Prod.mk.injEq]
  refine ⟨by decide, by decide, ?_⟩
  rw [(HlpRedrawMatrix_repainted board8 everyPen _ blankDc rfl).dot (fun _ => rfl) 0 1
    (by decide) (by decide)]
  decide

/-- C6, amended: when the shadow `HlMatrix` equals `KeMatrix` at an in-matrix
cell before the print, `HlPrintText` lights the cell in a non-zero colour, and
the hardware pixel at the cell is the same at the next repaint, then that
repaint (given its pens) draws the cell with the pen of the glyph colour and
keeps the overlay there. -/
theorem HlPrintText_then_repaint_shows_glyph (b : Board) (hfit : b.Fits)
    (ok : Nat → Bool) (hok : ∀ n, ok n = true)
    (Size X Y Character Color : Nat) (s : State) (y x : Nat)
    (hColor : Color ≠ 0) (hy : y < b.MATRIX_HEIGHT) (hx : x < b.MATRIX_WIDTH)
    (hx1 : X ≤ x) (hx2 : x < X + boxWidth Size) (hy1 : Y ≤ y) (hy2 : y < Y + boxHeight Size)
    (hlit : glyphLit b Size Character (x - X) (y - Y) = true)
    (hlevel : s.KeMatrix y x = s.HlMatrix y x) :
    ∃ s1, HlPrintText b Size X Y Character Color s = .ok s1 ∧
      s1.HlTextColor y x = Color ∧
      ∀ s2 : State, s2.HlTextColor y x = s1.HlTextColor y x →
        s2.HlMatrix y x = s1.HlMatrix y x → s2.KeMatrix y x = s.KeMatrix y x →
        ∀ dc : HDC,
          dotAt (HlpRedrawMatrix b ok s2 dc).2 y x =
            some (Pen.Colored MATRIX_PIXEL_WIDTH Color) ∧
          (HlpRedrawMatrix b ok s2 dc).1.HlTextColor y x = Color := by
  have ht : printedText b Size X Y Character Color s.HlTextColor y x = Color := by
    rw [printedText_inside b Size X Y Character Color _ y x ⟨hx1, hx2, hx, hy1, hy2, hy⟩,
      if_pos hlit]
  refine ⟨_, HlPrintText_eq b hfit Size X Y Character Color s, ht, ?_⟩
  intro s2 h2t h2h h2k dc
  have h2t' : s2.HlTextColor y x = Color := h2t.trans ht
  have h2h' : s2.HlMatrix y x = s.HlMatrix y x := h2h
  have hr := HlpRedrawMatrix_repainted b ok s2 dc (hok 0)
  have hsame : s2.KeMatrix y x = s2.HlMatrix y x := by rw [h2k, h2h', hlevel]
  have hne : s2.HlTextColor y x ≠ 0 := by rw [h2t']; exact hColor
  constructor
  · rw [hr.dot hok y x hy hx, resolveCell_fst, if_pos ⟨hne, hsame⟩, pixelPen, if_pos hne, h2t']
  · rw [hr.text_in y x hy hx, resolveCell_text, if_neg (fun h => h.2 hsame), h2t']

theorem HlPrintText_then_repaint_shows_glyph_witness :
    ∃ s1, HlPrintText board8 0 0 0 65 7 zeroState = .ok s1 ∧
      s1.HlTextColor 0 1 = 7 ∧
      ∀ s2 : State, s2.HlTextColor 0 1 = s1.HlTextColor 0 1 →
        s2.HlMatrix 0 1 = s1.HlMatrix 0 1 → s2.KeMatrix 0 1 = zeroState.KeMatrix 0 1 →
        ∀ dc : HDC,
          dotAt (HlpRedrawMatrix board8 everyPen s2 dc).2 0 1 =
            some (Pen.Colored MATRIX_PIXEL_WIDTH 7) ∧
          (HlpRedrawMatrix board8 everyPen s2 dc).1.HlTextColor 0 1 = 7 :=
  HlPrintText_then_repaint_shows_glyph board8 (by decide) everyPen (fun _ => rfl)
    0 0 0 65 7 zeroState 0 1 (by decide) (by decide) (by decide) (by decide) (by decide)
    (by decide) (by decide) (by decide) rfl

/-- C7, as stated, fails: in `staleState` the hardware pixels are 5 and the
shadow still holds 0.  After printing the letter A in colour 7 at (0, 0), which
lights the cell in row 0, column 1, the hardware pixel there is changed from 5
to the different value 0; the repaint then draws the cell with the pen of the
glyph colour 7 and leaves the overlay at 7. -/
theorem overlay_invalidation_counterexample :
    glyphLit board8 0 65 1 0 = true ∧
    (HlPrintText board8 0 0 0 65 7 staleState).map
      (fun s1 => (s1.KeMatrix 0 1,
        dotAt (HlpRedrawMatrix board8 everyPen
          { s1 with KeMatrix := s1.KeMatrix.set 0 1 0 } blankDc).2 0 1,
        (HlpRedrawMatrix board8 everyPen
          { s1 with KeMatrix := s1.KeMatrix.set 0 1 0 } blankDc).1.HlTextColor 0 1)) =
      .ok (5, some (Pen.Colored MATRIX_PIXEL_WIDTH 7), 7) := by
  refine ⟨by decide, ?_⟩
  rw [HlPrintText_eq board8 (by decide)]
  simp only [Except.map, Except.ok.injEq, Prod.mk.injEq]
  refine ⟨by decide, ?_, ?_⟩
  · rw [(HlpRedrawMatrix_repainted board8 everyPen _ blankDc rfl).dot (fun _ => rfl) 0 1
      (by decide) (by decide)]
    decide
  · rw [(HlpRedrawMatrix_repainted board8 everyPen _ blankDc rfl).text_in 0 1
      (by decide) (by decide)]
    decide

/-- C7, amended: after `HlPrintText` lights an in-matrix cell, if the hardware
pixel at the cell is set to a value different from the shadow `HlMatrix` value
there (any different value, when the shadow was level with the hardware pixel
before the change), the next repaint (given its pens) draws the cell with the
pen of the new hardware pixel and leaves the overlay empty there; a further
repaint with the hardware unchanged draws the hardware pixel again and the
overlay at the cell is still empty. -/
theorem HlPrintText_change_then_repaint (b : Board) (hfit : b.Fits)
    (ok1 ok2 : Nat → Bool) (hok1 : ∀ n, ok1 n = true) (hok2 : ∀ n, ok2 n = true)
    (Size X Y Character Color : Nat) (s : State) (y x : Nat)
    (hy : y < b.MATRIX_HEIGHT) (hx : x < b.MATRIX_WIDTH)
    (hx1 : X ≤ x) (hx2 : x < X + boxWidth Size) (hy1 : Y ≤ y) (hy2 : y < Y + boxHeight Size)
    (hlit : glyphLit b Size Character (x - X) (y - Y) = true) :
    ∃ s1, HlPrintText b Size X Y Character Color s = .ok s1 ∧
      s1.HlTextColor y x = Color ∧
      ∀ s2 : State, s2.HlTextColor y x = s1.HlTextColor y x →
        s2.HlMatrix y x = s1.HlMatrix y x → s2.KeMatrix y x ≠ s.HlMatrix y x →
        ∀ dc : HDC,
          dotAt (HlpRedrawMatrix b ok1 s2 dc).2 y x = some (pixelPen (s2.KeMatrix y x)) ∧
          (HlpRedrawMatrix b ok1 s2 dc).1.HlTextColor y x = 0 ∧
          dotAt (HlpRedrawMatrix b ok2 (HlpRedrawMatrix b ok1 s2 dc).1
            (HlpRedrawMatrix b ok1 s2 dc).2).2 y x = some (pixelPen (s2.KeMatrix y x)) ∧
          (HlpRedrawMatrix b ok2 (HlpRedrawMatrix b ok1 s2 dc).1
            (HlpRedrawMatrix b ok1 s2 dc).2).1.HlTextColor y x = 0 := by
  have ht : printedText b Size X Y Character Color s.HlTextColor y x = Color := by
    rw [printedText_inside b Size X Y Character Color _ y x ⟨hx1, hx2, hx, hy1, hy2, hy⟩,
      if_pos hlit]
  refine ⟨_, HlPrintText_eq b hfit Size X Y Character Color s, ht, ?_⟩
  intro s2 _ h2h h2k dc
  have h2h' : s2.HlMatrix y x = s.HlMatrix y x := h2h
  have hdiff : s2.KeMatrix y x ≠ s2.HlMatrix y x := by rw [h2h']; exact h2k
  have hr := HlpRedrawMatrix_repainted b ok1 s2 dc (hok1 0)
  generalize HlpRedrawMatrix b ok1 s2 dc = r1 at hr ⊢
  have hr2 := HlpRedrawMatrix_repainted b ok2 r1.1 r1.2 (hok2 0)
  have hk1 : r1.1.KeMatrix y x = s2.KeMatrix y x := by rw [hr.frame]
  have ht1 : r1.1.HlTextColor y x = 0 := by
    rw [hr.text_in y x hy hx, resolveCell_text, if_pos ⟨⟨rfl, rfl⟩, hdiff⟩]
  refine ⟨?_, ht1, ?_, ?_⟩
  · rw [hr.dot hok1 y x hy hx, resolveCell_fst, if_neg (fun h => hdiff h.2)]
  · rw [hr2.dot hok2 y x hy hx, resolveCell_fst, if_neg (fun h => h.1 ht1), hk1]
  · rw [hr2.text_in y x hy hx, resolveCell_text]
    by_cases hk : r1.1.KeMatrix y x = r1.1.HlMatrix y x
    · rw [if_neg (fun h => h.2 hk), ht1]
    · rw [if_pos ⟨⟨rfl, rfl⟩, hk⟩]

theorem HlPrintText_change_then_repaint_witness :
    ∃ s1, HlPrintText board8 0 0 0 65 7 staleState = .ok s1 ∧
      s1.HlTextColor 0 1 = 7 ∧
      ∀ s2 : State, s2.HlTextColor 0 1 = s1.HlTextColor 0 1 →
        s2.HlMatrix 0 1 = s1.HlMatrix 0 1 → s2.KeMatrix 0 1 ≠ staleState.HlMatrix 0 1 →
        ∀ dc : HDC,
          dotAt (HlpRedrawMatrix board8 everyPen s2 dc).2 0 1 =
            some (pixelPen (s2.KeMatrix 0 1)) ∧
          (HlpRedrawMatrix board8 everyPen s2 dc).1.HlTextColor 0 1 = 0 ∧
          dotAt (HlpRedrawMatrix board8 everyPen (HlpRedrawMatrix board8 everyPen s2 dc).1
            (HlpRedrawMatrix board8 everyPen s2 dc).2).2 0 1 =
              some (pixelPen (s2.KeMatrix 0 1)) ∧
          (HlpRedrawMatrix board8 everyPen (HlpRedrawMatrix board8 everyPen s2 dc).1
            (HlpRedrawMatrix board8 everyPen s2 dc).2).1.HlTextColor 0 1 = 0 :=
  HlPrintText_change_then_repaint board8 (by decide) everyPen everyPen (fun _ => rfl)
    (fun _ => rfl) 0 0 0 65 7 staleState 0 1 (by decide) (by decide) (by decide) (by decide)
    (by decide) (by decide) (by decide)

end Mainboard

/-! ## Character mapping, text flag and clear screen -/

namespace Mainboard

theorem mapCharacter3x5_space (b : Board) (c : Nat) (h : ¬ printable3x5 c) :
    mapCharacter3x5 b c = b.FONT_3X5_SPACE_OFFSET % 256 := by
  unfold printable3x5 at h
  simp only [not_or] at h
  obtain ⟨h1, h2, h3, h4, h5⟩ := h
  unfold mapCharacter3x5
  rw [if_neg h1, if_neg h2, if_neg h3, if_neg h4, if_neg h5]

theorem HlPrintText_size0 (b : Board) (X Y c Color : Nat) (s : State) :
    HlPrintText b 0 X Y c Color s =
      (columns3x5 b X Y (mapCharacter3x5 b c) Color s).map
        (fun s' => { s' with HlNewTextPrinted := true }) := by
  unfold HlPrintText
  simp only [if_true]
  cases columns3x5 b X Y (mapCharacter3x5 b c) Color s <;> rfl

theorem HlPrintText_flag (b : Board) (Size X Y Character Color : Nat) (s s1 : State)
    (h : HlPrintText b Size X Y Character Color s = .ok s1) : s1.HlNewTextPrinted = true := by
  unfold HlPrintText at h
  dsimp only at h
  generalize (if Size = 0 then columns3x5 b X Y (mapCharacter3x5 b Character) Color s
    else columns5x7 b X Y Character Color s) = r at h
  cases r with
  | error e => exact Except.noConfusion h
  | ok s' =>
    simp only [Except.ok.injEq] at h
    rw [← h]

theorem clearCell_step (old : Grid) (y n : Nat) :
    (fillBox old 0 n y (y + 1) (fun _ _ => 0)).set y n 0 =
      fillBox old 0 (n + 1) y (y + 1) (fun _ _ => 0) := by
  funext r c
  unfold fillBox Grid.set
  beta_reduce
  by_cases h1 : r = y ∧ c = n
  · have h2 : 0 ≤ c ∧ c < n + 1 ∧ y ≤ r ∧ r < y + 1 := by omega
    rw [if_pos h1, if_pos h2]
  · by_cases h2 : 0 ≤ c ∧ c < n ∧ y ≤ r ∧ r < y + 1
    · have h3 : 0 ≤ c ∧ c < n + 1 ∧ y ≤ r ∧ r < y + 1 := by omega
      rw [if_neg h1, if_pos h2, if_pos h3]
    · have h3 : ¬ (0 ≤ c ∧ c < n + 1 ∧ y ≤ r ∧ r < y + 1) := by omega
      rw [if_neg h1, if_neg h2, if_neg h3]

theorem clearRow_step (old : Grid) (W m : Nat) :
    fillBox (fillBox old 0 W 0 m (fun _ _ => 0)) 0 W m (m + 1) (fun _ _ => 0) =
      fillBox old 0 W 0 (m + 1) (fun _ _ => 0) := by
  funext r c
  unfold fillBox
  by_cases h1 : 0 ≤ c ∧ c < W ∧ m ≤ r ∧ r < m + 1
  · have h2 : 0 ≤ c ∧ c < W ∧ 0 ≤ r ∧ r < m + 1 := by omega
    rw [if_pos h1, if_pos h2]
  · by_cases h2 : 0 ≤ c ∧ c < W ∧ 0 ≤ r ∧ r < m
    · have h3 : 0 ≤ c ∧ c < W ∧ 0 ≤ r ∧ r < m + 1 := by omega
      rw [if_neg h1, if_pos h2, if_pos h3]
    · have h3 : ¬ (0 ≤ c ∧ c < W ∧ 0 ≤ r ∧ r < m + 1) := by omega
      rw [if_neg h1, if_neg h2, if_neg h3]

theorem clearRow_eq (s : State) (y n : Nat) :
    (List.range n).foldl
        (fun s XPixel => { s with HlTextColor := s.HlTextColor.set y XPixel 0 }) s =
      { s with HlTextColor := fillBox s.HlTextColor 0 n y (y + 1) (fun _ _ => 0) } := by
  induction n with
  | zero => simp [fillBox_empty]
  | succ n ih =>
    rw [List.range_succ, List.foldl_append, List.foldl_cons, List.foldl_nil, ih]
    simp only [clearCell_step]

theorem clearRows_eq (s : State) (W m : Nat) :
    (List.range m).foldl
        (fun s YPixel => (List.range W).foldl
          (fun s XPixel => { s with HlTextColor := s.HlTextColor.set YPixel XPixel 0 }) s) s =
      { s with HlTextColor := fillBox s.HlTextColor 0 W 0 m (fun _ _ => 0) } := by
  induction m with
  | zero =>
    have h : fillBox s.HlTextColor 0 W 0 0 (fun _ _ => 0) = s.HlTextColor := by
      funext r c
      unfold fillBox
      rw [if_neg (by omega)]
    simp [h]
  | succ m ih =>
    rw [List.range_succ, List.foldl_append, List.foldl_cons, List.foldl_nil, ih, clearRow_eq]
    simp only [clearRow_step]

/-- The routine `HlClearScreen` leaves the state with the overlay cleared inside
the matrix and the text flag set. -/
theorem HlClearScreen_eq (b : Board) (s : State) :
    HlClearScreen b s = { s with
      HlTextColor := fillBox s.HlTextColor 0 b.MATRIX_WIDTH 0 b.MATRIX_HEIGHT (fun _ _ => 0)
      HlNewTextPrinted := true } := by
  unfold HlClearScreen
  simp only [clearRows_eq]

end Mainboard

/-! ## Character mapping, text flag and clear screen: the claims -/

namespace Mainboard

/-- C11: for size 0, when the font offsets are glyph indices that fit a byte,
the glyph index `HlPrintText` uses is the numeric offset plus `c - '0'` for a
digit, the colon and equals offsets for `':'` and `'='`, the alphabet offset
plus the position of the letter for a lower-case and for an upper-case letter,
and the space offset for every other byte; printing a character without a
glyph gives the result of printing a space, and the routine returns. -/
theorem HlPrintText_glyph_index (b : Board)
    (hnum : b.FONT_3X5_NUMERIC_OFFSET + 9 ≤ 255) (hcolon : b.FONT_3X5_COLON_OFFSET ≤ 255)
    (hequals : b.FONT_3X5_EQUALS_OFFSET ≤ 255) (halpha : b.FONT_3X5_ALPHA_OFFSET + 25 ≤ 255)
    (hspace : b.FONT_3X5_SPACE_OFFSET ≤ 255) :
    (∀ X Y c Color s, HlPrintText b 0 X Y c Color s =
      (columns3x5 b X Y (mapCharacter3x5 b c) Color s).map
        (fun s' => { s' with HlNewTextPrinted := true })) ∧
    (∀ c, 48 ≤ c → c ≤ 57 → mapCharacter3x5 b c = b.FONT_3X5_NUMERIC_OFFSET + (c - 48)) ∧
    mapCharacter3x5 b 58 = b.FONT_3X5_COLON_OFFSET ∧
    mapCharacter3x5 b 61 = b.FONT_3X5_EQUALS_OFFSET ∧
    (∀ c, 97 ≤ c → c ≤ 122 → mapCharacter3x5 b c = b.FONT_3X5_ALPHA_OFFSET + (c - 97)) ∧
    (∀ c, 65 ≤ c → c ≤ 90 → mapCharacter3x5 b c = b.FONT_3X5_ALPHA_OFFSET + (c - 65)) ∧
    (∀ c, c ≤ 255 → ¬ printable3x5 c → mapCharacter3x5 b c = b.FONT_3X5_SPACE_OFFSET) ∧
    (∀ X Y c Color s, c ≤ 255 → ¬ printable3x5 c →
      HlPrintText b 0 X Y c Color s = HlPrintText b 0 X Y 32 Color s) ∧
    (b.Fits → ∀ X Y c Color s, ∃ s1, HlPrintText b 0 X Y c Color s = .ok s1) := by
  refine ⟨fun X Y c Color s => HlPrintText_size0 b X Y c Color s, ?_, ?_, ?_, ?_, ?_, ?_, ?_, ?_⟩
  · intro c h1 h2
    unfold mapCharacter3x5
    rw [if_pos ⟨h1, h2⟩]
    omega
  · unfold mapCharacter3x5
    simp only [show ¬ (48 ≤ 58 ∧ 58 ≤ 57) by omega, if_false, if_true]
    omega
  · unfold mapCharacter3x5
    simp only [show ¬ (48 ≤ 61 ∧ 61 ≤ 57) by omega, show ¬ (61 = 58) by omega, if_false, if_true]
    omega
  · intro c h1 h2
    unfold mapCharacter3x5
    rw [if_neg (by omega), if_neg (by omega), if_neg (by omega), if_pos ⟨h1, h2⟩]
    omega
  · intro c h1 h2
    unfold mapCharacter3x5
    rw [if_neg (by omega), if_neg (by omega), if_neg (by omega), if_neg (by omega),
      if_pos ⟨h1, h2⟩]
    omega
  · intro c _ hc
    rw [mapCharacter3x5_space b c hc]
    omega
  · intro X Y c Color s _ hc
    have h32 : ¬ printable3x5 32 := by
      unfold printable3x5
      omega
    rw [HlPrintText_size0, HlPrintText_size0, mapCharacter3x5_space b c hc,
      mapCharacter3x5_space b 32 h32]
  · intro hfit X Y c Color s
    exact ⟨_, HlPrintText_eq b hfit 0 X Y c Color s⟩

theorem HlPrintText_glyph_index_witness :
    mapCharacter3x5 board8 55 = 7 ∧ mapCharacter3x5 board8 58 = 36 ∧
    mapCharacter3x5 board8 61 = 37 ∧ mapCharacter3x5 board8 122 = 35 ∧
    mapCharacter3x5 board8 65 = 10 ∧ mapCharacter3x5 board8 33 = 38 ∧
    HlPrintText board8 0 1 2 33 7 overlayState = HlPrintText board8 0 1 2 32 7 overlayState ∧
    ∃ s1, HlPrintText board8 0 1 2 33 7 overlayState = .ok s1 :=
  have h := HlPrintText_glyph_index board8 (by decide) (by decide) (by decide) (by decide)
    (by decide)
  ⟨h.2.1 55 (by decide) (by decide), h.2.2.1, h.2.2.2.1,
    h.2.2.2.2.1 122 (by decide) (by decide), h.2.2.2.2.2.1 65 (by decide) (by decide),
    h.2.2.2.2.2.2.1 33 (by decide) (by decide),
    h.2.2.2.2.2.2.2.1 1 2 33 7 overlayState (by decide) (by decide),
    h.2.2.2.2.2.2.2.2 (by decide) 1 2 33 7 overlayState⟩

/-- C12: for every starting state, position and colour, `HlPrintText` with
size 0 gives for a lower-case letter the very result it gives for the
corresponding upper-case letter, and on a matrix of at most 255 rows and
columns that result is a state. -/
theorem HlPrintText_case_insensitive (b : Board) (X Y c Color : Nat) (s : State)
    (h1 : 97 ≤ c) (h2 : c ≤ 122) :
    HlPrintText b 0 X Y c Color s = HlPrintText b 0 X Y (c - 32) Color s ∧
    (b.Fits → ∃ s1, HlPrintText b 0 X Y c Color s = .ok s1 ∧
      HlPrintText b 0 X Y (c - 32) Color s = .ok s1) := by
  have hm : mapCharacter3x5 b c = mapCharacter3x5 b (c - 32) := by
    unfold mapCharacter3x5
    rw [if_neg (by omega), if_neg (by omega), if_neg (by omega), if_pos ⟨h1, h2⟩,
      if_neg (by omega), if_neg (by omega), if_neg (by omega), if_neg (by omega),
      if_pos (by omega)]
    congr 1
    omega
  have he : HlPrintText b 0 X Y c Color s = HlPrintText b 0 X Y (c - 32) Color s := by
    rw [HlPrintText_size0, HlPrintText_size0, hm]
  refine ⟨he, fun hfit => ⟨_, HlPrintText_eq b hfit 0 X Y c Color s, ?_⟩⟩
  rw [← he]
  exact HlPrintText_eq b hfit 0 X Y c Color s

theorem HlPrintText_case_insensitive_witness :
    ∃ s1, HlPrintText board8 0 1 2 97 7 overlayState = .ok s1 ∧
      HlPrintText board8 0 1 2 (97 - 32) 7 overlayState = .ok s1 :=
  (HlPrintText_case_insensitive board8 1 2 97 7 overlayState (by decide) (by decide)).2
    (by decide)

/-- C13: every call of `HlPrintText` that returns, and every call of
`HlClearScreen`, leaves the new-text flag set; `HlPrintText` returns on every
matrix of at most 255 rows and columns, also when the glyph is clipped away;
and with the flag set `HlpIsMatrixStale` returns TRUE. -/
theorem text_flag_set (b : Board) (Size X Y Character Color : Nat) (s : State) :
    (∀ s1, HlPrintText b Size X Y Character Color s = .ok s1 →
      s1.HlNewTextPrinted = true ∧ (HlpIsMatrixStale b s1).1 = true) ∧
    (b.Fits → ∃ s1, HlPrintText b Size X Y Character Color s = .ok s1) ∧
    (HlClearScreen b s).HlNewTextPrinted = true ∧
    (HlpIsMatrixStale b (HlClearScreen b s)).1 = true ∧
    (∀ s2 : State, s2.HlNewTextPrinted = true → (HlpIsMatrixStale b s2).1 = true) := by
  have hstale : ∀ s2 : State, s2.HlNewTextPrinted = true → (HlpIsMatrixStale b s2).1 = true := by
    intro s2 h2
    rw [stale_of_set_flag b s2 h2]
  have hclear : (HlClearScreen b s).HlNewTextPrinted = true := by rw [HlClearScreen_eq]
  refine ⟨?_, ?_, hclear, hstale _ hclear, hstale⟩
  · intro s1 h1
    have hf := HlPrintText_flag b Size X Y Character Color s s1 h1
    exact ⟨hf, hstale s1 hf⟩
  · intro hfit
    exact ⟨_, HlPrintText_eq b hfit Size X Y Character Color s⟩

theorem text_flag_set_witness :
    (∃ s1, HlPrintText board8 1 200 200 65 7 zeroState = .ok s1 ∧
      s1.HlNewTextPrinted = true ∧ (HlpIsMatrixStale board8 s1).1 = true) ∧
    (HlClearScreen board8 zeroState).HlNewTextPrinted = true ∧
    (HlpIsMatrixStale board8 (HlClearScreen board8 zeroState)).1 = true :=
  have h := text_flag_set board8 1 200 200 65 7 zeroState
  ⟨(h.2.1 (by decide)).elim (fun s1 h1 => ⟨s1, h1, h.1 s1 h1⟩), h.2.2.1, h.2.2.2.1⟩

/-- C14: after `HlClearScreen` every cell of the overlay inside the matrix is
0, while the hardware matrix, the shadow matrix, the shadow indicators and the
LCD lines and address are as before; a following `HlpRedrawMatrix` (given its
pens) draws every cell with the pen of its hardware pixel. -/
theorem HlClearScreen_clears_overlay (b : Board) (s : State) :
    (∀ y x, y < b.MATRIX_HEIGHT → x < b.MATRIX_WIDTH → (HlClearScreen b s).HlTextColor y x = 0) ∧
    (HlClearScreen b s).KeMatrix = s.KeMatrix ∧
    (HlClearScreen b s).HlMatrix = s.HlMatrix ∧
    (HlClearScreen b s).HlTrackball1 = s.HlTrackball1 ∧
    (HlClearScreen b s).HlTrackball2 = s.HlTrackball2 ∧
    (HlClearScreen b s).HlWhiteLeds = s.HlWhiteLeds ∧
    (HlClearScreen b s).HlLcdLine1 = s.HlLcdLine1 ∧
    (HlClearScreen b s).HlLcdLine2 = s.HlLcdLine2 ∧
    (HlClearScreen b s).HlLcdCurrentAddress = s.HlLcdCurrentAddress ∧
    (∀ (ok : Nat → Bool) (dc : HDC), (∀ n, ok n = true) →
      ∀ y x, y < b.MATRIX_HEIGHT → x < b.MATRIX_WIDTH →
        dotAt (HlpRedrawMatrix b ok (HlClearScreen b s) dc).2 y x =
          some (pixelPen (s.KeMatrix y x))) := by
  have htext : ∀ y x, y < b.MATRIX_HEIGHT → x < b.MATRIX_WIDTH →
      (HlClearScreen b s).HlTextColor y x = 0 := by
    intro y x hy hx
    rw [HlClearScreen_eq]
    show fillBox s.HlTextColor 0 b.MATRIX_WIDTH 0 b.MATRIX_HEIGHT (fun _ _ => 0) y x = 0
    unfold fillBox
    rw [if_pos ⟨Nat.zero_le x, hx, Nat.zero_le y, hy⟩]
  have hke : (HlClearScreen b s).KeMatrix = s.KeMatrix := by rw [HlClearScreen_eq]
  refine ⟨htext, hke, ?_, ?_, ?_, ?_, ?_, ?_, ?_, ?_⟩
  · rw [HlClearScreen_eq]
  · rw [HlClearScreen_eq]
  · rw [HlClearScreen_eq]
  · rw [HlClearScreen_eq]
  · rw [HlClearScreen_eq]
  · rw [HlClearScreen_eq]
  · rw [HlClearScreen_eq]
  · intro ok dc hok y x hy hx
    have hr := HlpRedrawMatrix_repainted b ok (HlClearScreen b s) dc (hok 0)
    rw [hr.dot hok y x hy hx, resolveCell_fst, if_neg (fun h => h.1 (htext y x hy hx)), hke]

theorem HlClearScreen_clears_overlay_witness :
    (HlClearScreen board8 overlayState).HlTextColor 2 3 = 0 ∧
    dotAt (HlpRedrawMatrix board8 everyPen (HlClearScreen board8 overlayState) blankDc).2 2 3 =
      some (pixelPen (overlayState.KeMatrix 2 3)) :=
  have h := HlClearScreen_clears_overlay board8 overlayState
  ⟨h.1 2 3 (by decide) (by decide),
    h.2.2.2.2.2.2.2.2.2 everyPen blankDc (fun _ => rfl) 2 3 (by decide) (by decide)⟩

end Mainboard

/-! ## Colours -/

namespace Mainboard

theorem RGB_eq_add (r g b : Nat) (hr : r < 256) (hg : g < 256) (hb : b < 256) :
    RGB r g b = r + g * 256 + b * 65536 := by
  unfold RGB
  rw [Nat.mod_eq_of_lt hr, Nat.mod_eq_of_lt hg, Nat.mod_eq_of_lt hb, Nat.shiftLeft_eq,
    Nat.shiftLeft_eq]
  have h1 : r ||| g * 2 ^ 8 = 2 ^ 8 * g + r := by
    rw [Nat.or_comm, Nat.mul_comm g, ← Nat.mul_add_lt_is_or (by norm_num; exact hr) g]
  have h2 : 2 ^ 8 * g + r < 2 ^ 16 := by
    norm_num
    omega
  rw [h1, Nat.or_comm, Nat.mul_comm b, ← Nat.mul_add_lt_is_or h2 b]
  norm_num
  omega

theorem RGB_bytes (r g b : Nat) (hr : r < 256) (hg : g < 256) (hb : b < 256) :
    GetRValue (RGB r g b) = r ∧ GetGValue (RGB r g b) = g ∧ GetBValue (RGB r g b) = b := by
  rw [RGB_eq_add r g b hr hg hb]
  unfold GetRValue GetGValue GetBValue
  rw [Nat.shiftRight_eq_div_pow, Nat.shiftRight_eq_div_pow]
  norm_num
  omega

theorem channel_range (c : Nat) (hc : c ≤ 31) :
    (INTENSITY_OFF + (c * (0xFF - INTENSITY_OFF)) / 31) % 65536 =
      0x50 + (c * (0xFF - 0x50)) / 31 ∧
    0x50 ≤ 0x50 + (c * (0xFF - 0x50)) / 31 ∧ 0x50 + (c * (0xFF - 0x50)) / 31 ≤ 0xFF := by
  unfold INTENSITY_OFF
  omega

/-- C15: for a pixel whose three channels are in 0 to 31, each byte of the
colour that `HlpPixelToColorRef` returns is `0x50 + (channel * (0xFF - 0x50)) / 31`
of its channel, with truncating division; so channel 0 gives `0x50`, channel 31
gives `0xFF`, and every byte lies between `0x50` and `0xFF`. -/
theorem HlpPixelToColorRef_channels (b : Board) (Pixel : Nat)
    (hr : b.PIXEL_RED Pixel ≤ 31) (hg : b.PIXEL_GREEN Pixel ≤ 31) (hb : b.PIXEL_BLUE Pixel ≤ 31) :
    GetRValue (HlpPixelToColorRef b Pixel) = 0x50 + (b.PIXEL_RED Pixel * (0xFF - 0x50)) / 31 ∧
    GetGValue (HlpPixelToColorRef b Pixel) = 0x50 + (b.PIXEL_GREEN Pixel * (0xFF - 0x50)) / 31 ∧
    GetBValue (HlpPixelToColorRef b Pixel) = 0x50 + (b.PIXEL_BLUE Pixel * (0xFF - 0x50)) / 31 ∧
    (0x50 ≤ GetRValue (HlpPixelToColorRef b Pixel) ∧
      GetRValue (HlpPixelToColorRef b Pixel) ≤ 0xFF) ∧
    (0x50 ≤ GetGValue (HlpPixelToColorRef b Pixel) ∧
      GetGValue (HlpPixelToColorRef b Pixel) ≤ 0xFF) ∧
    (0x50 ≤ GetBValue (HlpPixelToColorRef b Pixel) ∧
      GetBValue (HlpPixelToColorRef b Pixel) ≤ 0xFF) ∧
    (b.PIXEL_RED Pixel = 0 → GetRValue (HlpPixelToColorRef b Pixel) = 0x50) ∧
    (b.PIXEL_RED Pixel = 31 → GetRValue (HlpPixelToColorRef b Pixel) = 0xFF) ∧
    (b.PIXEL_GREEN Pixel = 0 → GetGValue (HlpPixelToColorRef b Pixel) = 0x50) ∧
    (b.PIXEL_GREEN Pixel = 31 → GetGValue (HlpPixelToColorRef b Pixel) = 0xFF) ∧
    (b.PIXEL_BLUE Pixel = 0 → GetBValue (HlpPixelToColorRef b Pixel) = 0x50) ∧
    (b.PIXEL_BLUE Pixel = 31 → GetBValue (HlpPixelToColorRef b Pixel) = 0xFF) := by
  obtain ⟨r1, r2, r3⟩ := channel_range _ hr
  obtain ⟨g1, g2, g3⟩ := channel_range _ hg
  obtain ⟨b1, b2, b3⟩ := channel_range _ hb
  have hbytes := RGB_bytes
    ((INTENSITY_OFF + (b.PIXEL_RED Pixel * (0xFF - INTENSITY_OFF)) / 31) % 65536)
    ((INTENSITY_OFF + (b.PIXEL_GREEN Pixel * (0xFF - INTENSITY_OFF)) / 31) % 65536)
    ((INTENSITY_OFF + (b.PIXEL_BLUE Pixel * (0xFF - INTENSITY_OFF)) / 31) % 65536)
    (by rw [r1]; omega) (by rw [g1]; omega) (by rw [b1]; omega)
  rw [r1, g1, b1] at hbytes
  have hR : GetRValue (HlpPixelToColorRef b Pixel) =
      0x50 + (b.PIXEL_RED Pixel * (0xFF - 0x50)) / 31 := by
    unfold HlpPixelToColorRef
    simp only [r1, g1, b1]
    exact hbytes.1
  have hG : GetGValue (HlpPixelToColorRef b Pixel) =
      0x50 + (b.PIXEL_GREEN Pixel * (0xFF - 0x50)) / 31 := by
    unfold HlpPixelToColorRef
    simp only [r1, g1, b1]
    exact hbytes.2.1
  have hB : GetBValue (HlpPixelToColorRef b Pixel) =
      0x50 + (b.PIXEL_BLUE Pixel * (0xFF - 0x50)) / 31 := by
    unfold HlpPixelToColorRef
    simp only [r1, g1, b1]
    exact hbytes.2.2
  refine ⟨hR, hG, hB, ?_, ?_, ?_, ?_, ?_, ?_, ?_, ?_, ?_⟩
  · rw [hR]; exact ⟨r2, r3⟩
  · rw [hG]; exact ⟨g2, g3⟩
  · rw [hB]; exact ⟨b2, b3⟩
  · intro h; rw [hR, h]
  · intro h; rw [hR, h]
  · intro h; rw [hG, h]
  · intro h; rw [hG, h]
  · intro h; rw [hB, h]
  · intro h; rw [hB, h]

theorem HlpPixelToColorRef_channels_witness :
    GetRValue (HlpPixelToColorRef board8 0x7C0A) = 0xFF ∧
    GetGValue (HlpPixelToColorRef board8 0x7C0A) = 0x50 ∧
    GetBValue (HlpPixelToColorRef board8 0x7C0A) =
      0x50 + (board8.PIXEL_BLUE 0x7C0A * (0xFF - 0x50)) / 31 :=
  have h := HlpPixelToColorRef_channels board8 0x7C0A (by decide) (by decide) (by decide)
  ⟨h.2.2.2.2.2.2.2.1 (by decide), h.2.2.2.2.2.2.2.2.1 (by decide), h.2.2.1⟩

theorem trackballChannels_eq_max (b : Board) (s : State)
    (hr1 : b.PIXEL_RED s.KeTrackball1 ≤ 255) (hg1 : b.PIXEL_GREEN s.KeTrackball1 ≤ 255)
    (hb1 : b.PIXEL_BLUE s.KeTrackball1 ≤ 255)
    (hw1 : 2 * b.WHITEPIXEL_TRACKBALL1 s.KeWhiteLeds ≤ 255)
    (hr2 : b.PIXEL_RED s.KeTrackball2 ≤ 255) (hg2 : b.PIXEL_GREEN s.KeTrackball2 ≤ 255)
    (hb2 : b.PIXEL_BLUE s.KeTrackball2 ≤ 255)
    (hw2 : b.WHITEPIXEL_TRACKBALL2 s.KeWhiteLeds ≤ 255) :
    trackball1Channels b s =
      (max (b.PIXEL_RED s.KeTrackball1) (b.WHITEPIXEL_TRACKBALL1 s.KeWhiteLeds),
        max (b.PIXEL_GREEN s.KeTrackball1) (2 * b.WHITEPIXEL_TRACKBALL1 s.KeWhiteLeds),
        max (b.PIXEL_BLUE s.KeTrackball1) (b.WHITEPIXEL_TRACKBALL1 s.KeWhiteLeds)) ∧
    trackball2Channels b s =
      (max (b.PIXEL_RED s.KeTrackball2) (b.WHITEPIXEL_TRACKBALL2 s.KeWhiteLeds),
        max (b.PIXEL_GREEN s.KeTrackball2) (b.WHITEPIXEL_TRACKBALL2 s.KeWhiteLeds),
        max (b.PIXEL_BLUE s.KeTrackball2) (b.WHITEPIXEL_TRACKBALL2 s.KeWhiteLeds)) := by
  refine ⟨?_, ?_⟩
  · unfold trackball1Channels
    simp only [Nat.mod_eq_of_lt (Nat.lt_succ_of_le hr1), Nat.mod_eq_of_lt (Nat.lt_succ_of_le hg1),
      Nat.mod_eq_of_lt (Nat.lt_succ_of_le hb1),
      Nat.mod_eq_of_lt (show b.WHITEPIXEL_TRACKBALL1 s.KeWhiteLeds < 256 by omega),
      Nat.mod_eq_of_lt (show b.WHITEPIXEL_TRACKBALL1 s.KeWhiteLeds * 2 < 256 by omega)]
    refine Prod.ext ?_ (Prod.ext ?_ ?_) <;> simp only <;> split_ifs <;> omega
  · unfold trackball2Channels
    simp only [Nat.mod_eq_of_lt (Nat.lt_succ_of_le hr2), Nat.mod_eq_of_lt (Nat.lt_succ_of_le hg2),
      Nat.mod_eq_of_lt (Nat.lt_succ_of_le hb2), Nat.mod_eq_of_lt (Nat.lt_succ_of_le hw2)]
    refine Prod.ext ?_ (Prod.ext ?_ ?_) <;> simp only <;> split_ifs <;> omega

theorem trackball1Pixel_eq_channels (b : Board) (s : State) :
    trackball1Pixel b s = b.RGB_PIXEL (trackball1Channels b s).1 (trackball1Channels b s).2.1
      (trackball1Channels b s).2.2 % 65536 := rfl

theorem trackball2Pixel_eq_channels (b : Board) (s : State) :
    trackball2Pixel b s = b.RGB_PIXEL (trackball2Channels b s).1 (trackball2Channels b s).2.1
      (trackball2Channels b s).2.2 % 65536 := rfl

/-- C16: when every `ExtCreatePen` call returns a pen and the channel values and
the white value fit the `UCHAR` variables that hold them (for trackball 1 also
twice the white value), the dot `HlpRedrawMatrix` leaves at trackball 1 is drawn
with the pen made for the pre-remap pixel
`RGB_PIXEL(max r w, max g (2 * w), max b w)` and the dot at trackball 2 with the
pen made for `RGB_PIXEL(max r w, max g w, max b w)`: the colour composed is the
channel-wise maximum, and these triples are the channels the routine hands to
`RGB_PIXEL`. -/
theorem HlpRedrawMatrix_trackball_max (b : Board) (ok : Nat → Bool) (s : State) (dc : HDC)
    (hok : ∀ n, ok n = true)
    (hr1 : b.PIXEL_RED s.KeTrackball1 ≤ 255) (hg1 : b.PIXEL_GREEN s.KeTrackball1 ≤ 255)
    (hb1 : b.PIXEL_BLUE s.KeTrackball1 ≤ 255)
    (hw1 : 2 * b.WHITEPIXEL_TRACKBALL1 s.KeWhiteLeds ≤ 255)
    (hr2 : b.PIXEL_RED s.KeTrackball2 ≤ 255) (hg2 : b.PIXEL_GREEN s.KeTrackball2 ≤ 255)
    (hb2 : b.PIXEL_BLUE s.KeTrackball2 ≤ 255)
    (hw2 : b.WHITEPIXEL_TRACKBALL2 s.KeWhiteLeds ≤ 255) :
    (HlpRedrawMatrix b ok s dc).2.surface (TRACKBALL1_X b) (TRACKBALL_Y b) =
      some (Pen.Colored TRACKBALL_WIDTH (b.RGB_PIXEL
        (max (b.PIXEL_RED s.KeTrackball1) (b.WHITEPIXEL_TRACKBALL1 s.KeWhiteLeds))
        (max (b.PIXEL_GREEN s.KeTrackball1) (2 * b.WHITEPIXEL_TRACKBALL1 s.KeWhiteLeds))
        (max (b.PIXEL_BLUE s.KeTrackball1) (b.WHITEPIXEL_TRACKBALL1 s.KeWhiteLeds)) % 65536)) ∧
    (HlpRedrawMatrix b ok s dc).2.surface (TRACKBALL2_X b) (TRACKBALL_Y b) =
      some (Pen.Colored TRACKBALL_WIDTH (b.RGB_PIXEL
        (max (b.PIXEL_RED s.KeTrackball2) (b.WHITEPIXEL_TRACKBALL2 s.KeWhiteLeds))
        (max (b.PIXEL_GREEN s.KeTrackball2) (b.WHITEPIXEL_TRACKBALL2 s.KeWhiteLeds))
        (max (b.PIXEL_BLUE s.KeTrackball2) (b.WHITEPIXEL_TRACKBALL2 s.KeWhiteLeds)) % 65536)) ∧
    trackball1Channels b s =
      (max (b.PIXEL_RED s.KeTrackball1) (b.WHITEPIXEL_TRACKBALL1 s.KeWhiteLeds),
        max (b.PIXEL_GREEN s.KeTrackball1) (2 * b.WHITEPIXEL_TRACKBALL1 s.KeWhiteLeds),
        max (b.PIXEL_BLUE s.KeTrackball1) (b.WHITEPIXEL_TRACKBALL1 s.KeWhiteLeds)) ∧
    trackball2Channels b s =
      (max (b.PIXEL_RED s.KeTrackball2) (b.WHITEPIXEL_TRACKBALL2 s.KeWhiteLeds),
        max (b.PIXEL_GREEN s.KeTrackball2) (b.WHITEPIXEL_TRACKBALL2 s.KeWhiteLeds),
        max (b.PIXEL_BLUE s.KeTrackball2) (b.WHITEPIXEL_TRACKBALL2 s.KeWhiteLeds)) ∧
    trackball1Pixel b s = b.RGB_PIXEL (trackball1Channels b s).1 (trackball1Channels b s).2.1
      (trackball1Channels b s).2.2 % 65536 ∧
    trackball2Pixel b s = b.RGB_PIXEL (trackball2Channels b s).1 (trackball2Channels b s).2.1
      (trackball2Channels b s).2.2 % 65536 := by
  obtain ⟨m1, m2⟩ := trackballChannels_eq_max b s hr1 hg1 hb1 hw1 hr2 hg2 hb2 hw2
  obtain ⟨d1, d2⟩ := HlpRedrawMatrix_trackball_dots b ok s dc hok
  refine ⟨?_, ?_, m1, m2, rfl, rfl⟩
  · rw [d1, trackball1Pixel_eq_channels, m1]
  · rw [d2, trackball2Pixel_eq_channels, m2]

theorem HlpRedrawMatrix_trackball_max_witness :
    (HlpRedrawMatrix board8 everyPen blendState blankDc).2.surface
        (TRACKBALL1_X board8) (TRACKBALL_Y board8) =
      some (Pen.Colored 24 (board8.RGB_PIXEL 10 16 8)) ∧
    (HlpRedrawMatrix board8 everyPen blendState blankDc).2.surface
        (TRACKBALL2_X board8) (TRACKBALL_Y board8) =
      some (Pen.Colored 24 (board8.RGB_PIXEL 10 8 8)) ∧
    trackball1Channels board8 blendState = (10, 16, 8) ∧
    trackball2Channels board8 blendState = (10, 8, 8) ∧
    (board8.PIXEL_RED blendState.KeTrackball1, board8.PIXEL_GREEN blendState.KeTrackball1,
      board8.PIXEL_BLUE blendState.KeTrackball1,
      board8.WHITEPIXEL_TRACKBALL1 blendState.KeWhiteLeds) = (10, 5, 0, 8) :=
  have h := HlpRedrawMatrix_trackball_max board8 everyPen blendState blankDc (fun _ => rfl)
    (by decide) (by decide) (by decide) (by decide) (by decide) (by decide) (by decide)
    (by decide)
  ⟨h.1.trans (by decide), h.2.1.trans (by decide), h.2.2.1.trans (by decide),
    h.2.2.2.1.trans (by decide), by decide⟩

/-- C17: for the pixel macros as the spec describes them, every packed 15-bit
pixel is `RGB_PIXEL` of its three channels, and the channels of
`RGB_PIXEL r g b` are `r`, `g` and `b` for channels in 0 to 31. -/
theorem pixel_round_trip :
    (∀ Pixel, Pixel < 32768 →
      RGB_PIXEL (PIXEL_RED Pixel) (PIXEL_GREEN Pixel) (PIXEL_BLUE Pixel) = Pixel) ∧
    (∀ r g b, r ≤ 31 → g ≤ 31 → b ≤ 31 →
      PIXEL_RED (RGB_PIXEL r g b) = r ∧ PIXEL_GREEN (RGB_PIXEL r g b) = g ∧
      PIXEL_BLUE (RGB_PIXEL r g b) = b ∧ RGB_PIXEL r g b < 32768) := by
  constructor
  · intro Pixel h
    unfold RGB_PIXEL PIXEL_RED PIXEL_GREEN PIXEL_BLUE
    omega
  · intro r g b hr hg hb
    unfold RGB_PIXEL PIXEL_RED PIXEL_GREEN PIXEL_BLUE
    omega

theorem pixel_round_trip_witness :
    RGB_PIXEL (PIXEL_RED 10400) (PIXEL_GREEN 10400) (PIXEL_BLUE 10400) = 10400 ∧
    PIXEL_RED (RGB_PIXEL 10 5 0) = 10 ∧ PIXEL_GREEN (RGB_PIXEL 10 5 0) = 5 ∧
    PIXEL_BLUE (RGB_PIXEL 10 5 0) = 0 ∧ RGB_PIXEL 10 5 0 < 32768 :=
  ⟨pixel_round_trip.1 10400 (by decide),
    pixel_round_trip.2 10 5 0 (by decide) (by decide) (by decide)⟩

end Mainboard

/-! ## The LCD text buffer: lemmas -/

namespace Mainboard

theorem lcdOffset_le_mask (l : Lcd) (s : State) : lcdOffset l s ≤ l.LCD_LINE_OFFSET_MASK := by
  unfold lcdOffset
  exact le_trans (Nat.mod_le _ _) Nat.and_le_right

theorem lcdOffset_of_byte (l : Lcd) (s : State) (h : s.HlLcdCurrentAddress ≤ 255) :
    lcdOffset l s = s.HlLcdCurrentAddress &&& l.LCD_LINE_OFFSET_MASK := by
  unfold lcdOffset
  have h1 : s.HlLcdCurrentAddress &&& l.LCD_LINE_OFFSET_MASK ≤ s.HlLcdCurrentAddress :=
    Nat.and_le_left
  exact Nat.mod_eq_of_lt (by omega)

/-- The length that `HlLcdPrintString` copies when the column lies within the
line: the string length cut to a byte, or what is left of the line when that
is too long. -/
theorem lcdLength_eq (l : Lcd) (s : State) (String : List Nat)
    (hL : l.LCD_LINE_LENGTH ≤ 255) (hoff : lcdOffset l s ≤ l.LCD_LINE_LENGTH) :
    lcdLength l s String =
      min (String.length % 256) (l.LCD_LINE_LENGTH - lcdOffset l s) := by
  unfold lcdLength
  simp only
  split_ifs with h <;> omega

theorem copyInto_outside (Line : Nat → Nat) (Offset : Nat) (String : List Nat) (Length i : Nat)
    (h : ¬ (Offset ≤ i ∧ i < Offset + Length)) :
    copyInto Line Offset String Length i = Line i := by
  unfold copyInto
  rw [if_neg h]

theorem copyInto_inside (Line : Nat → Nat) (Offset : Nat) (String : List Nat) (Length i : Nat)
    (h : i < Length) :
    copyInto Line Offset String Length (Offset + i) = String.getD i 0 := by
  unfold copyInto
  rw [if_pos ⟨Nat.le_add_right _ _, by omega⟩, Nat.add_sub_cancel_left]

theorem copyInto_zero (Line : Nat → Nat) (Offset : Nat) (String : List Nat) :
    copyInto Line Offset String 0 = Line := by
  funext i
  exact copyInto_outside Line Offset String 0 i (by omega)

/-- The result of `HlLcdPrintString` when the column lies within the line: the
selected line gets the copy, nothing else changes. -/
theorem HlLcdPrintString_eq (l : Lcd) (s : State) (String : List Nat)
    (hL : l.LCD_LINE_LENGTH ≤ 255) (hoff : lcdOffset l s ≤ l.LCD_LINE_LENGTH) :
    HlLcdPrintString l String s = .ok
      (s.withLcdLine (secondLineSelected l s)
        (copyInto (s.lcdLine (secondLineSelected l s)) (lcdOffset l s) String
          (min (String.length % 256) (l.LCD_LINE_LENGTH - lcdOffset l s)))) := by
  have hlen := lcdLength_eq l s String hL hoff
  have hmod : String.length % 256 ≤ String.length := Nat.mod_le _ _
  have hin : lcdOffset l s + min (String.length % 256) (l.LCD_LINE_LENGTH - lcdOffset l s) ≤
      l.LCD_LINE_LENGTH + 1 ∧
      min (String.length % 256) (l.LCD_LINE_LENGTH - lcdOffset l s) ≤ String.length + 1 := by
    omega
  unfold HlLcdPrintString State.withLcdLine State.lcdLine
  simp only [hlen, memcpyLine, if_pos hin]
  split_ifs <;> rfl

theorem withLcdLine_line (s : State) (second : Bool) (Line : Nat → Nat) :
    (s.withLcdLine second Line).lcdLine second = Line := by
  cases second <;> rfl

theorem withLcdLine_other (s : State) (second : Bool) (Line : Nat → Nat) :
    (s.withLcdLine second Line).lcdLine (!second) = s.lcdLine (!second) := by
  cases second <;> rfl

theorem withLcdLine_address (s : State) (second : Bool) (Line : Nat → Nat) :
    (s.withLcdLine second Line).HlLcdCurrentAddress = s.HlLcdCurrentAddress := by
  cases second <;> rfl

theorem withLcdLine_line1 (s : State) (second : Bool) (Line : Nat → Nat) (i : Nat)
    (h : Line i = s.lcdLine second i) :
    (s.withLcdLine second Line).HlLcdLine1 i = s.HlLcdLine1 i := by
  cases second
  · exact h
  · rfl

theorem withLcdLine_line2 (s : State) (second : Bool) (Line : Nat → Nat) (i : Nat)
    (h : Line i = s.lcdLine second i) :
    (s.withLcdLine second Line).HlLcdLine2 i = s.HlLcdLine2 i := by
  cases second
  · rfl
  · exact h

end Mainboard

/-! ## The LCD text buffer: the claims -/

namespace Mainboard

/-- For a string of at most 255 characters that does not fit the rest of the
line, from a column within the line, `HlLcdPrintString` in a release build
copies the first `LCD_LINE_LENGTH - column` characters to the end of the
selected line and changes nothing else. -/
theorem HlLcdPrintString_truncates (l : Lcd) (s : State) (String : List Nat)
    (hL : l.LCD_LINE_LENGTH ≤ 255) (hoff : lcdOffset l s ≤ l.LCD_LINE_LENGTH)
    (hlen : String.length ≤ 255) (hover : lcdOffset l s + String.length > l.LCD_LINE_LENGTH) :
    HlLcdPrintString l String s = .ok
      (s.withLcdLine (secondLineSelected l s)
        (copyInto (s.lcdLine (secondLineSelected l s)) (lcdOffset l s) String
          (l.LCD_LINE_LENGTH - lcdOffset l s))) := by
  rw [HlLcdPrintString_eq l s String hL hoff]
  have h : min (String.length % 256) (l.LCD_LINE_LENGTH - lcdOffset l s) =
      l.LCD_LINE_LENGTH - lcdOffset l s := by
    omega
  rw [h]

/-- C18: when the column `c = address & LCD_LINE_OFFSET_MASK` and the string
satisfy `c + len ≤ 16`, `HlLcdPrintString` copies the whole string into columns
`c` to `c + len - 1` of the selected line and changes no other column of that
line, no byte of the other line, neither terminator, and not the current
address. -/
theorem HlLcdPrintString_fits (l : Lcd) (s : State) (String : List Nat)
    (hL : l.LCD_LINE_LENGTH = 16) (haddr : s.HlLcdCurrentAddress ≤ 255)
    (hfit : (s.HlLcdCurrentAddress &&& l.LCD_LINE_OFFSET_MASK) + String.length ≤ 16) :
    ∃ s', HlLcdPrintString l String s = .ok s' ∧
      (∀ i, i < String.length →
        s'.lcdLine (secondLineSelected l s)
          ((s.HlLcdCurrentAddress &&& l.LCD_LINE_OFFSET_MASK) + i) = String.getD i 0) ∧
      (∀ j, ¬ ((s.HlLcdCurrentAddress &&& l.LCD_LINE_OFFSET_MASK) ≤ j ∧
          j < (s.HlLcdCurrentAddress &&& l.LCD_LINE_OFFSET_MASK) + String.length) →
        s'.lcdLine (secondLineSelected l s) j = s.lcdLine (secondLineSelected l s) j) ∧
      s'.lcdLine (!secondLineSelected l s) = s.lcdLine (!secondLineSelected l s) ∧
      s'.HlLcdLine1 16 = s.HlLcdLine1 16 ∧ s'.HlLcdLine2 16 = s.HlLcdLine2 16 ∧
      s'.HlLcdCurrentAddress = s.HlLcdCurrentAddress := by
  have ho := lcdOffset_of_byte l s haddr
  have hoff : lcdOffset l s ≤ l.LCD_LINE_LENGTH := by omega
  have hn : min (String.length % 256) (l.LCD_LINE_LENGTH - lcdOffset l s) = String.length := by
    omega
  refine ⟨_, HlLcdPrintString_eq l s String (by omega) hoff, ?_, ?_, ?_, ?_, ?_, ?_⟩
  · intro i hi
    rw [withLcdLine_line, hn, ho]
    exact copyInto_inside _ _ _ _ i hi
  · intro j hj
    rw [withLcdLine_line, hn, ho]
    exact copyInto_outside _ _ _ _ j hj
  · exact withLcdLine_other _ _ _
  · apply withLcdLine_line1
    rw [hn, ho]
    exact copyInto_outside _ _ _ _ 16 (by omega)
  · apply withLcdLine_line2
    rw [hn, ho]
    exact copyInto_outside _ _ _ _ 16 (by omega)
  · exact withLcdLine_address _ _ _

theorem HlLcdPrintString_fits_witness :
    ∃ s', HlLcdPrintString lcd16 [72, 101, 108, 108, 111, 33]
        (HlSetLcdAddress 0x4A (HlClearLcdScreen lcd16 zeroState)) = .ok s' ∧
      s'.HlLcdLine2 15 = 33 ∧ s'.HlLcdLine2 9 = 32 ∧ s'.HlLcdLine1 3 = 32 ∧
      s'.HlLcdLine1 16 = 0 ∧ s'.HlLcdLine2 16 = 0 ∧ s'.HlLcdCurrentAddress = 0x4A :=
  (HlLcdPrintString_fits lcd16 (HlSetLcdAddress 0x4A (HlClearLcdScreen lcd16 zeroState))
    [72, 101, 108, 108, 111, 33] rfl (by decide) (by decide)).elim
    (fun s' h => ⟨s', h.1, (h.2.1 5 (by decide)).trans (by decide),
      (h.2.2.1 9 (by decide)).trans (by decide),
      (congrFun h.2.2.2.1 3).trans (by decide), h.2.2.2.2.1.trans (by decide),
      h.2.2.2.2.2.1.trans (by decide), h.2.2.2.2.2.2.trans (by decide)⟩)

/-- C19, the code at the failing input: at address 0 (column 0, line 1) a
string of 256 characters has `column + len = 256 > 16`, yet `HlLcdPrintString`
copies nothing: `strlen` is cut to the `UCHAR` 0 before the test, so the
columns 0 to 15 keep their spaces instead of receiving the first 16
characters. -/
theorem HlLcdPrintString_long_string :
    lcdOffset lcd16 (HlSetLcdAddress 0 (HlClearLcdScreen lcd16 zeroState)) +
      (List.replicate 256 65).length = 256 ∧
    lcdLength lcd16 (HlSetLcdAddress 0 (HlClearLcdScreen lcd16 zeroState))
      (List.replicate 256 65) = 0 ∧
    HlLcdPrintString lcd16 (List.replicate 256 65)
      (HlSetLcdAddress 0 (HlClearLcdScreen lcd16 zeroState)) =
        .ok (HlSetLcdAddress 0 (HlClearLcdScreen lcd16 zeroState)) ∧
    (HlSetLcdAddress 0 (HlClearLcdScreen lcd16 zeroState)).HlLcdLine1 0 = 32 := by
  have hlen : (List.replicate 256 65).length = 256 := List.length_replicate _ _
  have hoff : lcdOffset lcd16 (HlSetLcdAddress 0 (HlClearLcdScreen lcd16 zeroState)) = 0 := by
    decide
  refine ⟨by rw [hlen, hoff], ?_, ?_, by decide⟩
  · unfold lcdLength
    simp only [hlen, hoff]
    decide
  · rw [HlLcdPrintString_eq lcd16 _ _ (by decide) (by rw [hoff]; decide), hlen, hoff]
    have h : min (256 % 256) (lcd16.LCD_LINE_LENGTH - 0) = 0 := by decide
    rw [h, copyInto_zero]
    rfl

/-- When the line length is 16 and the offset mask keeps the column within the
line, every sequence of `HlClearLcdScreen`, `HlSetLcdAddress` and
`HlLcdPrintString` calls in a release build, started in a state whose two
terminators are NUL, runs to its end and leaves `HlLcdLine1[16]` and
`HlLcdLine2[16]` NUL. -/
theorem lcd_terminators_kept (l : Lcd) (hL : l.LCD_LINE_LENGTH = 16)
    (hmask : l.LCD_LINE_OFFSET_MASK ≤ 16) (calls : List LcdCall) (s : State)
    (h1 : s.HlLcdLine1 16 = 0) (h2 : s.HlLcdLine2 16 = 0) :
    ∃ s', runLcdCalls l calls s = .ok s' ∧ s'.HlLcdLine1 16 = 0 ∧ s'.HlLcdLine2 16 = 0 := by
  induction calls generalizing s with
  | nil => exact ⟨s, rfl, h1, h2⟩
  | cons call rest ih =>
    cases call with
    | ClearLcdScreen =>
      have c1 : (HlClearLcdScreen l s).HlLcdLine1 16 = 0 := by
        simp [HlClearLcdScreen, hL]
      have c2 : (HlClearLcdScreen l s).HlLcdLine2 16 = 0 := by
        simp [HlClearLcdScreen, hL]
      exact ih (HlClearLcdScreen l s) c1 c2
    | SetLcdAddress Address =>
      exact ih (HlSetLcdAddress Address s) h1 h2
    | LcdPrintString String =>
      have hoff : lcdOffset l s ≤ l.LCD_LINE_LENGTH := by
        have := lcdOffset_le_mask l s
        omega
      have hp := HlLcdPrintString_eq l s String (by omega) hoff
      have hout : copyInto (s.lcdLine (secondLineSelected l s)) (lcdOffset l s) String
          (min (String.length % 256) (l.LCD_LINE_LENGTH - lcdOffset l s)) 16 =
          s.lcdLine (secondLineSelected l s) 16 :=
        copyInto_outside _ _ _ _ 16 (by omega)
      have p1 := (withLcdLine_line1 s _ _ 16 hout).trans h1
      have p2 := (withLcdLine_line2 s _ _ 16 hout).trans h2
      obtain ⟨s', hs', t1, t2⟩ := ih _ p1 p2
      refine ⟨s', ?_, t1, t2⟩
      simp only [runLcdCalls, hp, hs']

theorem lcd_terminators_kept_witness :
    ∃ s', runLcdCalls lcd16
        [LcdCall.SetLcdAddress 0x4A, LcdCall.LcdPrintString (List.replicate 20 65),
          LcdCall.ClearLcdScreen, LcdCall.SetLcdAddress 255,
          LcdCall.LcdPrintString (List.replicate 300 66)] zeroState = .ok s' ∧
      s'.HlLcdLine1 16 = 0 ∧ s'.HlLcdLine2 16 = 0 :=
  lcd_terminators_kept lcd16 rfl (by decide) _ zeroState rfl rfl

/-- Whenever the column of the current address lies beyond the line, the
release build of `HlLcdPrintString` sets `Length` to `LCD_LINE_LENGTH - Offset`,
which wraps in the `UCHAR`, and the copy leaves the line, whatever the string. -/
theorem HlLcdPrintString_overrun (l : Lcd) (s : State) (String : List Nat)
    (hL : l.LCD_LINE_LENGTH ≤ 255) (hoff : l.LCD_LINE_LENGTH < lcdOffset l s) :
    lcdLength l s String = l.LCD_LINE_LENGTH + 256 - lcdOffset l s ∧
    HlLcdPrintString l String s = .error .OutOfBounds := by
  have h256 : lcdOffset l s < 256 := by
    unfold lcdOffset
    exact Nat.mod_lt _ (by decide)
  have hlen : lcdLength l s String = l.LCD_LINE_LENGTH + 256 - lcdOffset l s := by
    unfold lcdLength
    simp only
    rw [if_pos (by omega)]
    exact Nat.mod_eq_of_lt (by omega)
  refine ⟨hlen, ?_⟩
  have hcopy : ∀ Line : Nat → Nat, memcpyLine l Line (lcdOffset l s) String
      (lcdLength l s String) = .error .OutOfBounds := by
    intro Line
    unfold memcpyLine
    rw [if_neg]
    rw [hlen]
    omega
  unfold HlLcdPrintString
  simp only [hcopy]
  split_ifs <;> rfl

theorem HlLcdPrintString_overrun_witness :
    lcdLength lcd5bit (HlSetLcdAddress 30 zeroState) [72, 105] =
      lcd5bit.LCD_LINE_LENGTH + 256 - lcdOffset lcd5bit (HlSetLcdAddress 30 zeroState) ∧
    HlLcdPrintString lcd5bit [72, 105] (HlSetLcdAddress 30 zeroState) = .error .OutOfBounds :=
  HlLcdPrintString_overrun lcd5bit (HlSetLcdAddress 30 zeroState) [72, 105] (by decide)
    (by decide)

end Mainboard

/-! ## Glyph bit layout -/

namespace Mainboard

theorem and_one_shiftLeft_ne_zero (x k : Nat) :
    (x &&& (1 <<< k) != 0) = x.testBit k := by
  rw [Nat.one_shiftLeft]
  cases h : x.testBit k with
  | true =>
    have h1 : (x &&& 2 ^ k).testBit k = true := by
      rw [Nat.testBit_and, h, Nat.testBit_two_pow_self]
      rfl
    have h2 : x &&& 2 ^ k ≠ 0 := by
      intro h0
      rw [h0, Nat.zero_testBit] at h1
      exact Bool.noConfusion h1
    exact bne_iff_ne.mpr h2
  | false =>
    have h0 : x &&& 2 ^ k = 0 := by
      apply Nat.eq_of_testBit_eq
      intro i
      rw [Nat.testBit_and, Nat.zero_testBit, Nat.testBit_two_pow]
      by_cases hi : k = i
      · subst hi
        rw [h]
        rfl
      · simp [hi]
    rw [h0]
    rfl

theorem shiftRight_and_one_ne_zero (x k : Nat) :
    (x >>> k &&& 1 != 0) = x.testBit k := by
  unfold Nat.testBit
  rw [Nat.and_comm]

theorem bitSet3x5_layout (b : Board) (ch c r : Nat) (hc : c < 3) :
    bitSet3x5 b ch 0 c r = layout3x5 (b.KeFontData3x5 ch 0) (b.KeFontData3x5 ch 1) c r := by
  unfold bitSet3x5 layout3x5
  simp only [and_one_shiftLeft_ne_zero]
  have hc' : c = 0 ∨ c = 1 ∨ c = 2 := by omega
  rcases hc' with rfl | rfl | rfl
  · simp
  · by_cases hr : r < 3
    · simp [hr]
    · have hr' : 3 ≤ r := by omega
      simp [hr, hr']
  · simp

theorem glyphLit_5x7 (b : Board) (Size ch c r : Nat) (hS : Size ≠ 0) (hr : r < 8) :
    glyphLit b Size ch c r = (b.KeFontData5x7 ch c).testBit r := by
  unfold glyphLit
  rw [if_neg hS, shiftRight_and_one_ne_zero]
  have h := Nat.testBit_mod_two_pow (b.KeFontData5x7 ch c) 8 r
  norm_num at h
  rw [h]
  simp [hr]

end Mainboard

/-! ## Glyph bit layout and frame of the glyph printer: the claims -/

namespace Mainboard

theorem layout3x5_bit0 (b0 b1 b1' c r : Nat) (hr : r < 5)
    (h : ∀ i, 1 ≤ i → b1'.testBit i = b1.testBit i) :
    layout3x5 b0 b1' c r = layout3x5 b0 b1 c r := by
  unfold layout3x5
  rw [h (7 - (r - 3)) (by omega), h (5 - r) (by omega)]

/-- C23: for size 0 the cell at box row `r` (0 to 4) and box column `c` (0 to
2), when it lies in the matrix, receives the colour exactly when: `c = 0` and
bit `7 - r` of byte 0 is set; or `c = 1`, `r < 3` and bit `2 - r` of byte 0 is
set; or `c = 1`, `r ≥ 3` and bit `7 - (r - 3)` of byte 1 is set; or `c = 2`
and bit `5 - r` of byte 1 is set; otherwise it receives 0.  A font table that
differs only in bit 0 of byte 1 gives the same cell. -/
theorem HlPrintText_3x5_layout (b : Board) (hfit : b.Fits) (X Y Character Color : Nat)
    (s : State) (c r : Nat) (hc : c < 3) (hr : r < 5)
    (hx : X + c < b.MATRIX_WIDTH) (hy : Y + r < b.MATRIX_HEIGHT) :
    ∃ s1, HlPrintText b 0 X Y Character Color s = .ok s1 ∧
      s1.HlTextColor (Y + r) (X + c) =
        (if layout3x5 (b.KeFontData3x5 (mapCharacter3x5 b Character) 0)
            (b.KeFontData3x5 (mapCharacter3x5 b Character) 1) c r then Color else 0) ∧
      (∀ f : Nat → Nat → Nat,
        f (mapCharacter3x5 b Character) 0 = b.KeFontData3x5 (mapCharacter3x5 b Character) 0 →
        (∀ i, 1 ≤ i → (f (mapCharacter3x5 b Character) 1).testBit i =
          (b.KeFontData3x5 (mapCharacter3x5 b Character) 1).testBit i) →
        ∃ s2, HlPrintText { b with KeFontData3x5 := f } 0 X Y Character Color s = .ok s2 ∧
          s2.HlTextColor (Y + r) (X + c) = s1.HlTextColor (Y + r) (X + c)) := by
  have hbox : ∀ b' : Board, b'.MATRIX_WIDTH = b.MATRIX_WIDTH →
      b'.MATRIX_HEIGHT = b.MATRIX_HEIGHT →
      printedText b' 0 X Y Character Color s.HlTextColor (Y + r) (X + c) =
        if layout3x5 (b'.KeFontData3x5 (mapCharacter3x5 b' Character) 0)
            (b'.KeFontData3x5 (mapCharacter3x5 b' Character) 1) c r then Color else 0 := by
    intro b' hw hh
    rw [printedText_inside b' 0 X Y Character Color _ (Y + r) (X + c)
      ⟨Nat.le_add_right _ _, by unfold boxWidth; rw [if_pos rfl]; omega, by omega,
        Nat.le_add_right _ _, by unfold boxHeight; rw [if_pos rfl]; omega, by omega⟩]
    rw [Nat.add_sub_cancel_left, Nat.add_sub_cancel_left]
    unfold glyphLit
    rw [if_pos rfl, bitSet3x5_layout b' _ c r hc]
  refine ⟨_, HlPrintText_eq b hfit 0 X Y Character Color s, hbox b rfl rfl, ?_⟩
  intro f h0 h1
  refine ⟨_, HlPrintText_eq { b with KeFontData3x5 := f } hfit 0 X Y Character Color s, ?_⟩
  have e1 := hbox { b with KeFontData3x5 := f } rfl rfl
  have e2 := hbox b rfl rfl
  have hm : mapCharacter3x5 { b with KeFontData3x5 := f } Character =
      mapCharacter3x5 b Character := rfl
  show printedText { b with KeFontData3x5 := f } 0 X Y Character Color s.HlTextColor
      (Y + r) (X + c) = printedText b 0 X Y Character Color s.HlTextColor (Y + r) (X + c)
  rw [e1, e2, hm]
  show (if layout3x5 (f (mapCharacter3x5 b Character) 0) (f (mapCharacter3x5 b Character) 1)
      c r then Color else 0) = _
  rw [h0, layout3x5_bit0 _ _ _ c r hr h1]

theorem HlPrintText_3x5_layout_witness :
    ∃ s1, HlPrintText board8 0 2 1 65 7 overlayState = .ok s1 ∧
      s1.HlTextColor (1 + 3) (2 + 1) =
        (if layout3x5 (board8.KeFontData3x5 (mapCharacter3x5 board8 65) 0)
            (board8.KeFontData3x5 (mapCharacter3x5 board8 65) 1) 1 3 then 7 else 0) ∧
      (∀ f : Nat → Nat → Nat,
        f (mapCharacter3x5 board8 65) 0 = board8.KeFontData3x5 (mapCharacter3x5 board8 65) 0 →
        (∀ i, 1 ≤ i → (f (mapCharacter3x5 board8 65) 1).testBit i =
          (board8.KeFontData3x5 (mapCharacter3x5 board8 65) 1).testBit i) →
        ∃ s2, HlPrintText { board8 with KeFontData3x5 := f } 0 2 1 65 7 overlayState = .ok s2 ∧
          s2.HlTextColor (1 + 3) (2 + 1) = s1.HlTextColor (1 + 3) (2 + 1)) :=
  HlPrintText_3x5_layout board8 (by decide) 2 1 65 7 overlayState 1 3 (by decide) (by decide)
    (by decide) (by decide)

/-- C24: for every size selector other than 0 the cell at box row `r` (0 to 7)
and box column `c` (0 to 4), when it lies in the matrix, receives the colour
exactly when bit `r` of column byte `c` of the 5 x 7 table entry is set, and 0
otherwise; all eight rows are written. -/
theorem HlPrintText_5x7_layout (b : Board) (hfit : b.Fits) (Size X Y Character Color : Nat)
    (s : State) (c r : Nat) (hS : Size ≠ 0) (hc : c < 5) (hr : r < 8)
    (hx : X + c < b.MATRIX_WIDTH) (hy : Y + r < b.MATRIX_HEIGHT) :
    ∃ s1, HlPrintText b Size X Y Character Color s = .ok s1 ∧
      s1.HlTextColor (Y + r) (X + c) =
        (if (b.KeFontData5x7 Character c).testBit r then Color else 0) := by
  refine ⟨_, HlPrintText_eq b hfit Size X Y Character Color s, ?_⟩
  show printedText b Size X Y Character Color s.HlTextColor (Y + r) (X + c) = _
  rw [printedText_inside b Size X Y Character Color _ (Y + r) (X + c)
    ⟨Nat.le_add_right _ _, by unfold boxWidth; rw [if_neg hS]; omega, by omega,
      Nat.le_add_right _ _, by unfold boxHeight; rw [if_neg hS]; omega, by omega⟩]
  rw [Nat.add_sub_cancel_left, Nat.add_sub_cancel_left, glyphLit_5x7 b Size Character c r hS hr]

theorem HlPrintText_5x7_layout_witness :
    ∃ s1, HlPrintText board8 2 3 0 65 7 overlayState = .ok s1 ∧
      s1.HlTextColor (0 + 7) (3 + 4) =
        (if (board8.KeFontData5x7 65 4).testBit 7 then 7 else 0) :=
  HlPrintText_5x7_layout board8 (by decide) 2 3 0 65 7 overlayState 4 7 (by decide) (by decide)
    (by decide) (by decide) (by decide)

/-- C26: on a matrix of at most 255 rows and columns `HlPrintText` returns a
state in which every overlay cell outside the glyph box at `(XPosition,
YPosition)` (3 by 5 for size 0, 5 by 8 otherwise) is as before, and so are the
hardware values, the shadow matrix, the shadow indicators and the LCD lines
and address. -/
theorem HlPrintText_frame (b : Board) (hfit : b.Fits) (Size X Y Character Color : Nat)
    (s : State) :
    ∃ s1, HlPrintText b Size X Y Character Color s = .ok s1 ∧
      (∀ r c, ¬ (X ≤ c ∧ c < X + boxWidth Size ∧ Y ≤ r ∧ r < Y + boxHeight Size) →
        s1.HlTextColor r c = s.HlTextColor r c) ∧
      s1.HlMatrix = s.HlMatrix ∧
      s1.HlTrackball1 = s.HlTrackball1 ∧ s1.HlTrackball2 = s.HlTrackball2 ∧
      s1.HlWhiteLeds = s.HlWhiteLeds ∧
      s1.HlLcdLine1 = s.HlLcdLine1 ∧ s1.HlLcdLine2 = s.HlLcdLine2 ∧
      s1.HlLcdCurrentAddress = s.HlLcdCurrentAddress ∧
      s1.KeMatrix = s.KeMatrix ∧ s1.KeTrackball1 = s.KeTrackball1 ∧
      s1.KeTrackball2 = s.KeTrackball2 ∧ s1.KeWhiteLeds = s.KeWhiteLeds := by
  refine ⟨_, HlPrintText_eq b hfit Size X Y Character Color s, ?_, rfl, rfl, rfl, rfl, rfl, rfl,
    rfl, rfl, rfl, rfl, rfl⟩
  intro r c hout
  exact printedText_outside b Size X Y Character Color _ r c
    (fun h => hout ⟨h.1, h.2.1, h.2.2.2.1, h.2.2.2.2.1⟩)

theorem HlPrintText_frame_witness :
    ∃ s1, HlPrintText board8 1 2 1 65 9 overlayState = .ok s1 ∧
      (∀ r c, ¬ (2 ≤ c ∧ c < 2 + boxWidth 1 ∧ 1 ≤ r ∧ r < 1 + boxHeight 1) →
        s1.HlTextColor r c = overlayState.HlTextColor r c) ∧
      s1.HlMatrix = overlayState.HlMatrix ∧
      s1.HlTrackball1 = overlayState.HlTrackball1 ∧
      s1.HlTrackball2 = overlayState.HlTrackball2 ∧
      s1.HlWhiteLeds = overlayState.HlWhiteLeds ∧
      s1.HlLcdLine1 = overlayState.HlLcdLine1 ∧ s1.HlLcdLine2 = overlayState.HlLcdLine2 ∧
      s1.HlLcdCurrentAddress = overlayState.HlLcdCurrentAddress ∧
      s1.KeMatrix = overlayState.KeMatrix ∧ s1.KeTrackball1 = overlayState.KeTrackball1 ∧
      s1.KeTrackball2 = overlayState.KeTrackball2 ∧
      s1.KeWhiteLeds = overlayState.KeWhiteLeds :=
  HlPrintText_frame board8 (by decide) 1 2 1 65 9 overlayState

end Mainboard

/-! ## LCD address, clear, trackball range and off colour: the claims -/

namespace Mainboard

/-- For an address of at most 127 the byte stored by `HlSetLcdAddress` is the
address, and the following `HlLcdPrintString` selects line 2 exactly when the
address is at least `LCD_SECOND_LINE`, at column
`address & LCD_LINE_OFFSET_MASK`. -/
theorem HlSetLcdAddress_low (l : Lcd) (Address : Nat) (s : State) (h : Address ≤ 127) :
    (HlSetLcdAddress Address s).HlLcdCurrentAddress = Address ∧
    (secondLineSelected l (HlSetLcdAddress Address s) = true ↔ l.LCD_SECOND_LINE ≤ Address) ∧
    lcdOffset l (HlSetLcdAddress Address s) = Address &&& l.LCD_LINE_OFFSET_MASK := by
  have hs : (HlSetLcdAddress Address s).HlLcdCurrentAddress = Address :=
    Nat.mod_eq_of_lt (by omega)
  refine ⟨hs, ?_, ?_⟩
  · unfold secondLineSelected
    rw [hs, decide_eq_true_iff]
    unfold charValue
    rw [if_pos (by omega)]
    omega
  · rw [lcdOffset_of_byte l _ (by rw [hs]; omega), hs]

/-- C21, the code at the failing input: the address `0xC0` is at least
`LCD_SECOND_LINE = 0x40`, so the claim has the string written to line 2; but
the address is kept in a `CHAR`, read as `-64` by the comparison, and
`HlLcdPrintString` writes the string to line 1 at column 0 and leaves line 2
alone. -/
theorem HlSetLcdAddress_high_address :
    lcd16.LCD_SECOND_LINE ≤ 0xC0 ∧
    (HlSetLcdAddress 0xC0 (HlClearLcdScreen lcd16 zeroState)).HlLcdCurrentAddress = 0xC0 ∧
    charValue 0xC0 = -64 ∧
    secondLineSelected lcd16 (HlSetLcdAddress 0xC0 (HlClearLcdScreen lcd16 zeroState)) = false ∧
    (HlLcdPrintString lcd16 [72, 105]
        (HlSetLcdAddress 0xC0 (HlClearLcdScreen lcd16 zeroState))).map
      (fun s' => (s'.HlLcdLine1 0, s'.HlLcdLine1 1, s'.HlLcdLine2 0, s'.HlLcdLine2 1)) =
      .ok (72, 105, 32, 32) := by
  refine ⟨by decide, by decide, by decide, by decide, ?_⟩
  rw [HlLcdPrintString_eq lcd16 _ _ (by decide) (by decide)]
  simp only [Except.map, Except.ok.injEq, Prod.mk.injEq]
  refine ⟨by decide, by decide, by decide, by decide⟩

/-- C22: after `HlClearLcdScreen`, with a line length of 16, each of the two
lines holds 16 spaces followed by the NUL terminator, and the current address
is as before. -/
theorem HlClearLcdScreen_fills (l : Lcd) (s : State) (hL : l.LCD_LINE_LENGTH = 16) :
    (∀ i, i < 16 → (HlClearLcdScreen l s).HlLcdLine1 i = 32) ∧
    (HlClearLcdScreen l s).HlLcdLine1 16 = 0 ∧
    (∀ i, i < 16 → (HlClearLcdScreen l s).HlLcdLine2 i = 32) ∧
    (HlClearLcdScreen l s).HlLcdLine2 16 = 0 ∧
    (HlClearLcdScreen l s).HlLcdCurrentAddress = s.HlLcdCurrentAddress := by
  refine ⟨?_, ?_, ?_, ?_, rfl⟩
  · intro i hi
    show (if i = l.LCD_LINE_LENGTH then 0
      else if i < l.LCD_LINE_LENGTH then 32 else s.HlLcdLine1 i) = 32
    rw [if_neg (by omega), if_pos (by omega)]
  · show (if 16 = l.LCD_LINE_LENGTH then 0
      else if 16 < l.LCD_LINE_LENGTH then 32 else s.HlLcdLine1 16) = 0
    rw [if_pos hL.symm]
  · intro i hi
    show (if i = l.LCD_LINE_LENGTH then 0
      else if i < l.LCD_LINE_LENGTH then 32 else s.HlLcdLine2 i) = 32
    rw [if_neg (by omega), if_pos (by omega)]
  · show (if 16 = l.LCD_LINE_LENGTH then 0
      else if 16 < l.LCD_LINE_LENGTH then 32 else s.HlLcdLine2 16) = 0
    rw [if_pos hL.symm]

theorem HlClearLcdScreen_fills_witness :
    (HlClearLcdScreen lcd16 (HlSetLcdAddress 0x43 zeroState)).HlLcdLine1 15 = 32 ∧
    (HlClearLcdScreen lcd16 (HlSetLcdAddress 0x43 zeroState)).HlLcdLine1 16 = 0 ∧
    (HlClearLcdScreen lcd16 (HlSetLcdAddress 0x43 zeroState)).HlLcdLine2 0 = 32 ∧
    (HlClearLcdScreen lcd16 (HlSetLcdAddress 0x43 zeroState)).HlLcdLine2 16 = 0 ∧
    (HlClearLcdScreen lcd16 (HlSetLcdAddress 0x43 zeroState)).HlLcdCurrentAddress =
      (HlSetLcdAddress 0x43 zeroState).HlLcdCurrentAddress :=
  have h := HlClearLcdScreen_fills lcd16 (HlSetLcdAddress 0x43 zeroState) rfl
  ⟨h.1 15 (by decide), h.2.1, h.2.2.1 0 (by decide), h.2.2.2.1, h.2.2.2.2⟩

/-- C25, as stated, fails: with every channel of trackball 1 equal to 0 and a
white value of 16, all within 0 to 31, the green value handed to `RGB_PIXEL`
for trackball 1 is 32. -/
theorem trackball1_green_counterexample :
    board8.PIXEL_RED 0 = 0 ∧ board8.PIXEL_GREEN 0 = 0 ∧ board8.PIXEL_BLUE 0 = 0 ∧
    board8.WHITEPIXEL_TRACKBALL1 16384 = 16 ∧
    trackball1Channels board8 { zeroState with KeWhiteLeds := 16384 } = (16, 32, 16) := by
  decide

/-- C25, amended: for channels and white values in 0 to 31, the red and blue
values handed to `RGB_PIXEL` for trackball 1 and all three values for
trackball 2 are in 0 to 31; the green value for trackball 1 is
`max g (2 * w)`, which is at most 62, and at most 31 when `w ≤ 15`. -/
theorem trackball_channels_range (b : Board) (s : State)
    (hr1 : b.PIXEL_RED s.KeTrackball1 ≤ 31) (hg1 : b.PIXEL_GREEN s.KeTrackball1 ≤ 31)
    (hb1 : b.PIXEL_BLUE s.KeTrackball1 ≤ 31)
    (hw1 : b.WHITEPIXEL_TRACKBALL1 s.KeWhiteLeds ≤ 31)
    (hr2 : b.PIXEL_RED s.KeTrackball2 ≤ 31) (hg2 : b.PIXEL_GREEN s.KeTrackball2 ≤ 31)
    (hb2 : b.PIXEL_BLUE s.KeTrackball2 ≤ 31)
    (hw2 : b.WHITEPIXEL_TRACKBALL2 s.KeWhiteLeds ≤ 31) :
    (trackball1Channels b s).1 ≤ 31 ∧
    (trackball1Channels b s).2.1 =
      max (b.PIXEL_GREEN s.KeTrackball1) (2 * b.WHITEPIXEL_TRACKBALL1 s.KeWhiteLeds) ∧
    (trackball1Channels b s).2.1 ≤ 62 ∧
    (b.WHITEPIXEL_TRACKBALL1 s.KeWhiteLeds ≤ 15 → (trackball1Channels b s).2.1 ≤ 31) ∧
    (trackball1Channels b s).2.2 ≤ 31 ∧
    (trackball2Channels b s).1 ≤ 31 ∧ (trackball2Channels b s).2.1 ≤ 31 ∧
    (trackball2Channels b s).2.2 ≤ 31 := by
  have e1 : trackball1Channels b s =
      (max (b.PIXEL_RED s.KeTrackball1) (b.WHITEPIXEL_TRACKBALL1 s.KeWhiteLeds),
        max (b.PIXEL_GREEN s.KeTrackball1) (2 * b.WHITEPIXEL_TRACKBALL1 s.KeWhiteLeds),
        max (b.PIXEL_BLUE s.KeTrackball1) (b.WHITEPIXEL_TRACKBALL1 s.KeWhiteLeds)) := by
    unfold trackball1Channels
    simp only [Nat.mod_eq_of_lt (show b.PIXEL_RED s.KeTrackball1 < 256 by omega),
      Nat.mod_eq_of_lt (show b.PIXEL_GREEN s.KeTrackball1 < 256 by omega),
      Nat.mod_eq_of_lt (show b.PIXEL_BLUE s.KeTrackball1 < 256 by omega),
      Nat.mod_eq_of_lt (show b.WHITEPIXEL_TRACKBALL1 s.KeWhiteLeds < 256 by omega),
      Nat.mod_eq_of_lt (show b.WHITEPIXEL_TRACKBALL1 s.KeWhiteLeds * 2 < 256 by omega)]
    refine Prod.ext ?_ (Prod.ext ?_ ?_) <;> simp only <;> split_ifs <;> omega
  have e2 : trackball2Channels b s =
      (max (b.PIXEL_RED s.KeTrackball2) (b.WHITEPIXEL_TRACKBALL2 s.KeWhiteLeds),
        max (b.PIXEL_GREEN s.KeTrackball2) (b.WHITEPIXEL_TRACKBALL2 s.KeWhiteLeds),
        max (b.PIXEL_BLUE s.KeTrackball2) (b.WHITEPIXEL_TRACKBALL2 s.KeWhiteLeds)) := by
    unfold trackball2Channels
    simp only [Nat.mod_eq_of_lt (show b.PIXEL_RED s.KeTrackball2 < 256 by omega),
      Nat.mod_eq_of_lt (show b.PIXEL_GREEN s.KeTrackball2 < 256 by omega),
      Nat.mod_eq_of_lt (show b.PIXEL_BLUE s.KeTrackball2 < 256 by omega),
      Nat.mod_eq_of_lt (show b.WHITEPIXEL_TRACKBALL2 s.KeWhiteLeds < 256 by omega)]
    refine Prod.ext ?_ (Prod.ext ?_ ?_) <;> simp only <;> split_ifs <;> omega
  rw [e1, e2]
  simp only
  refine ⟨by omega, trivial, by omega, fun h => by omega, by omega, by omega, by omega, by omega⟩

theorem trackball_channels_range_witness :
    (trackball1Channels board8 { zeroState with KeTrackball1 := 10400, KeWhiteLeds := 8192 }).1
      ≤ 31 ∧
    (trackball1Channels board8
      { zeroState with KeTrackball1 := 10400, KeWhiteLeds := 8192 }).2.1 ≤ 62 ∧
    (trackball2Channels board8
      { zeroState with KeTrackball1 := 10400, KeWhiteLeds := 8192 }).2.1 ≤ 31 :=
  have h := trackball_channels_range board8
    { zeroState with KeTrackball1 := 10400, KeWhiteLeds := 8192 }
    (by decide) (by decide) (by decide) (by decide) (by decide) (by decide) (by decide)
    (by decide)
  ⟨h.1, h.2.2.1, h.2.2.2.2.2.2.1⟩

theorem HlpPixelToColorRef_zero (b : Board) (hr : b.PIXEL_RED 0 = 0) (hg : b.PIXEL_GREEN 0 = 0)
    (hb : b.PIXEL_BLUE 0 = 0) : HlpPixelToColorRef b 0 = OFF_COLOR := by
  unfold HlpPixelToColorRef OFF_COLOR
  rw [hr, hg, hb]
  rfl

theorem penColor_pixelPen (b : Board) (hr : b.PIXEL_RED 0 = 0) (hg : b.PIXEL_GREEN 0 = 0)
    (hb : b.PIXEL_BLUE 0 = 0) (Pixel : Nat) :
    penColor b (pixelPen Pixel) = some (HlpPixelToColorRef b Pixel) := by
  unfold pixelPen
  by_cases h : Pixel = 0
  · subst h
    rw [if_neg (fun h => h rfl), HlpPixelToColorRef_zero b hr hg hb]
    rfl
  · rw [if_pos h]
    rfl

/-- C27: when the three channel macros give 0 for the pixel 0,
`HlpPixelToColorRef` of the pixel 0 is `OFF_COLOR = RGB(0x50, 0x50, 0x50)`; so
the dot that the repaint (given its pens) draws at a cell, with the off pen for
a resolved pixel of 0 and a pen made by `HlpPixelToColorRef` otherwise, has for
every cell the colour `HlpPixelToColorRef` gives for the resolved pixel. -/
theorem HlpRedrawMatrix_off_color (b : Board) (ok : Nat → Bool) (s : State) (dc : HDC)
    (hr : b.PIXEL_RED 0 = 0) (hg : b.PIXEL_GREEN 0 = 0) (hb : b.PIXEL_BLUE 0 = 0)
    (hok : ∀ n, ok n = true) :
    OFF_COLOR = RGB 0x50 0x50 0x50 ∧
    HlpPixelToColorRef b 0 = OFF_COLOR ∧
    (∀ y x, y < b.MATRIX_HEIGHT → x < b.MATRIX_WIDTH →
      (dotAt (HlpRedrawMatrix b ok s dc).2 y x).bind (penColor b) =
        some (HlpPixelToColorRef b (resolveCell s y x).1)) ∧
    (∀ y x, y < b.MATRIX_HEIGHT → x < b.MATRIX_WIDTH → (resolveCell s y x).1 = 0 →
      dotAt (HlpRedrawMatrix b ok s dc).2 y x = some (Pen.Off MATRIX_PIXEL_WIDTH)) := by
  have hrep := HlpRedrawMatrix_repainted b ok s dc (hok 0)
  refine ⟨rfl, HlpPixelToColorRef_zero b hr hg hb, ?_, ?_⟩
  · intro y x hy hx
    rw [hrep.dot hok y x hy hx, Option.some_bind, penColor_pixelPen b hr hg hb]
  · intro y x hy hx hz
    rw [hrep.dot hok y x hy hx, hz]
    rfl

theorem HlpRedrawMatrix_off_color_witness :
    HlpPixelToColorRef board8 0 = OFF_COLOR ∧
    (dotAt (HlpRedrawMatrix board8 everyPen zeroState blankDc).2 2 3).bind (penColor board8) =
      some (HlpPixelToColorRef board8 (resolveCell zeroState 2 3).1) ∧
    dotAt (HlpRedrawMatrix board8 everyPen zeroState blankDc).2 2 3 =
      some (Pen.Off MATRIX_PIXEL_WIDTH) :=
  have h := HlpRedrawMatrix_off_color board8 everyPen zeroState blankDc (by decide) (by decide)
    (by decide) (fun _ => rfl)
  ⟨h.2.1, h.2.2.1 2 3 (by decide) (by decide), h.2.2.2 2 3 (by decide) (by decide) (by decide)⟩

end Mainboard
